import Mathlib

/-!
Verification of the Memory Scramble board implementation (`src/board.ts`).

The definitions below are a shallow embedding of the TypeScript source.
Mutable object state becomes an explicit `Board` value threaded through
every operation; JavaScript `Map`s become association lists
(`setA` / `lookupA` / `eraseA` model `Map.set` / `Map.get` / `Map.delete`,
which replace in place and preserve insertion order); the promise-based
waiter handles and the change-watcher callbacks become numeric tokens
whose resolution is recorded in append-only logs (`woken`, `delivered`),
so that "this callback was invoked" is observable in the final state.
`flipUp` is modelled as a single step: the 1-D branch enqueues a waiter
and returns `suspended` instead of blocking, matching the source up to
(but not including) the `await` on the deferred promise.
-/

namespace MemoryScramble

/-- Whitespace test modelling the JavaScript regular expression `/\s/`
on the ASCII range (space, tab, line feed, vertical tab, form feed,
carriage return); the pictures and ids in play contain only ASCII. -/
def isWS (ch : Char) : Bool :=
  ch == ' ' || ch == '\t' || ch == '\n' || ch == '\r' ||
    ch == Char.ofNat 11 || ch == Char.ofNat 12

/-- JavaScript `String.prototype.trim`: drop whitespace from both ends. -/
def jsTrimList (cs : List Char) : List Char :=
  ((cs.dropWhile isWS).reverse.dropWhile isWS).reverse

/-- JavaScript `Array.prototype.join(sep)` for a one-character separator,
on character lists. -/
def joinCh (sep : Char) : List (List Char) → List Char
  | [] => []
  | [l] => l
  | l :: l' :: ls => l ++ sep :: joinCh sep (l' :: ls)

/-- `lines.join('\n')` on strings. -/
def joinLines (ls : List String) : String :=
  String.mk (joinCh '\n' (ls.map String.data))

/-- `Map.get k`: first value stored under `k`. -/
def lookupA [DecidableEq α] (m : List (α × β)) (k : α) : Option β :=
  match m with
  | [] => none
  | e :: rest => if e.1 = k then some e.2 else lookupA rest k

/-- `Map.set k v`: replace in place when `k` is present, append otherwise
(JavaScript `Map` keys are unique and insertion-ordered, so replacing the
first occurrence is exact). -/
def setA [DecidableEq α] (m : List (α × β)) (k : α) (v : β) : List (α × β) :=
  match m with
  | [] => [(k, v)]
  | e :: rest => if e.1 = k then (k, v) :: rest else e :: setA rest k v

/-- `Map.delete k`. -/
def eraseA [DecidableEq α] (m : List (α × β)) (k : α) : List (α × β) :=
  m.filter (fun e => decide (e.1 ≠ k))

/-- Safe 2-D index into the parallel matrices: `m[r]?.[c]`. -/
def getCell2 (m : List (List α)) (r c : Nat) : Option α :=
  (m.get? r).bind (fun row => row.get? c)

/-- In-place update `m[r][c] = v` (a no-op when the indices are out of
range, as the source never updates out of range). -/
def setCell2 (m : List (List α)) (r c : Nat) (v : α) : List (List α) :=
  m.set r ((m.getD r []).set c v)

/-- Modelled from the spec: the `Player` record of `src/player.js`, a file
that is not among the sources.  Spec §3 gives its fields — `id`,
optional `firstCard` / `secondCard` positions and a flip counter — and the
behaviour used by the board: `new Player(id)` starts with empty card slots
and zero flips, `isFirstCardFlip()` holds exactly when `firstCard` is
none, `clearCards` empties both slots, `recordFlip` increments the
counter, and the setters store the given position. -/
structure Player where
  id : String
  firstCard : Option (Nat × Nat)
  secondCard : Option (Nat × Nat)
  flipCount : Nat
deriving DecidableEq, Repr

/-- A fresh player, as produced by `new Player(id)`. -/
def Player.new (id : String) : Player :=
  { id := id, firstCard := none, secondCard := none, flipCount := 0 }

/-- The mutable state of `class Board`.  The three parallel matrices, the
player registry, the waiter queues (`waitingForControl`), the lingering
lists and the change watchers are the fields of the source class; the
`delivered` and `woken` logs record which watcher / waiter callbacks have
been resolved, and `nextWaiter` numbers the deferred promises. -/
structure Board where
  rows : Nat
  cols : Nat
  cards : List (List (Option String))
  faceUp : List (List Bool)
  controller : List (List (Option String))
  players : List (String × Player)
  waiting : List ((Nat × Nat) × List Nat)
  lingering : List (String × List (Nat × Nat))
  changeResolvers : List (String × List Nat)
  delivered : List (Nat × String)
  woken : List Nat
  nextWaiter : Nat
deriving DecidableEq, Repr

/-- Errors thrown by the source (one constructor per thrown message). -/
inductive Err where
  | outOfBounds
  | unknownPlayer
  | emptySpace
  | controlled
  | sameCardTwice
  | invalidPlayerId
  | alreadyFaceDown
  | repViolation
  | invalidFile
  | missingHeader
  | invalidHeader
  | invalidDimensions
  | wrongCardCount
  | invalidCard (line : Nat)
deriving DecidableEq, Repr

/-- Outcome of one `flipUp` step: return, throw, or park on a cell. -/
inductive FlipResult where
  | ok
  | err (e : Err)
  | suspended
deriving DecidableEq, Repr

instance {ε : Type u} {α : Type v} [DecidableEq ε] [DecidableEq α] :
    DecidableEq (Except ε α) := fun a b =>
  match a, b with
  | .error e, .error e' =>
    if h : e = e' then .isTrue (by rw [h])
    else .isFalse (by intro hh; cases hh; exact h rfl)
  | .ok x, .ok y =>
    if h : x = y then .isTrue (by rw [h])
    else .isFalse (by intro hh; cases hh; exact h rfl)
  | .error _, .ok _ => .isFalse (by intro hh; cases hh)
  | .ok _, .error _ => .isFalse (by intro hh; cases hh)

namespace Board

/-- `this.cards[row]?.[col] ?? null`. -/
def cardAt (b : Board) (r c : Nat) : Option String :=
  (getCell2 b.cards r c).getD none

/-- `this.faceUp[row]?.[col] ?? false`. -/
def upAt (b : Board) (r c : Nat) : Bool :=
  (getCell2 b.faceUp r c).getD false

/-- `this.controller[row]?.[col] ?? null`. -/
def ctrlAt (b : Board) (r c : Nat) : Option String :=
  (getCell2 b.controller r c).getD none

/-- `this.players.has(pid)`. -/
def hasPlayer (b : Board) (pid : String) : Bool :=
  (lookupA b.players pid).isSome

/-- The player stored under `pid` (total: the callers have checked
`players.has(pid)`, so the default is never read from a reachable call). -/
def getPlayerD (b : Board) (pid : String) : Player :=
  (lookupA b.players pid).getD (Player.new pid)

def setCard (b : Board) (r c : Nat) (v : Option String) : Board :=
  { b with cards := setCell2 b.cards r c v }

def setUp (b : Board) (r c : Nat) (v : Bool) : Board :=
  { b with faceUp := setCell2 b.faceUp r c v }

def setCtrl (b : Board) (r c : Nat) (v : Option String) : Board :=
  { b with controller := setCell2 b.controller r c v }

/-- Store a new value for the player record under `pid`. -/
def setPlayerState (b : Board) (pid : String) (p : Player) : Board :=
  { b with players := setA b.players pid p }

/-- `player.clearCards()`: empty both card slots of `pid`'s record. -/
def clearCardsOf (b : Board) (pid : String) : Board :=
  let p := b.getPlayerD pid
  b.setPlayerState pid { p with firstCard := none, secondCard := none }

/-- The waiter queue currently parked on cell `(r, c)`. -/
def queueAt (b : Board) (r c : Nat) : List Nat :=
  (lookupA b.waiting (r, c)).getD []

/-- `rememberLingering`: push `(row, col)` onto `pid`'s lingering list. -/
def rememberLingering (b : Board) (pid : String) (row col : Nat) : Board :=
  let list := (lookupA b.lingering pid).getD [] ++ [(row, col)]
  { b with lingering := setA b.lingering pid list }

/-- `notifyWaiters`: resolve every deferred promise queued on `(row, col)`
in FIFO order and delete the queue entry. -/
def notifyWaiters (b : Board) (row col : Nat) : Board :=
  { b with
    woken := b.woken ++ b.queueAt row col,
    waiting := eraseA b.waiting (row, col) }

/-- The 1-D branch: create a deferred promise and enqueue it on the cell's
queue (creating the queue when absent). -/
def enqueueWaiter (b : Board) (row col : Nat) : Board :=
  { b with
    waiting := setA b.waiting (row, col) (b.queueAt row col ++ [b.nextWaiter]),
    nextWaiter := b.nextWaiter + 1 }

/-- `render(playerId)`: the header line followed by one line per cell in
row-major order — `none`, `down`, `my <pic>` or `up <pic>`. -/
def render (b : Board) (pid : String) : String :=
  let lines := (List.range b.rows).flatMap (fun r =>
    (List.range b.cols).map (fun c =>
      match b.cardAt r c with
      | none => "none"
      | some pic =>
        if b.upAt r c = false then "down"
        else if b.ctrlAt r c = some pid then "my " ++ pic
        else "up " ++ pic))
  joinLines ((toString b.rows ++ "x" ++ toString b.cols) :: lines) ++ "\n"

/-- `notifyChange`: hand every registered resolver its player-specific
render of the current state, then clear the whole watcher map. -/
def notifyChange (b : Board) : Board :=
  { b with
    delivered := b.delivered ++
      b.changeResolvers.flatMap (fun e => e.2.map (fun t => (t, b.render e.1))),
    changeResolvers := [] }

/-- `addChangeWatcher(playerId, resolver)`: append a one-shot sink. -/
def addChangeWatcher (b : Board) (pid : String) (tok : Nat) : Board :=
  let list := (lookupA b.changeResolvers pid).getD [] ++ [tok]
  { b with changeResolvers := setA b.changeResolvers pid list }

/-- `flipDownIfUncontrolled` (rule 3-B): flip `(row, col)` face-down only
when it still holds a card, is face up and has no controller. -/
def flipDownIfUncontrolled (b : Board) (row col : Nat) : Board :=
  if (b.cardAt row col).isSome ∧ b.upAt row col = true ∧ b.ctrlAt row col = none
  then b.setUp row col false
  else b

/-- The inline release pattern of `flipUp`: if `pid` still controls the
cell, set its controller to null and resolve the cell's waiters. -/
def relinquishIfHeld (b : Board) (pid : String) (pos : Nat × Nat) : Board :=
  if b.ctrlAt pos.1 pos.2 = some pid then
    (b.setCtrl pos.1 pos.2 none).notifyWaiters pos.1 pos.2
  else b

/-- The 3-A removal of one matched card: clear the cell (card, face,
controller) and resolve its waiters. -/
def removeCellAt (b : Board) (row col : Nat) : Board :=
  ((((b.setCard row col none).setUp row col false).setCtrl row col none).notifyWaiters
    row col)

/-- The lingering pass of `cleanupPreviousPlay` (rule 3-B for remembered
cells): when the player's lingering list is present and nonempty, flip
each position down if still possible and delete the list. -/
def lingerPass (b : Board) (pid : String) : Board :=
  match lookupA b.lingering pid with
  | some linger =>
    if linger.isEmpty then b
    else
      let b' := linger.foldl
        (fun (acc : Board) (pos : Nat × Nat) => acc.flipDownIfUncontrolled pos.1 pos.2) b
      { b' with lingering := eraseA b'.lingering pid }
  | none => b

/-- The pair pass of `cleanupPreviousPlay`: remove a matched pair still
controlled by the player (3-A), or flip down a non-matching pair or a
leftover first card (3-B). -/
def pairPass (b1 : Board) (pid : String) (fc sc : Option (Nat × Nat)) : Board :=
  match fc, sc with
  | some fc, some sc =>
    let firstPic := b1.cardAt fc.1 fc.2
    let secondPic := b1.cardAt sc.1 sc.2
    if firstPic = secondPic ∧ firstPic.isSome then
      let b' := if b1.ctrlAt fc.1 fc.2 = some pid then b1.removeCellAt fc.1 fc.2 else b1
      if b'.ctrlAt sc.1 sc.2 = some pid then b'.removeCellAt sc.1 sc.2 else b'
    else
      ((b1.flipDownIfUncontrolled fc.1 fc.2).flipDownIfUncontrolled sc.1 sc.2)
  | some fc, none => b1.flipDownIfUncontrolled fc.1 fc.2
  | none, _ => b1

/-- `cleanupPreviousPlay` (rules 3-A / 3-B): flip down the lingering cells,
remove a matched pair still controlled by the player (or flip down a
non-matching pair / a leftover first card), and clear both card slots.
The card slots are read before the lingering pass, as in the source. -/
def cleanupPreviousPlay (b : Board) (pid : String) : Board :=
  let player := b.getPlayerD pid
  let b1 := b.lingerPass pid
  let b2 := pairPass b1 pid player.firstCard player.secondCard
  b2.clearCardsOf pid

end Board

/-- Validity of one picture / player-id token: nonempty, no whitespace
(the regular expression `/^[^\s]+$/`). -/
def validToken (s : String) : Bool :=
  decide (0 < s.length) && s.data.all (fun ch => !isWS ch)

namespace Board

/-- `checkRep`, dimension assertions: positive dimensions and three
matrices of `rows` rows of `cols` cells each. -/
def DimsOk (b : Board) : Prop :=
  (1 ≤ b.rows ∧ 1 ≤ b.cols) ∧
  (b.cards.length = b.rows ∧ b.faceUp.length = b.rows ∧ b.controller.length = b.rows) ∧
  (∀ row ∈ b.cards, row.length = b.cols) ∧
  (∀ row ∈ b.faceUp, row.length = b.cols) ∧
  (∀ row ∈ b.controller, row.length = b.cols)

instance (b : Board) : Decidable (DimsOk b) := by
  unfold DimsOk; infer_instance

/-- `checkRep`, assertions for one cell: an empty cell is face-down and
uncontrolled; a present card is a valid token and its controller (if
any) is a registered player. -/
def CellOk (b : Board) (r c : Nat) : Prop :=
  (b.cardAt r c = none → b.upAt r c = false ∧ b.ctrlAt r c = none) ∧
  (b.cardAt r c ≠ none → validToken ((b.cardAt r c).getD "") = true) ∧
  (b.cardAt r c ≠ none → b.ctrlAt r c = none ∨
    hasPlayer b ((b.ctrlAt r c).getD "") = true)

instance (b : Board) (r c : Nat) : Decidable (CellOk b r c) := by
  unfold CellOk; infer_instance

/-- `checkRep`, per-cell assertions over the whole grid. -/
def CellsOk (b : Board) : Prop :=
  ∀ r, r < b.rows → ∀ c, c < b.cols → CellOk b r c

instance (b : Board) : Decidable (CellsOk b) := by
  unfold CellsOk; infer_instance

/-- `checkRep`, registry assertions: player ids are valid tokens. -/
def PlayersOk (b : Board) : Prop :=
  ∀ e ∈ b.players, validToken e.1 = true

instance (b : Board) : Decidable (PlayersOk b) := by
  unfold PlayersOk; infer_instance

/-- `checkRep`, waiter-queue assertions: keys are in-range positions. -/
def WaitingOk (b : Board) : Prop :=
  ∀ e ∈ b.waiting, e.1.1 < b.rows ∧ e.1.2 < b.cols

instance (b : Board) : Decidable (WaitingOk b) := by
  unfold WaitingOk; infer_instance

/-- `checkRep`, lingering assertions: keys are registered players and the
stored positions are in range. -/
def LingeringOk (b : Board) : Prop :=
  ∀ e ∈ b.lingering, hasPlayer b e.1 = true ∧
    ∀ p ∈ e.2, p.1 < b.rows ∧ p.2 < b.cols

instance (b : Board) : Decidable (LingeringOk b) := by
  unfold LingeringOk; infer_instance

/-- `checkRep`, watcher assertions: keys are registered players. -/
def WatchersOk (b : Board) : Prop :=
  ∀ e ∈ b.changeResolvers, hasPlayer b e.1 = true

instance (b : Board) : Decidable (WatchersOk b) := by
  unfold WatchersOk; infer_instance

/-- The conjunction of all `checkRep` assertions. -/
def RepOk (b : Board) : Prop :=
  DimsOk b ∧ CellsOk b ∧ PlayersOk b ∧ WaitingOk b ∧ LingeringOk b ∧ WatchersOk b

instance (b : Board) : Decidable (RepOk b) := by
  unfold RepOk; infer_instance

/-- `checkRep()`: true exactly when no assertion fires. -/
def checkRepB (b : Board) : Bool := decide (RepOk b)

/-- `registerPlayer(id, displayName = id)`.  The result also carries the
state, because a failing `checkRep` would fire after the map insertion. -/
def registerPlayer (b : Board) (id : String) (_displayName : String) :
    Board × Except Err Player :=
  if id.length = 0 ∨ id.data.any isWS then (b, .error .invalidPlayerId)
  else
    match lookupA b.players id with
    | some existing => (b, .ok existing)
    | none =>
      let p := Player.new id
      let b' := { b with players := b.players ++ [(id, p)] }
      if checkRepB b' then (b', .ok p) else (b', .error .repViolation)

/-- `listPlayers()`. -/
def listPlayers (b : Board) : List String := b.players.map (·.1)

/-- The first-card branch of `flipUp` (rules 1-A … 1-D and the
self-reselect case), acting on the state `b2` left by the cleanup. -/
def flipUpFirst (b2 : Board) (playerId : String) (row col : Nat) : Board × FlipResult :=
  let player := b2.getPlayerD playerId
  match b2.cardAt row col with
  | none => (b2, .err .emptySpace)                                   -- 1-A
  | some _ =>
    if b2.upAt row col = false then                                   -- 1-B
      let b3 := (b2.setUp row col true).setCtrl row col (some playerId)
      let b4 := b3.setPlayerState playerId
        { player with firstCard := some (row, col), flipCount := player.flipCount + 1 }
      if checkRepB b4 then (b4.notifyChange, .ok) else (b4, .err .repViolation)
    else
      match b2.ctrlAt row col with
      | none =>                                                       -- 1-C
        let b3 := b2.setCtrl row col (some playerId)
        let b4 := b3.setPlayerState playerId
          { player with firstCard := some (row, col), flipCount := player.flipCount + 1 }
        if checkRepB b4 then (b4, .ok) else (b4, .err .repViolation)
      | some ctrl =>
        if ctrl ≠ playerId then (b2.enqueueWaiter row col, .suspended) -- 1-D
        else                                                          -- self-reselect
          let b4 := b2.setPlayerState playerId
            { player with firstCard := some (row, col), flipCount := player.flipCount + 1 }
          if checkRepB b4 then (b4.notifyChange, .ok) else (b4, .err .repViolation)

/-- The second-card branch of `flipUp` (the same-cell guard and rules
2-A … 2-E), with `first` the recorded first card. -/
def flipUpSecond (b1 : Board) (playerId : String) (first : Nat × Nat) (row col : Nat) :
    Board × FlipResult :=
  let player := b1.getPlayerD playerId
  if first.1 = row ∧ first.2 = col then                               -- same-cell guard
    let b2 := b1.relinquishIfHeld playerId first
    let b3 := b2.rememberLingering playerId first.1 first.2
    (b3.clearCardsOf playerId, .err .sameCardTwice)
  else
    match b1.cardAt row col with
    | none =>                                                         -- 2-A
      let b2 := b1.relinquishIfHeld playerId first
      let b3 := b2.rememberLingering playerId first.1 first.2
      (b3.clearCardsOf playerId, .err .emptySpace)
    | some pic =>
      if b1.upAt row col = true ∧ (b1.ctrlAt row col).isSome then     -- 2-B
        let b2 := b1.relinquishIfHeld playerId first
        let b3 := b2.rememberLingering playerId first.1 first.2
        (b3.clearCardsOf playerId, .err .controlled)
      else
        let b2 := if b1.upAt row col = false then b1.setUp row col true else b1 -- 2-C
        let b3 := b2.setCtrl row col (some playerId)
        let b4 := b3.setPlayerState playerId
          { player with secondCard := some (row, col), flipCount := player.flipCount + 1 }
        let firstPic := b4.cardAt first.1 first.2
        if firstPic = some pic then                                   -- 2-D
          if checkRepB b4 then (b4.notifyChange, .ok) else (b4, .err .repViolation)
        else                                                          -- 2-E
          let b5 := b4.relinquishIfHeld playerId first
          let b6 := (b5.setCtrl row col none).notifyWaiters row col
          if checkRepB b6 then (b6.notifyChange, .ok) else (b6, .err .repViolation)

/-- `flipUp(playerId, row, col)`, as a single step of the state machine:
bounds and registration checks, the pre-step cleanup when a second card
is recorded, then the first- or second-card branch (the first-card branch
runs the cleanup again, as the source does). -/
def flipUp (b : Board) (playerId : String) (row col : Nat) : Board × FlipResult :=
  if ¬ (row < b.rows ∧ col < b.cols) then (b, .err .outOfBounds)
  else if ¬ hasPlayer b playerId then (b, .err .unknownPlayer)
  else
    let player0 := b.getPlayerD playerId
    let b1 := if player0.secondCard.isSome then b.cleanupPreviousPlay playerId else b
    match (b1.getPlayerD playerId).firstCard with
    | none => flipUpFirst (b1.cleanupPreviousPlay playerId) playerId row col
    | some first => flipUpSecond b1 playerId first row col

/-- `flipDown(row, col)` (administrative): requires a present, face-up
card; flips it down and clears its controller.  It does not touch the
waiter queues. -/
def flipDown (b : Board) (row col : Nat) : Board × Option Err :=
  if ¬ (row < b.rows ∧ col < b.cols) then (b, some .outOfBounds)
  else
    match b.cardAt row col with
    | none => (b, some .emptySpace)
    | some _ =>
      if b.upAt row col = false then (b, some .alreadyFaceDown)
      else
        let b' := (b.setUp row col false).setCtrl row col none
        if checkRepB b' then (b'.notifyChange, none) else (b', some .repViolation)

/-- The body of `map`'s inner loop: apply `f` to the cell `(r, c)` when
it holds a card, recording the invocation; skip empty cells. -/
def mapCellStep (f : String → String) (r : Nat)
    (acc2 : List (List (Option String)) × List (Nat × Nat)) (c : Nat) :
    List (List (Option String)) × List (Nat × Nat) :=
  match (getCell2 acc2.1 r c).getD none with
  | some pic => (setCell2 acc2.1 r c (some (f pic)), acc2.2 ++ [(r, c)])
  | none => acc2

/-- The body of `map`'s outer loop: the inner loop over one row (the
source reads `this.cards[r]` and skips a missing row). -/
def mapRowStep (b : Board) (f : String → String)
    (acc : List (List (Option String)) × List (Nat × Nat)) (r : Nat) :
    List (List (Option String)) × List (Nat × Nat) :=
  match acc.1.get? r with
  | none => acc
  | some _ => (List.range b.cols).foldl (mapCellStep f r) acc

/-- `map(f)` with an application trace: the nested row-major loops replace
every present picture by `f` of it, in place; the trace records the cells
at which `f` was invoked, in invocation order.  On completion the rep
invariant is re-checked (an assertion failure surfaces as an error, with
the replacements kept) and on success the watchers are notified. -/
def mapTrace (b : Board) (f : String → String) :
    (Board × Option Err) × List (Nat × Nat) :=
  let res := (List.range b.rows).foldl (mapRowStep b f) (b.cards, [])
  let b' := { b with cards := res.1 }
  if checkRepB b' then ((b'.notifyChange, none), res.2)
  else ((b', some Err.repViolation), res.2)

/-- `map(f)` without the trace. -/
def map (b : Board) (f : String → String) : Board × Option Err :=
  (b.mapTrace f).1

/-- Specification term for the amended map claim: the board whose every
present picture has been replaced by `f` of it, in place, with empty
cells unchanged and all other state untouched. -/
def mapSpec (b : Board) (f : String → String) : Board :=
  { b with cards := b.cards.map (fun row => row.map (Option.map f)) }

/-- Specification term for the amended map claim: the row-major list of
the positions of the non-empty cells — the cells at which `map` invokes
its transform, in invocation order. -/
def traceSpec (b : Board) : List (Nat × Nat) :=
  (List.range b.rows).flatMap (fun r =>
    (List.range b.cols).filterMap (fun c =>
      if (b.cardAt r c).isSome then some (r, c) else none))

/-- `picturesDump()`: the header line, then one line per cell in row-major
order with `none` substituted for empty cells, ending in a line feed. -/
def picturesDump (b : Board) : String :=
  let out := (List.range b.rows).foldl
    (fun acc r =>
      match b.cards.get? r with
      | none => acc
      | some cardsRow =>
        acc ++ (List.range b.cols).map (fun c => ((cardsRow.get? c).getD none).getD "none"))
    [toString b.rows ++ "x" ++ toString b.cols]
  joinLines out ++ "\n"

end Board

/-- One pass of the global replacement `\r\n` → `\n`. -/
def replCRLF : List Char → List Char
  | '\r' :: '\n' :: rest => '\n' :: replCRLF rest
  | c :: rest => c :: replCRLF rest
  | [] => []

/-- The global replacement `\r` → `\n` on what remains. -/
def replCR (cs : List Char) : List Char :=
  cs.map (fun c => if c = '\r' then '\n' else c)

/-- `text.replace(/\r\n/g, '\n').replace(/\r/g, '\n')`. -/
def normalise (s : String) : String :=
  String.mk (replCR (replCRLF s.data))

/-- JavaScript `String.prototype.split(sep)` for a one-character
separator, on character lists. -/
def splitOnCh (sep : Char) : List Char → List (List Char)
  | [] => [[]]
  | c :: rest =>
    if c = sep then [] :: splitOnCh sep rest
    else
      match splitOnCh sep rest with
      | [] => [[c]]
      | l :: ls => (c :: l) :: ls

/-- `norm.split('\n')`. -/
def splitNl (cs : List Char) : List (List Char) :=
  splitOnCh '\n' cs

/-- `Number(s)` on a capture of the regex `\d+`. -/
def parseDigits (cs : List Char) : Option Nat :=
  if cs ≠ [] ∧ cs.all (fun c => c.isDigit) then
    some (cs.foldl (fun a c => 10 * a + (c.toNat - 48)) 0)
  else none

/-- The header regex `^(\d+)x(\d+)$`: digits cannot contain `x`, so the
match succeeds exactly when the string splits at a single `x` into two
nonempty digit runs. -/
def matchHeader (cs : List Char) : Option (Nat × Nat) :=
  match splitOnCh 'x' cs with
  | [a, b] =>
    match parseDigits a, parseDigits b with
    | some r, some c => some (r, c)
    | _, _ => none
  | _ => none

/-- Validate the card lines against `/^[^\s]+$/` (`i + 2` is the 1-based
file line reported by `invalid card at line …`); return the layout. -/
def validateCards (lines : List (List Char)) (i : Nat) :
    Except Err (List (Option String)) :=
  match lines with
  | [] => .ok []
  | tok :: rest =>
    if tok.isEmpty ∨ tok.any isWS then .error (.invalidCard (i + 2))
    else
      match validateCards rest (i + 1) with
      | .error e => .error e
      | .ok layout => .ok (some (String.mk tok) :: layout)

/-- The private constructor: copy the layout row-major
(`layout[k++] ?? null`), every cell face-down with no controller, and no
players, waiters, lingering entries or watchers. -/
def Board.ofLayout (rows cols : Nat) (layout : List (Option String)) : Board :=
  { rows := rows
    cols := cols
    cards := (List.range rows).map (fun r =>
      (List.range cols).map (fun c => (layout.get? (r * cols + c)).getD none))
    faceUp := (List.range rows).map (fun _ => (List.range cols).map (fun _ => false))
    controller := (List.range rows).map (fun _ => (List.range cols).map (fun _ => none))
    players := []
    waiting := []
    lingering := []
    changeResolvers := []
    delivered := []
    woken := []
    nextWaiter := 0 }

/-- The lines `parseFromFile` works on: split the normalised contents at
line feeds and drop a single trailing empty line, if any. -/
def fileLines (text : String) : List (List Char) :=
  let lines0 := splitNl (normalise text).data
  if lines0.getLast? = some [] then lines0.dropLast else lines0

/-- The card lines of a file: everything after the header line. -/
def cardLinesOf (text : String) : List (List Char) :=
  (fileLines text).tail

/-- `parseFromFile`, applied to the contents of the file (reading the
file itself is outside the model): normalise line endings, drop a single
trailing empty line, fail on an empty file, trim and match the header,
check the dimensions and the card count, validate every card line, and
construct the board.  The constructor's own `checkRep` cannot fire, since
the parser admits only valid tokens. -/
def parseText (text : String) : Except Err Board :=
  match fileLines text with
  | [] => .error .invalidFile
  | headerLine :: rest =>
    if (jsTrimList headerLine).isEmpty then .error .missingHeader
    else
      match matchHeader (jsTrimList headerLine) with
      | none => .error .invalidHeader
      | some dims =>
        if dims.1 < 1 ∨ dims.2 < 1 then .error .invalidDimensions
        else if rest.length ≠ dims.1 * dims.2 then .error .wrongCardCount
        else
          match validateCards rest 0 with
          | .error e => .error e
          | .ok layout => .ok (Board.ofLayout dims.1 dims.2 layout)

/-! ### Invariants beyond `checkRep`

`checkRep` does not assert everything spec §8 states; the remaining
clauses are defined here and proved invariant. -/

namespace Board

/-- Spec §8 for one cell: an empty cell is face-down and uncontrolled; a
controlled cell is face-up, holds a card, and its controller is a
registered player. -/
def CellInv (b : Board) (r c : Nat) : Prop :=
  (b.cardAt r c = none → b.upAt r c = false ∧ b.ctrlAt r c = none) ∧
  (∀ q ∈ b.ctrlAt r c,
    b.upAt r c = true ∧ b.cardAt r c ≠ none ∧ hasPlayer b q = true)

instance (b : Board) (r c : Nat) : Decidable (CellInv b r c) := by
  unfold CellInv; infer_instance

/-- The quantified invariants of spec §8: the per-cell clauses for every
cell, and `firstCard = none → secondCard = none` for every player. -/
def ClaimInv (b : Board) : Prop :=
  (∀ r, r < b.rows → ∀ c, c < b.cols → CellInv b r c) ∧
  (∀ e ∈ b.players, e.2.firstCard = none → e.2.secondCard = none)

instance (b : Board) : Decidable (ClaimInv b) := by
  unfold ClaimInv; infer_instance

/-- Card positions recorded in player records are in range (they were
recorded by in-bounds flips; `rememberLingering` copies them into the
lingering map, whose entries `checkRep` asserts to be in range). -/
def PlayerCardsInRange (b : Board) : Prop :=
  ∀ e ∈ b.players,
    (∀ p ∈ e.2.firstCard, p.1 < b.rows ∧ p.2 < b.cols) ∧
    (∀ p ∈ e.2.secondCard, p.1 < b.rows ∧ p.2 < b.cols)

instance (b : Board) : Decidable (PlayerCardsInRange b) := by
  unfold PlayerCardsInRange; infer_instance

/-- The full inductive invariant of reachable boards. -/
def FullInv (b : Board) : Prop :=
  RepOk b ∧ ClaimInv b ∧ PlayerCardsInRange b

instance (b : Board) : Decidable (FullInv b) := by
  unfold FullInv; infer_instance

end Board

/-! ### Concrete boards used by witnesses and counterexamples -/

namespace Fixtures

/-- The 2×2 board `A A / B B` of spec §8's scenarios. -/
def boardAA : Board :=
  (parseText "2x2\nA\nA\nB\nB\n").toOption.getD (Board.ofLayout 1 1 [some "X"])

/-- `boardAA` with players `P1` and `P2` registered. -/
def boardP : Board :=
  ((boardAA.registerPlayer "P1" "P1").1.registerPlayer "P2" "P2").1

/-- `P1` has flipped `(0,0)`: 1-B. -/
def s1 : Board := (boardP.flipUp "P1" 0 0).1

/-- … then `(0,1)`: a matching pair, 2-D. -/
def s2 : Board := (s1.flipUp "P1" 0 1).1

/-- … then `(1,0)`: 3-A removes the pair, 1-B takes `(1,0)`. -/
def s3 : Board := (s2.flipUp "P1" 1 0).1

/-- … then `(0,0)`: the second flip hits a removed cell, 2-A; `(1,0)` is
released and remembered in `P1`'s lingering list. -/
def s4 : Board := (s3.flipUp "P1" 0 0).1

/-- `P2` parked on `(0,0)` while `P1` controls it (1-D). -/
def t2 : Board := (s1.flipUp "P2" 0 0).1

/-- A 1×2 board with an empty cell and a clean registered player. -/
def boardE : Board :=
  ((Board.ofLayout 1 2 [none, some "A"]).registerPlayer "P1" "P1").1

/-- The board parsed from a file whose single card line is `none`. -/
def boardNone : Board :=
  (parseText "1x1\nnone\n").toOption.getD (Board.ofLayout 1 1 [some "X"])

end Fixtures

/-! ### Association-list lemmas -/

theorem lookupA_mem [DecidableEq α] {m : List (α × β)} {k : α} {v : β}
    (h : lookupA m k = some v) : (k, v) ∈ m := by
  induction m with
  | nil => simp [lookupA] at h
  | cons e rest ih =>
    rw [lookupA] at h
    split at h
    · rename_i he
      cases h
      exact List.mem_cons.2 (Or.inl (by cases e; simp_all))
    · exact List.mem_cons.2 (Or.inr (ih h))

theorem lookupA_setA_self [DecidableEq α] (m : List (α × β)) (k : α) (v : β) :
    lookupA (setA m k v) k = some v := by
  induction m with
  | nil => simp [setA, lookupA]
  | cons e rest ih =>
    rw [setA]
    by_cases he : e.1 = k
    · rw [if_pos he, lookupA, if_pos rfl]
    · rw [if_neg he, lookupA, if_neg he]
      exact ih

theorem lookupA_setA_ne [DecidableEq α] (m : List (α × β)) (k k' : α) (v : β)
    (h : k' ≠ k) : lookupA (setA m k v) k' = lookupA m k' := by
  induction m with
  | nil => simp [setA, lookupA, show ¬ k = k' from fun hh => h hh.symm]
  | cons e rest ih =>
    rw [setA]
    by_cases he : e.1 = k
    · rw [if_pos he, lookupA, lookupA,
        if_neg (show ¬ (k, v).1 = k' from fun hh => h hh.symm),
        if_neg (show ¬ e.1 = k' from fun hh => h (by rw [← hh]; exact he))]
    · rw [if_neg he, lookupA, lookupA]
      split
      · rfl
      · exact ih

theorem mem_setA [DecidableEq α] {m : List (α × β)} {k : α} {v : β} {e : α × β}
    (h : e ∈ setA m k v) : e ∈ m ∨ e = (k, v) := by
  induction m with
  | nil => simp [setA] at h; exact Or.inr h
  | cons e₀ rest ih =>
    rw [setA] at h
    by_cases he : e₀.1 = k
    · rw [if_pos he] at h
      rcases List.mem_cons.1 h with h' | h'
      · exact Or.inr h'
      · exact Or.inl (List.mem_cons.2 (Or.inr h'))
    · rw [if_neg he] at h
      rcases List.mem_cons.1 h with h' | h'
      · exact Or.inl (List.mem_cons.2 (Or.inl h'))
      · rcases ih h' with h'' | h''
        · exact Or.inl (List.mem_cons.2 (Or.inr h''))
        · exact Or.inr h''

theorem setA_same [DecidableEq α] {m : List (α × β)} {k : α} {v : β}
    (h : lookupA m k = some v) : setA m k v = m := by
  induction m with
  | nil => simp [lookupA] at h
  | cons e rest ih =>
    rw [lookupA] at h
    rw [setA]
    by_cases he : e.1 = k
    · rw [if_pos he]
      rw [if_pos he] at h
      cases h
      cases e
      simp_all
    · rw [if_neg he]
      rw [if_neg he] at h
      rw [ih h]

theorem lookupA_eraseA [DecidableEq α] (m : List (α × β)) (k k' : α) :
    lookupA (eraseA m k) k' = if k' = k then none else lookupA m k' := by
  induction m with
  | nil => simp [eraseA, lookupA]
  | cons e rest ih =>
    by_cases he : e.1 = k
    · have hstep : eraseA (e :: rest) k = eraseA rest k := by
        unfold eraseA
        rw [List.filter_cons_of_neg (by simp [he])]
      rw [hstep, ih]
      by_cases hk : k' = k
      · rw [if_pos hk, if_pos hk]
      · rw [if_neg hk, if_neg hk, lookupA,
          if_neg (show ¬ e.1 = k' from fun hh => hk (by rw [← hh]; exact he))]
    · have hstep : eraseA (e :: rest) k = e :: eraseA rest k := by
        unfold eraseA
        rw [List.filter_cons_of_pos (by simp [he])]
      rw [hstep, lookupA, ih]
      by_cases hek : e.1 = k'
      · rw [if_pos hek, if_neg (show ¬ k' = k from fun hh => he (by rw [hek, hh])),
          lookupA, if_pos hek]
      · rw [if_neg hek]
        by_cases hk : k' = k
        · rw [if_pos hk, if_pos hk]
        · rw [if_neg hk, if_neg hk, lookupA, if_neg hek]

theorem mem_eraseA [DecidableEq α] {m : List (α × β)} {k : α} {e : α × β}
    (h : e ∈ eraseA m k) : e ∈ m :=
  List.mem_of_mem_filter h

theorem lookupA_append_some [DecidableEq α] {m : List (α × β)} (m' : List (α × β))
    {k : α} {v : β} (h : lookupA m k = some v) :
    lookupA (m ++ m') k = some v := by
  induction m with
  | nil => simp [lookupA] at h
  | cons e rest ih =>
    rw [lookupA] at h
    rw [List.cons_append, lookupA]
    split at h
    · rename_i he; rw [if_pos he]; exact h
    · rename_i he; rw [if_neg he]; exact ih h

theorem lookupA_append_none [DecidableEq α] {m : List (α × β)} {k' : α}
    (k : α) (v : β) (h : lookupA m k' = none) :
    lookupA (m ++ [(k, v)]) k' = if k = k' then some v else none := by
  induction m with
  | nil => simp [lookupA]
  | cons e rest ih =>
    rw [lookupA] at h
    rw [List.cons_append, lookupA]
    split at h
    · cases h
    · rename_i he; rw [if_neg he]; exact ih h

/-! ### Grid lemmas -/

theorem getCell2_setCell2 (m : List (List α)) (r c r' c' : Nat) (v : α) :
    getCell2 (setCell2 m r c v) r' c' =
      if r = r' ∧ c = c' ∧ (getCell2 m r c).isSome then some v
      else getCell2 m r' c' := by
  unfold getCell2 setCell2
  by_cases hr : r = r'
  · subst hr
    simp only [List.get?_eq_getElem?, List.getElem?_set, if_pos rfl]
    by_cases hlen : r < m.length
    · have hrow : m.getD r [] = m[r] := by
        rw [List.getD_eq_getElem?_getD, List.getElem?_eq_getElem hlen]; rfl
      have hget : m[r]? = some m[r] := List.getElem?_eq_getElem hlen
      simp only [hlen, if_true, hrow, hget, Option.some_bind, List.getElem?_set]
      by_cases hc : c = c'
      · subst hc
        simp only [if_pos rfl]
        by_cases hclen : c < m[r].length
        · simp [hclen, List.getElem?_eq_getElem hclen]
        · simp [hclen, List.getElem?_eq_none (Nat.le_of_not_lt hclen)]
      · simp only [if_neg hc]
        rw [if_neg (fun hh => hc hh.2.1)]
    · have hnone : m[r]? = none := List.getElem?_eq_none (Nat.le_of_not_lt hlen)
      simp [hlen, hnone]
  · simp only [List.get?_eq_getElem?, List.getElem?_set, if_neg hr]
    rw [if_neg (fun hh => hr hh.1)]

theorem length_setCell2 (m : List (List α)) (r c : Nat) (v : α) :
    (setCell2 m r c v).length = m.length := by
  unfold setCell2; exact List.length_set m r _

theorem mem_setCell2 {m : List (List α)} {r c : Nat} {v : α} {row : List α}
    (h : row ∈ setCell2 m r c v) :
    row ∈ m ∨ ∃ row' ∈ m, row.length = row'.length := by
  unfold setCell2 at h
  by_cases hlen : r < m.length
  · rcases List.mem_or_eq_of_mem_set h with h' | h'
    · exact Or.inl h'
    · subst h'
      refine Or.inr ⟨m[r], List.getElem_mem hlen, ?_⟩
      have hrow : m.getD r [] = m[r] := by
        rw [List.getD_eq_getElem?_getD, List.getElem?_eq_getElem hlen]; rfl
      rw [hrow, List.length_set]
  · rw [List.set_eq_of_length_le (Nat.le_of_not_lt hlen)] at h
    exact Or.inl h

/-! ### Projection lemmas for the primitive state updates -/

namespace Board

@[simp] theorem setCard_rows (b : Board) (r c : Nat) (v : Option String) :
    (b.setCard r c v).rows = b.rows := rfl
@[simp] theorem setCard_cols (b : Board) (r c : Nat) (v : Option String) :
    (b.setCard r c v).cols = b.cols := rfl
@[simp] theorem setCard_cards (b : Board) (r c : Nat) (v : Option String) :
    (b.setCard r c v).cards = setCell2 b.cards r c v := rfl
@[simp] theorem setCard_players (b : Board) (r c : Nat) (v : Option String) :
    (b.setCard r c v).players = b.players := rfl
@[simp] theorem setCard_waiting (b : Board) (r c : Nat) (v : Option String) :
    (b.setCard r c v).waiting = b.waiting := rfl
@[simp] theorem setCard_lingering (b : Board) (r c : Nat) (v : Option String) :
    (b.setCard r c v).lingering = b.lingering := rfl
@[simp] theorem setCard_changeResolvers (b : Board) (r c : Nat) (v : Option String) :
    (b.setCard r c v).changeResolvers = b.changeResolvers := rfl
@[simp] theorem setCard_delivered (b : Board) (r c : Nat) (v : Option String) :
    (b.setCard r c v).delivered = b.delivered := rfl
@[simp] theorem setCard_woken (b : Board) (r c : Nat) (v : Option String) :
    (b.setCard r c v).woken = b.woken := rfl
@[simp] theorem setCard_upAt (b : Board) (r c r' c' : Nat) (v : Option String) :
    (b.setCard r c v).upAt r' c' = b.upAt r' c' := rfl
@[simp] theorem setCard_ctrlAt (b : Board) (r c r' c' : Nat) (v : Option String) :
    (b.setCard r c v).ctrlAt r' c' = b.ctrlAt r' c' := rfl
@[simp] theorem setCard_hasPlayer (b : Board) (r c : Nat) (v : Option String) (q : String) :
    (b.setCard r c v).hasPlayer q = b.hasPlayer q := rfl
@[simp] theorem setCard_getPlayerD (b : Board) (r c : Nat) (v : Option String) (q : String) :
    (b.setCard r c v).getPlayerD q = b.getPlayerD q := rfl
@[simp] theorem setCard_queueAt (b : Board) (r c r' c' : Nat) (v : Option String) :
    (b.setCard r c v).queueAt r' c' = b.queueAt r' c' := rfl

theorem cardAt_setCard (b : Board) (r c r' c' : Nat) (v : Option String) :
    (b.setCard r c v).cardAt r' c' =
      if r = r' ∧ c = c' ∧ (getCell2 b.cards r c).isSome then v else b.cardAt r' c' := by
  unfold cardAt
  rw [setCard_cards, getCell2_setCell2]
  split
  · rfl
  · rfl

@[simp] theorem setUp_rows (b : Board) (r c : Nat) (v : Bool) :
    (b.setUp r c v).rows = b.rows := rfl
@[simp] theorem setUp_cols (b : Board) (r c : Nat) (v : Bool) :
    (b.setUp r c v).cols = b.cols := rfl
@[simp] theorem setUp_faceUp (b : Board) (r c : Nat) (v : Bool) :
    (b.setUp r c v).faceUp = setCell2 b.faceUp r c v := rfl
@[simp] theorem setUp_cards (b : Board) (r c : Nat) (v : Bool) :
    (b.setUp r c v).cards = b.cards := rfl
@[simp] theorem setUp_players (b : Board) (r c : Nat) (v : Bool) :
    (b.setUp r c v).players = b.players := rfl
@[simp] theorem setUp_waiting (b : Board) (r c : Nat) (v : Bool) :
    (b.setUp r c v).waiting = b.waiting := rfl
@[simp] theorem setUp_lingering (b : Board) (r c : Nat) (v : Bool) :
    (b.setUp r c v).lingering = b.lingering := rfl
@[simp] theorem setUp_changeResolvers (b : Board) (r c : Nat) (v : Bool) :
    (b.setUp r c v).changeResolvers = b.changeResolvers := rfl
@[simp] theorem setUp_delivered (b : Board) (r c : Nat) (v : Bool) :
    (b.setUp r c v).delivered = b.delivered := rfl
@[simp] theorem setUp_woken (b : Board) (r c : Nat) (v : Bool) :
    (b.setUp r c v).woken = b.woken := rfl
@[simp] theorem setUp_cardAt (b : Board) (r c r' c' : Nat) (v : Bool) :
    (b.setUp r c v).cardAt r' c' = b.cardAt r' c' := rfl
@[simp] theorem setUp_ctrlAt (b : Board) (r c r' c' : Nat) (v : Bool) :
    (b.setUp r c v).ctrlAt r' c' = b.ctrlAt r' c' := rfl
@[simp] theorem setUp_hasPlayer (b : Board) (r c : Nat) (v : Bool) (q : String) :
    (b.setUp r c v).hasPlayer q = b.hasPlayer q := rfl
@[simp] theorem setUp_getPlayerD (b : Board) (r c : Nat) (v : Bool) (q : String) :
    (b.setUp r c v).getPlayerD q = b.getPlayerD q := rfl
@[simp] theorem setUp_queueAt (b : Board) (r c r' c' : Nat) (v : Bool) :
    (b.setUp r c v).queueAt r' c' = b.queueAt r' c' := rfl

theorem upAt_setUp (b : Board) (r c r' c' : Nat) (v : Bool) :
    (b.setUp r c v).upAt r' c' =
      if r = r' ∧ c = c' ∧ (getCell2 b.faceUp r c).isSome then v else b.upAt r' c' := by
  unfold upAt
  rw [setUp_faceUp, getCell2_setCell2]
  split
  · rfl
  · rfl

@[simp] theorem setCtrl_rows (b : Board) (r c : Nat) (v : Option String) :
    (b.setCtrl r c v).rows = b.rows := rfl
@[simp] theorem setCtrl_cols (b : Board) (r c : Nat) (v : Option String) :
    (b.setCtrl r c v).cols = b.cols := rfl
@[simp] theorem setCtrl_controller (b : Board) (r c : Nat) (v : Option String) :
    (b.setCtrl r c v).controller = setCell2 b.controller r c v := rfl
@[simp] theorem setCtrl_cards (b : Board) (r c : Nat) (v : Option String) :
    (b.setCtrl r c v).cards = b.cards := rfl
@[simp] theorem setCtrl_players (b : Board) (r c : Nat) (v : Option String) :
    (b.setCtrl r c v).players = b.players := rfl
@[simp] theorem setCtrl_waiting (b : Board) (r c : Nat) (v : Option String) :
    (b.setCtrl r c v).waiting = b.waiting := rfl
@[simp] theorem setCtrl_lingering (b : Board) (r c : Nat) (v : Option String) :
    (b.setCtrl r c v).lingering = b.lingering := rfl
@[simp] theorem setCtrl_changeResolvers (b : Board) (r c : Nat) (v : Option String) :
    (b.setCtrl r c v).changeResolvers = b.changeResolvers := rfl
@[simp] theorem setCtrl_delivered (b : Board) (r c : Nat) (v : Option String) :
    (b.setCtrl r c v).delivered = b.delivered := rfl
@[simp] theorem setCtrl_woken (b : Board) (r c : Nat) (v : Option String) :
    (b.setCtrl r c v).woken = b.woken := rfl
@[simp] theorem setCtrl_cardAt (b : Board) (r c r' c' : Nat) (v : Option String) :
    (b.setCtrl r c v).cardAt r' c' = b.cardAt r' c' := rfl
@[simp] theorem setCtrl_upAt (b : Board) (r c r' c' : Nat) (v : Option String) :
    (b.setCtrl r c v).upAt r' c' = b.upAt r' c' := rfl
@[simp] theorem setCtrl_hasPlayer (b : Board) (r c : Nat) (v : Option String) (q : String) :
    (b.setCtrl r c v).hasPlayer q = b.hasPlayer q := rfl
@[simp] theorem setCtrl_getPlayerD (b : Board) (r c : Nat) (v : Option String) (q : String) :
    (b.setCtrl r c v).getPlayerD q = b.getPlayerD q := rfl
@[simp] theorem setCtrl_queueAt (b : Board) (r c r' c' : Nat) (v : Option String) :
    (b.setCtrl r c v).queueAt r' c' = b.queueAt r' c' := rfl

theorem ctrlAt_setCtrl (b : Board) (r c r' c' : Nat) (v : Option String) :
    (b.setCtrl r c v).ctrlAt r' c' =
      if r = r' ∧ c = c' ∧ (getCell2 b.controller r c).isSome then v else b.ctrlAt r' c' := by
  unfold ctrlAt
  rw [setCtrl_controller, getCell2_setCell2]
  split
  · rfl
  · rfl

@[simp] theorem setPlayerState_rows (b : Board) (pid : String) (p : Player) :
    (b.setPlayerState pid p).rows = b.rows := rfl
@[simp] theorem setPlayerState_cols (b : Board) (pid : String) (p : Player) :
    (b.setPlayerState pid p).cols = b.cols := rfl
@[simp] theorem setPlayerState_players (b : Board) (pid : String) (p : Player) :
    (b.setPlayerState pid p).players = setA b.players pid p := rfl
@[simp] theorem setPlayerState_cards (b : Board) (pid : String) (p : Player) :
    (b.setPlayerState pid p).cards = b.cards := rfl
@[simp] theorem setPlayerState_faceUp (b : Board) (pid : String) (p : Player) :
    (b.setPlayerState pid p).faceUp = b.faceUp := rfl
@[simp] theorem setPlayerState_controller (b : Board) (pid : String) (p : Player) :
    (b.setPlayerState pid p).controller = b.controller := rfl
@[simp] theorem setPlayerState_waiting (b : Board) (pid : String) (p : Player) :
    (b.setPlayerState pid p).waiting = b.waiting := rfl
@[simp] theorem setPlayerState_lingering (b : Board) (pid : String) (p : Player) :
    (b.setPlayerState pid p).lingering = b.lingering := rfl
@[simp] theorem setPlayerState_changeResolvers (b : Board) (pid : String) (p : Player) :
    (b.setPlayerState pid p).changeResolvers = b.changeResolvers := rfl
@[simp] theorem setPlayerState_delivered (b : Board) (pid : String) (p : Player) :
    (b.setPlayerState pid p).delivered = b.delivered := rfl
@[simp] theorem setPlayerState_woken (b : Board) (pid : String) (p : Player) :
    (b.setPlayerState pid p).woken = b.woken := rfl
@[simp] theorem setPlayerState_cardAt (b : Board) (pid : String) (p : Player) (r c : Nat) :
    (b.setPlayerState pid p).cardAt r c = b.cardAt r c := rfl
@[simp] theorem setPlayerState_upAt (b : Board) (pid : String) (p : Player) (r c : Nat) :
    (b.setPlayerState pid p).upAt r c = b.upAt r c := rfl
@[simp] theorem setPlayerState_ctrlAt (b : Board) (pid : String) (p : Player) (r c : Nat) :
    (b.setPlayerState pid p).ctrlAt r c = b.ctrlAt r c := rfl
@[simp] theorem setPlayerState_queueAt (b : Board) (pid : String) (p : Player) (r c : Nat) :
    (b.setPlayerState pid p).queueAt r c = b.queueAt r c := rfl

theorem getPlayerD_setPlayerState_self (b : Board) (pid : String) (p : Player) :
    (b.setPlayerState pid p).getPlayerD pid = p := by
  unfold getPlayerD
  rw [setPlayerState_players, lookupA_setA_self]
  rfl

theorem getPlayerD_setPlayerState_ne (b : Board) (pid q : String) (p : Player)
    (h : q ≠ pid) : (b.setPlayerState pid p).getPlayerD q = b.getPlayerD q := by
  unfold getPlayerD
  rw [setPlayerState_players, lookupA_setA_ne _ _ _ _ h]

theorem hasPlayer_setPlayerState (b : Board) (pid q : String) (p : Player)
    (hq : b.hasPlayer pid = true) :
    (b.setPlayerState pid p).hasPlayer q = b.hasPlayer q := by
  unfold hasPlayer at *
  rw [setPlayerState_players]
  by_cases h : q = pid
  · subst h
    rw [lookupA_setA_self]
    exact (Option.isSome_some).symm ▸ hq.symm ▸ rfl
  · rw [lookupA_setA_ne _ _ _ _ h]

@[simp] theorem rememberLingering_rows (b : Board) (pid : String) (r c : Nat) :
    (b.rememberLingering pid r c).rows = b.rows := rfl
@[simp] theorem rememberLingering_cols (b : Board) (pid : String) (r c : Nat) :
    (b.rememberLingering pid r c).cols = b.cols := rfl
@[simp] theorem rememberLingering_players (b : Board) (pid : String) (r c : Nat) :
    (b.rememberLingering pid r c).players = b.players := rfl
@[simp] theorem rememberLingering_cards (b : Board) (pid : String) (r c : Nat) :
    (b.rememberLingering pid r c).cards = b.cards := rfl
@[simp] theorem rememberLingering_faceUp (b : Board) (pid : String) (r c : Nat) :
    (b.rememberLingering pid r c).faceUp = b.faceUp := rfl
@[simp] theorem rememberLingering_controller (b : Board) (pid : String) (r c : Nat) :
    (b.rememberLingering pid r c).controller = b.controller := rfl
@[simp] theorem rememberLingering_waiting (b : Board) (pid : String) (r c : Nat) :
    (b.rememberLingering pid r c).waiting = b.waiting := rfl
@[simp] theorem rememberLingering_lingering (b : Board) (pid : String) (r c : Nat) :
    (b.rememberLingering pid r c).lingering =
      setA b.lingering pid ((lookupA b.lingering pid).getD [] ++ [(r, c)]) := rfl
@[simp] theorem rememberLingering_changeResolvers (b : Board) (pid : String) (r c : Nat) :
    (b.rememberLingering pid r c).changeResolvers = b.changeResolvers := rfl
@[simp] theorem rememberLingering_delivered (b : Board) (pid : String) (r c : Nat) :
    (b.rememberLingering pid r c).delivered = b.delivered := rfl
@[simp] theorem rememberLingering_woken (b : Board) (pid : String) (r c : Nat) :
    (b.rememberLingering pid r c).woken = b.woken := rfl
@[simp] theorem rememberLingering_cardAt (b : Board) (pid : String) (r c r' c' : Nat) :
    (b.rememberLingering pid r c).cardAt r' c' = b.cardAt r' c' := rfl
@[simp] theorem rememberLingering_upAt (b : Board) (pid : String) (r c r' c' : Nat) :
    (b.rememberLingering pid r c).upAt r' c' = b.upAt r' c' := rfl
@[simp] theorem rememberLingering_ctrlAt (b : Board) (pid : String) (r c r' c' : Nat) :
    (b.rememberLingering pid r c).ctrlAt r' c' = b.ctrlAt r' c' := rfl
@[simp] theorem rememberLingering_hasPlayer (b : Board) (pid q : String) (r c : Nat) :
    (b.rememberLingering pid r c).hasPlayer q = b.hasPlayer q := rfl
@[simp] theorem rememberLingering_getPlayerD (b : Board) (pid q : String) (r c : Nat) :
    (b.rememberLingering pid r c).getPlayerD q = b.getPlayerD q := rfl
@[simp] theorem rememberLingering_queueAt (b : Board) (pid : String) (r c r' c' : Nat) :
    (b.rememberLingering pid r c).queueAt r' c' = b.queueAt r' c' := rfl

@[simp] theorem notifyWaiters_rows (b : Board) (r c : Nat) :
    (b.notifyWaiters r c).rows = b.rows := rfl
@[simp] theorem notifyWaiters_cols (b : Board) (r c : Nat) :
    (b.notifyWaiters r c).cols = b.cols := rfl
@[simp] theorem notifyWaiters_players (b : Board) (r c : Nat) :
    (b.notifyWaiters r c).players = b.players := rfl
@[simp] theorem notifyWaiters_cards (b : Board) (r c : Nat) :
    (b.notifyWaiters r c).cards = b.cards := rfl
@[simp] theorem notifyWaiters_faceUp (b : Board) (r c : Nat) :
    (b.notifyWaiters r c).faceUp = b.faceUp := rfl
@[simp] theorem notifyWaiters_controller (b : Board) (r c : Nat) :
    (b.notifyWaiters r c).controller = b.controller := rfl
@[simp] theorem notifyWaiters_waiting (b : Board) (r c : Nat) :
    (b.notifyWaiters r c).waiting = eraseA b.waiting (r, c) := rfl
@[simp] theorem notifyWaiters_lingering (b : Board) (r c : Nat) :
    (b.notifyWaiters r c).lingering = b.lingering := rfl
@[simp] theorem notifyWaiters_changeResolvers (b : Board) (r c : Nat) :
    (b.notifyWaiters r c).changeResolvers = b.changeResolvers := rfl
@[simp] theorem notifyWaiters_delivered (b : Board) (r c : Nat) :
    (b.notifyWaiters r c).delivered = b.delivered := rfl
@[simp] theorem notifyWaiters_woken (b : Board) (r c : Nat) :
    (b.notifyWaiters r c).woken = b.woken ++ b.queueAt r c := rfl
@[simp] theorem notifyWaiters_cardAt (b : Board) (r c r' c' : Nat) :
    (b.notifyWaiters r c).cardAt r' c' = b.cardAt r' c' := rfl
@[simp] theorem notifyWaiters_upAt (b : Board) (r c r' c' : Nat) :
    (b.notifyWaiters r c).upAt r' c' = b.upAt r' c' := rfl
@[simp] theorem notifyWaiters_ctrlAt (b : Board) (r c r' c' : Nat) :
    (b.notifyWaiters r c).ctrlAt r' c' = b.ctrlAt r' c' := rfl
@[simp] theorem notifyWaiters_hasPlayer (b : Board) (r c : Nat) (q : String) :
    (b.notifyWaiters r c).hasPlayer q = b.hasPlayer q := rfl
@[simp] theorem notifyWaiters_getPlayerD (b : Board) (r c : Nat) (q : String) :
    (b.notifyWaiters r c).getPlayerD q = b.getPlayerD q := rfl

theorem queueAt_notifyWaiters (b : Board) (r c r' c' : Nat) :
    (b.notifyWaiters r c).queueAt r' c' =
      if (r', c') = (r, c) then [] else b.queueAt r' c' := by
  unfold queueAt
  rw [notifyWaiters_waiting, lookupA_eraseA]
  split
  · rfl
  · rfl

@[simp] theorem enqueueWaiter_rows (b : Board) (r c : Nat) :
    (b.enqueueWaiter r c).rows = b.rows := rfl
@[simp] theorem enqueueWaiter_cols (b : Board) (r c : Nat) :
    (b.enqueueWaiter r c).cols = b.cols := rfl
@[simp] theorem enqueueWaiter_players (b : Board) (r c : Nat) :
    (b.enqueueWaiter r c).players = b.players := rfl
@[simp] theorem enqueueWaiter_cards (b : Board) (r c : Nat) :
    (b.enqueueWaiter r c).cards = b.cards := rfl
@[simp] theorem enqueueWaiter_faceUp (b : Board) (r c : Nat) :
    (b.enqueueWaiter r c).faceUp = b.faceUp := rfl
@[simp] theorem enqueueWaiter_controller (b : Board) (r c : Nat) :
    (b.enqueueWaiter r c).controller = b.controller := rfl
@[simp] theorem enqueueWaiter_waiting (b : Board) (r c : Nat) :
    (b.enqueueWaiter r c).waiting =
      setA b.waiting (r, c) (b.queueAt r c ++ [b.nextWaiter]) := rfl
@[simp] theorem enqueueWaiter_lingering (b : Board) (r c : Nat) :
    (b.enqueueWaiter r c).lingering = b.lingering := rfl
@[simp] theorem enqueueWaiter_changeResolvers (b : Board) (r c : Nat) :
    (b.enqueueWaiter r c).changeResolvers = b.changeResolvers := rfl
@[simp] theorem enqueueWaiter_delivered (b : Board) (r c : Nat) :
    (b.enqueueWaiter r c).delivered = b.delivered := rfl
@[simp] theorem enqueueWaiter_woken (b : Board) (r c : Nat) :
    (b.enqueueWaiter r c).woken = b.woken := rfl
@[simp] theorem enqueueWaiter_cardAt (b : Board) (r c r' c' : Nat) :
    (b.enqueueWaiter r c).cardAt r' c' = b.cardAt r' c' := rfl
@[simp] theorem enqueueWaiter_upAt (b : Board) (r c r' c' : Nat) :
    (b.enqueueWaiter r c).upAt r' c' = b.upAt r' c' := rfl
@[simp] theorem enqueueWaiter_ctrlAt (b : Board) (r c r' c' : Nat) :
    (b.enqueueWaiter r c).ctrlAt r' c' = b.ctrlAt r' c' := rfl
@[simp] theorem enqueueWaiter_hasPlayer (b : Board) (r c : Nat) (q : String) :
    (b.enqueueWaiter r c).hasPlayer q = b.hasPlayer q := rfl
@[simp] theorem enqueueWaiter_getPlayerD (b : Board) (r c : Nat) (q : String) :
    (b.enqueueWaiter r c).getPlayerD q = b.getPlayerD q := rfl

theorem queueAt_enqueueWaiter (b : Board) (r c r' c' : Nat) :
    (b.enqueueWaiter r c).queueAt r' c' =
      if (r', c') = (r, c) then b.queueAt r c ++ [b.nextWaiter]
      else b.queueAt r' c' := by
  unfold queueAt
  rw [enqueueWaiter_waiting]
  by_cases h : (r', c') = ((r, c) : Nat × Nat)
  · rw [if_pos h, h, lookupA_setA_self]
    rfl
  · rw [if_neg h, lookupA_setA_ne _ _ _ _ h]

@[simp] theorem notifyChange_rows (b : Board) : b.notifyChange.rows = b.rows := rfl
@[simp] theorem notifyChange_cols (b : Board) : b.notifyChange.cols = b.cols := rfl
@[simp] theorem notifyChange_players (b : Board) : b.notifyChange.players = b.players := rfl
@[simp] theorem notifyChange_cards (b : Board) : b.notifyChange.cards = b.cards := rfl
@[simp] theorem notifyChange_faceUp (b : Board) : b.notifyChange.faceUp = b.faceUp := rfl
@[simp] theorem notifyChange_controller (b : Board) :
    b.notifyChange.controller = b.controller := rfl
@[simp] theorem notifyChange_waiting (b : Board) : b.notifyChange.waiting = b.waiting := rfl
@[simp] theorem notifyChange_lingering (b : Board) :
    b.notifyChange.lingering = b.lingering := rfl
@[simp] theorem notifyChange_changeResolvers (b : Board) :
    b.notifyChange.changeResolvers = [] := rfl
@[simp] theorem notifyChange_woken (b : Board) : b.notifyChange.woken = b.woken := rfl
@[simp] theorem notifyChange_cardAt (b : Board) (r c : Nat) :
    b.notifyChange.cardAt r c = b.cardAt r c := rfl
@[simp] theorem notifyChange_upAt (b : Board) (r c : Nat) :
    b.notifyChange.upAt r c = b.upAt r c := rfl
@[simp] theorem notifyChange_ctrlAt (b : Board) (r c : Nat) :
    b.notifyChange.ctrlAt r c = b.ctrlAt r c := rfl
@[simp] theorem notifyChange_hasPlayer (b : Board) (q : String) :
    b.notifyChange.hasPlayer q = b.hasPlayer q := rfl
@[simp] theorem notifyChange_getPlayerD (b : Board) (q : String) :
    b.notifyChange.getPlayerD q = b.getPlayerD q := rfl
@[simp] theorem notifyChange_queueAt (b : Board) (r c : Nat) :
    b.notifyChange.queueAt r c = b.queueAt r c := rfl

end Board

/-! ### Parser lemmas -/

theorem splitOnCh_ne_nil (sep : Char) (cs : List Char) : splitOnCh sep cs ≠ [] := by
  cases cs with
  | nil => simp [splitOnCh]
  | cons c rest =>
    rw [splitOnCh]
    split
    · simp
    · split
      · simp
      · simp

theorem joinCh_cons_cons (sep : Char) (c : Char) (l : List Char)
    (ls : List (List Char)) :
    joinCh sep ((c :: l) :: ls) = c :: joinCh sep (l :: ls) := by
  cases ls with
  | nil => rfl
  | cons x xs => rfl

theorem joinCh_splitOnCh (sep : Char) (cs : List Char) :
    joinCh sep (splitOnCh sep cs) = cs := by
  induction cs with
  | nil => rfl
  | cons c rest ih =>
    rw [splitOnCh]
    by_cases hc : c = sep
    · rw [if_pos hc]
      obtain ⟨l, ls, hls⟩ : ∃ l ls, splitOnCh sep rest = l :: ls := by
        cases hh : splitOnCh sep rest with
        | nil => exact absurd hh (splitOnCh_ne_nil sep rest)
        | cons l ls => exact ⟨l, ls, rfl⟩
      rw [hls]
      rw [hls] at ih
      show [] ++ sep :: joinCh sep (l :: ls) = c :: rest
      rw [List.nil_append, ih, hc]
    · rw [if_neg hc]
      cases hh : splitOnCh sep rest with
      | nil => exact absurd hh (splitOnCh_ne_nil sep rest)
      | cons l ls =>
        rw [hh] at ih
        rw [joinCh_cons_cons, ih]

theorem joinCh_append_empty (sep : Char) (xs : List (List Char)) (hxs : xs ≠ []) :
    joinCh sep (xs ++ [[]]) = joinCh sep xs ++ [sep] := by
  induction xs with
  | nil => exact absurd rfl hxs
  | cons x tail ih =>
    cases tail with
    | nil => rfl
    | cons y ys =>
      calc joinCh sep ((x :: y :: ys) ++ [[]])
          = x ++ sep :: joinCh sep ((y :: ys) ++ [[]]) := by
            rw [List.cons_append, List.cons_append, joinCh]
        _ = x ++ sep :: (joinCh sep (y :: ys) ++ [sep]) := by rw [ih (by simp)]
        _ = (x ++ sep :: joinCh sep (y :: ys)) ++ [sep] := by simp
        _ = joinCh sep (x :: y :: ys) ++ [sep] := by rw [joinCh]

namespace Board

@[simp] theorem ofLayout_rows (rows cols : Nat) (layout : List (Option String)) :
    (Board.ofLayout rows cols layout).rows = rows := rfl
@[simp] theorem ofLayout_cols (rows cols : Nat) (layout : List (Option String)) :
    (Board.ofLayout rows cols layout).cols = cols := rfl
@[simp] theorem ofLayout_players (rows cols : Nat) (layout : List (Option String)) :
    (Board.ofLayout rows cols layout).players = [] := rfl
@[simp] theorem ofLayout_waiting (rows cols : Nat) (layout : List (Option String)) :
    (Board.ofLayout rows cols layout).waiting = [] := rfl
@[simp] theorem ofLayout_lingering (rows cols : Nat) (layout : List (Option String)) :
    (Board.ofLayout rows cols layout).lingering = [] := rfl
@[simp] theorem ofLayout_changeResolvers (rows cols : Nat) (layout : List (Option String)) :
    (Board.ofLayout rows cols layout).changeResolvers = [] := rfl

theorem cardAt_ofLayout (rows cols : Nat) (layout : List (Option String)) (r c : Nat)
    (hr : r < rows) (hc : c < cols) :
    (Board.ofLayout rows cols layout).cardAt r c =
      (layout.get? (r * cols + c)).getD none := by
  unfold Board.ofLayout Board.cardAt getCell2
  simp [List.get?_eq_getElem?, List.getElem?_map, List.getElem?_range, hr, hc]

theorem upAt_ofLayout (rows cols : Nat) (layout : List (Option String)) (r c : Nat) :
    (Board.ofLayout rows cols layout).upAt r c = false := by
  unfold Board.ofLayout Board.upAt getCell2
  rw [List.get?_eq_getElem?, List.getElem?_map]
  cases hr' : (List.range rows)[r]? with
  | none => rfl
  | some a =>
    show (((List.range cols).map (fun _ => false)).get? c).getD false = false
    rw [List.get?_eq_getElem?, List.getElem?_map]
    cases hc' : (List.range cols)[c]? with
    | none => rfl
    | some _ => rfl

theorem ctrlAt_ofLayout (rows cols : Nat) (layout : List (Option String)) (r c : Nat) :
    (Board.ofLayout rows cols layout).ctrlAt r c = none := by
  unfold Board.ofLayout Board.ctrlAt getCell2
  rw [List.get?_eq_getElem?, List.getElem?_map]
  cases hr' : (List.range rows)[r]? with
  | none => rfl
  | some a =>
    show (((List.range cols).map (fun _ => (none : Option String))).get? c).getD none = none
    rw [List.get?_eq_getElem?, List.getElem?_map]
    cases hc' : (List.range cols)[c]? with
    | none => rfl
    | some _ => rfl

end Board

theorem flatMap_range_mul (n m : Nat) (g : Nat → α) :
    (List.range n).flatMap (fun r => (List.range m).map (fun c => g (r * m + c))) =
    (List.range (n * m)).map g := by
  induction n with
  | zero => simp
  | succ k ih =>
    rw [List.range_succ, List.flatMap_append, ih]
    have hsz : (k + 1) * m = k * m + m := by ring
    rw [hsz, List.range_add, List.map_append, List.map_map]
    simp [List.flatMap]

theorem range_map_get_total (l : List α) (F : α → β) (d : β) :
    (List.range l.length).map (fun i => ((l.get? i).map F).getD d) = l.map F := by
  induction l with
  | nil => simp
  | cons a as ih =>
    rw [List.length_cons, List.range_succ_eq_map, List.map_cons, List.map_cons, List.map_map]
    have htail : (List.range as.length).map
        ((fun i => (((a :: as).get? i).map F).getD d) ∘ Nat.succ)
        = as.map F := by
      rw [← ih]
      refine List.map_congr_left (fun i _ => ?_)
      simp [Function.comp, List.get?]
    rw [htail]
    rfl

theorem string_data_mk (cs : List Char) : (String.mk cs).data = cs := rfl

theorem string_ext_data {a b : String} (h : a.data = b.data) : a = b := by
  cases a
  cases b
  exact congrArg String.mk h

/-- Unroll the row loop of `picturesDump` when every row lookup succeeds. -/
theorem foldl_dump_rows (n cols : Nat) (cards : List (List (Option String)))
    (G : Nat → List (Option String))
    (H : ∀ r, r < n → cards.get? r = some (G r)) (init : List String) :
    (List.range n).foldl
      (fun acc r =>
        match cards.get? r with
        | none => acc
        | some cardsRow =>
          acc ++ (List.range cols).map (fun c => ((cardsRow.get? c).getD none).getD "none"))
      init
    = init ++ (List.range n).flatMap
        (fun r => (List.range cols).map (fun c => (((G r).get? c).getD none).getD "none")) := by
  induction n with
  | zero => simp
  | succ k ih =>
    rw [List.range_succ, List.foldl_append, List.flatMap_append,
      ih (fun r hr => H r (Nat.lt_succ_of_lt hr))]
    have hk := H k (Nat.lt_succ_self k)
    rw [List.get?_eq_getElem?] at hk
    simp [hk, List.append_assoc]

theorem picturesDump_ofLayout (rows cols : Nat) (layout : List (Option String)) :
    (Board.ofLayout rows cols layout).picturesDump =
      joinLines ((toString rows ++ "x" ++ toString cols) ::
        (List.range (rows * cols)).map
          (fun i => ((layout.get? i).getD none).getD "none")) ++ "\n" := by
  unfold Board.picturesDump
  have H : ∀ r, r < rows → (Board.ofLayout rows cols layout).cards.get? r =
      some ((List.range cols).map (fun c => (layout.get? (r * cols + c)).getD none)) := by
    intro r hr
    unfold Board.ofLayout
    simp [List.get?_eq_getElem?, List.getElem?_map, List.getElem?_range, hr]
  rw [show (Board.ofLayout rows cols layout).rows = rows from rfl,
    show (Board.ofLayout rows cols layout).cols = cols from rfl]
  rw [foldl_dump_rows rows cols _ _ H]
  have inner : ∀ r : Nat,
      (List.range cols).map (fun c =>
        (((((List.range cols).map
          (fun c' => (layout.get? (r * cols + c')).getD none)).get? c)).getD none).getD "none")
      = (List.range cols).map (fun c => ((layout.get? (r * cols + c)).getD none).getD "none") := by
    intro r
    refine List.map_congr_left (fun c hc => ?_)
    have hc' : c < cols := List.mem_range.1 hc
    simp [List.get?_eq_getElem?, List.getElem?_map, List.getElem?_range, hc']
  rw [show (fun r => (List.range cols).map (fun c =>
      (((((List.range cols).map
        (fun c' => (layout.get? (r * cols + c')).getD none)).get? c)).getD none).getD "none"))
    = (fun r => (List.range cols).map
        (fun c => ((layout.get? (r * cols + c)).getD none).getD "none")) from funext inner]
  rw [flatMap_range_mul rows cols (fun i => ((layout.get? i).getD none).getD "none")]
  rw [List.singleton_append]

theorem validateCards_ok :
    ∀ (lines : List (List Char)) (i : Nat) (layout : List (Option String)),
    validateCards lines i = .ok layout →
    layout = lines.map (fun tok => some (String.mk tok)) ∧
    ∀ tok ∈ lines, tok ≠ [] ∧ tok.all (fun ch => !isWS ch) = true := by
  intro lines
  induction lines with
  | nil =>
    intro i layout h
    rw [validateCards] at h
    cases h
    simp
  | cons tok rest ih =>
    intro i layout h
    rw [validateCards] at h
    split at h
    · cases h
    · rename_i hval
      split at h
      · cases h
      · rename_i layout' hrec
        cases h
        obtain ⟨hl, hv⟩ := ih (i + 1) layout' hrec
        subst hl
        refine ⟨rfl, ?_⟩
        intro t ht
        rcases List.mem_cons.1 ht with h' | h'
        · subst h'
          constructor
          · intro hnil
            subst hnil
            exact hval (Or.inl rfl)
          · rw [List.all_eq_true]
            intro ch hch
            rw [Bool.not_eq_true']
            by_contra hws
            rw [Bool.not_eq_false] at hws
            exact hval (Or.inr (List.any_eq_true.2 ⟨ch, hch, hws⟩))
        · exact hv t h'

theorem parseText_ok_inv {text : String} {b : Board}
    (h : parseText text = .ok b) :
    ∃ headerLine layout,
      fileLines text = headerLine :: cardLinesOf text ∧
      matchHeader (jsTrimList headerLine) = some (b.rows, b.cols) ∧
      1 ≤ b.rows ∧ 1 ≤ b.cols ∧
      (cardLinesOf text).length = b.rows * b.cols ∧
      validateCards (cardLinesOf text) 0 = .ok layout ∧
      b = Board.ofLayout b.rows b.cols layout := by
  unfold parseText at h
  split at h
  · cases h
  · rename_i headerLine rest hlines
    have hrest : cardLinesOf text = rest := by
      unfold cardLinesOf
      rw [hlines]
      rfl
    split at h
    · cases h
    · split at h
      · cases h
      · rename_i dims hmh
        split at h
        · cases h
        · rename_i hdims
          split at h
          · cases h
          · rename_i hcount
            split at h
            · cases h
            · rename_i layout hvc
              cases h
              push_neg at hdims
              refine ⟨headerLine, layout, ?_, ?_, ?_, ?_, ?_, ?_, ?_⟩
              · rw [hrest]; exact hlines
              · simpa using hmh
              · simpa using hdims.1
              · simpa using hdims.2
              · rw [hrest]; simpa using Decidable.not_not.1 hcount
              · rw [hrest]; exact hvc
              · rfl

/-! ### Invariant preservation: helpers -/

theorem getCell2_isSome_of {m : List (List α)} {R C r c : Nat}
    (h1 : m.length = R) (h2 : ∀ row ∈ m, row.length = C) (hr : r < R) (hc : c < C) :
    (getCell2 m r c).isSome = true := by
  unfold getCell2
  have hr' : r < m.length := h1 ▸ hr
  rw [List.get?_eq_getElem?, List.getElem?_eq_getElem hr']
  have hrow := h2 m[r] (List.getElem_mem hr')
  have hc' : c < m[r].length := hrow ▸ hc
  simp [List.get?_eq_getElem?, List.getElem?_eq_getElem hc']

namespace Board

theorem cards_isSome (b : Board) {r c : Nat} (hd : DimsOk b)
    (hr : r < b.rows) (hc : c < b.cols) : (getCell2 b.cards r c).isSome = true :=
  getCell2_isSome_of hd.2.1.1 hd.2.2.1 hr hc

theorem faceUp_isSome (b : Board) {r c : Nat} (hd : DimsOk b)
    (hr : r < b.rows) (hc : c < b.cols) : (getCell2 b.faceUp r c).isSome = true :=
  getCell2_isSome_of hd.2.1.2.1 hd.2.2.2.1 hr hc

theorem controller_isSome (b : Board) {r c : Nat} (hd : DimsOk b)
    (hr : r < b.rows) (hc : c < b.cols) : (getCell2 b.controller r c).isSome = true :=
  getCell2_isSome_of hd.2.1.2.2 hd.2.2.2.2 hr hc

theorem cardAt_setCard_self (b : Board) (r c : Nat) (v : Option String)
    (h : (getCell2 b.cards r c).isSome = true) :
    (b.setCard r c v).cardAt r c = v := by
  rw [cardAt_setCard]
  simp [h]

theorem cardAt_setCard_other (b : Board) (r c r' c' : Nat) (v : Option String)
    (h : ¬ (r = r' ∧ c = c')) :
    (b.setCard r c v).cardAt r' c' = b.cardAt r' c' := by
  rw [cardAt_setCard, if_neg (fun hh => h ⟨hh.1, hh.2.1⟩)]

theorem upAt_setUp_self (b : Board) (r c : Nat) (v : Bool)
    (h : (getCell2 b.faceUp r c).isSome = true) :
    (b.setUp r c v).upAt r c = v := by
  rw [upAt_setUp]
  simp [h]

theorem upAt_setUp_other (b : Board) (r c r' c' : Nat) (v : Bool)
    (h : ¬ (r = r' ∧ c = c')) :
    (b.setUp r c v).upAt r' c' = b.upAt r' c' := by
  rw [upAt_setUp, if_neg (fun hh => h ⟨hh.1, hh.2.1⟩)]

theorem ctrlAt_setCtrl_self (b : Board) (r c : Nat) (v : Option String)
    (h : (getCell2 b.controller r c).isSome = true) :
    (b.setCtrl r c v).ctrlAt r c = v := by
  rw [ctrlAt_setCtrl]
  simp [h]

theorem ctrlAt_setCtrl_other (b : Board) (r c r' c' : Nat) (v : Option String)
    (h : ¬ (r = r' ∧ c = c')) :
    (b.setCtrl r c v).ctrlAt r' c' = b.ctrlAt r' c' := by
  rw [ctrlAt_setCtrl, if_neg (fun hh => h ⟨hh.1, hh.2.1⟩)]

theorem CellOk_congr {b b' : Board} (r c : Nat)
    (hcard : b'.cardAt r c = b.cardAt r c) (hup : b'.upAt r c = b.upAt r c)
    (hctrl : b'.ctrlAt r c = b.ctrlAt r c)
    (hhp : ∀ q, hasPlayer b' q = hasPlayer b q)
    (h : CellOk b r c) : CellOk b' r c := by
  unfold CellOk at h ⊢
  rw [hcard, hup, hctrl, hhp]
  exact h

theorem CellInv_congr {b b' : Board} (r c : Nat)
    (hcard : b'.cardAt r c = b.cardAt r c) (hup : b'.upAt r c = b.upAt r c)
    (hctrl : b'.ctrlAt r c = b.ctrlAt r c)
    (hhp : ∀ q, hasPlayer b' q = hasPlayer b q)
    (h : CellInv b r c) : CellInv b' r c := by
  unfold CellInv at h ⊢
  rw [hcard, hup, hctrl]
  refine ⟨h.1, fun q hq => ?_⟩
  obtain ⟨h1, h2, h3⟩ := h.2 q hq
  exact ⟨h1, h2, by rw [hhp]; exact h3⟩

theorem validToken_of_registered (b : Board) (pid : String)
    (hpl : PlayersOk b) (hp : hasPlayer b pid = true) : validToken pid = true := by
  unfold hasPlayer at hp
  obtain ⟨p, hlk⟩ := Option.isSome_iff_exists.1 hp
  exact hpl (pid, p) (lookupA_mem hlk)

theorem getPlayerD_cards_inRange (b : Board) (pid : String)
    (hpcir : PlayerCardsInRange b) (hp : hasPlayer b pid = true) :
    (∀ q ∈ (b.getPlayerD pid).firstCard, q.1 < b.rows ∧ q.2 < b.cols) ∧
    (∀ q ∈ (b.getPlayerD pid).secondCard, q.1 < b.rows ∧ q.2 < b.cols) := by
  unfold hasPlayer at hp
  obtain ⟨p, hlk⟩ := Option.isSome_iff_exists.1 hp
  have hmem := lookupA_mem hlk
  have := hpcir (pid, p) hmem
  unfold getPlayerD
  rw [hlk]
  exact this

theorem getPlayerD_pair (b : Board) (pid : String)
    (hpair : ∀ e ∈ b.players, e.2.firstCard = none → e.2.secondCard = none)
    (hp : hasPlayer b pid = true) :
    (b.getPlayerD pid).firstCard = none → (b.getPlayerD pid).secondCard = none := by
  unfold hasPlayer at hp
  obtain ⟨p, hlk⟩ := Option.isSome_iff_exists.1 hp
  have := hpair (pid, p) (lookupA_mem hlk)
  unfold getPlayerD
  rw [hlk]
  exact this

/-- Transport `FullInv` along an update that leaves the grid and the
player registry unchanged and whose waiter / lingering / watcher maps
still satisfy the `checkRep` clauses of the old state. -/
theorem FullInv_mapsOnly {b b' : Board}
    (hrows : b'.rows = b.rows) (hcols : b'.cols = b.cols)
    (hcards : b'.cards = b.cards) (hfaceUp : b'.faceUp = b.faceUp)
    (hcontroller : b'.controller = b.controller) (hplayers : b'.players = b.players)
    (hwait : ∀ e ∈ b'.waiting, e.1.1 < b.rows ∧ e.1.2 < b.cols)
    (hling : ∀ e ∈ b'.lingering, hasPlayer b e.1 = true ∧
      ∀ p ∈ e.2, p.1 < b.rows ∧ p.2 < b.cols)
    (hwatch : ∀ e ∈ b'.changeResolvers, hasPlayer b e.1 = true)
    (h : FullInv b) : FullInv b' := by
  obtain ⟨⟨hdims, hcells, hpl, hwaitOk, hlingOk, hwatchOk⟩, ⟨hcellinv, hpair⟩, hpcir⟩ := h
  have hhp : ∀ q, hasPlayer b' q = hasPlayer b q := by
    intro q
    unfold hasPlayer
    rw [hplayers]
  have hcardAt : ∀ r c, b'.cardAt r c = b.cardAt r c := by
    intro r c
    unfold cardAt
    rw [hcards]
  have hupAt : ∀ r c, b'.upAt r c = b.upAt r c := by
    intro r c
    unfold upAt
    rw [hfaceUp]
  have hctrlAt : ∀ r c, b'.ctrlAt r c = b.ctrlAt r c := by
    intro r c
    unfold ctrlAt
    rw [hcontroller]
  refine ⟨⟨?_, ?_, ?_, ?_, ?_, ?_⟩, ⟨?_, ?_⟩, ?_⟩
  · unfold DimsOk at hdims ⊢
    rw [hrows, hcols, hcards, hfaceUp, hcontroller]
    exact hdims
  · intro r hr c hc
    rw [hrows] at hr
    rw [hcols] at hc
    exact CellOk_congr r c (hcardAt r c) (hupAt r c) (hctrlAt r c) hhp (hcells r hr c hc)
  · unfold PlayersOk
    rw [hplayers]
    exact hpl
  · intro e he
    rw [hrows, hcols]
    exact hwait e he
  · intro e he
    rw [hrows, hcols, hhp]
    exact hling e he
  · intro e he
    rw [hhp]
    exact hwatch e he
  · intro r hr c hc
    rw [hrows] at hr
    rw [hcols] at hc
    exact CellInv_congr r c (hcardAt r c) (hupAt r c) (hctrlAt r c) hhp (hcellinv r hr c hc)
  · intro e he
    rw [hplayers] at he
    exact hpair e he
  · intro e he
    rw [hplayers] at he
    rw [hrows, hcols]
    exact hpcir e he

theorem DimsOk_setCard (b : Board) (r c : Nat) (v : Option String)
    (h : DimsOk b) : DimsOk (b.setCard r c v) := by
  obtain ⟨h1, ⟨l1, l2, l3⟩, m1, m2, m3⟩ := h
  refine ⟨h1, ⟨?_, l2, l3⟩, ?_, m2, m3⟩
  · rw [setCard_cards, length_setCell2]; exact l1
  · intro row hrow
    rw [setCard_cards] at hrow
    rcases mem_setCell2 hrow with h' | ⟨row', hrow', hlen⟩
    · exact m1 row h'
    · rw [hlen]; exact m1 row' hrow'

theorem DimsOk_setUp (b : Board) (r c : Nat) (v : Bool)
    (h : DimsOk b) : DimsOk (b.setUp r c v) := by
  obtain ⟨h1, ⟨l1, l2, l3⟩, m1, m2, m3⟩ := h
  refine ⟨h1, ⟨l1, ?_, l3⟩, m1, ?_, m3⟩
  · rw [setUp_faceUp, length_setCell2]; exact l2
  · intro row hrow
    rw [setUp_faceUp] at hrow
    rcases mem_setCell2 hrow with h' | ⟨row', hrow', hlen⟩
    · exact m2 row h'
    · rw [hlen]; exact m2 row' hrow'

theorem DimsOk_setCtrl (b : Board) (r c : Nat) (v : Option String)
    (h : DimsOk b) : DimsOk (b.setCtrl r c v) := by
  obtain ⟨h1, ⟨l1, l2, l3⟩, m1, m2, m3⟩ := h
  refine ⟨h1, ⟨l1, l2, ?_⟩, m1, m2, ?_⟩
  · rw [setCtrl_controller, length_setCell2]; exact l3
  · intro row hrow
    rw [setCtrl_controller] at hrow
    rcases mem_setCell2 hrow with h' | ⟨row', hrow', hlen⟩
    · exact m3 row h'
    · rw [hlen]; exact m3 row' hrow'

/-- Transport `FullInv` along an update that touches only the cell
`(r, c)` of the grid (plus the waiter / lingering / watcher maps, still
satisfying `checkRep`), given the cell invariants at the touched cell. -/
theorem FullInv_cellUpdate {b b' : Board} (r c : Nat)
    (hrows : b'.rows = b.rows) (hcols : b'.cols = b.cols)
    (hplayers : b'.players = b.players)
    (hwaitF : ∀ e ∈ b'.waiting, e.1.1 < b.rows ∧ e.1.2 < b.cols)
    (hlingF : ∀ e ∈ b'.lingering, hasPlayer b e.1 = true ∧
      ∀ p ∈ e.2, p.1 < b.rows ∧ p.2 < b.cols)
    (hwatchF : ∀ e ∈ b'.changeResolvers, hasPlayer b e.1 = true)
    (hdims' : DimsOk b')
    (hother : ∀ r' c', ¬ (r = r' ∧ c = c') →
      b'.cardAt r' c' = b.cardAt r' c' ∧ b'.upAt r' c' = b.upAt r' c' ∧
      b'.ctrlAt r' c' = b.ctrlAt r' c')
    (hcell : r < b.rows → c < b.cols → CellOk b' r c ∧ CellInv b' r c)
    (h : FullInv b) : FullInv b' := by
  obtain ⟨⟨hdims, hcells, hpl, hwaitOk, hlingOk, hwatchOk⟩, ⟨hcellinv, hpair⟩, hpcir⟩ := h
  have hhp : ∀ q, hasPlayer b' q = hasPlayer b q := by
    intro q
    unfold hasPlayer
    rw [hplayers]
  refine ⟨⟨hdims', ?_, ?_, ?_, ?_, ?_⟩, ⟨?_, ?_⟩, ?_⟩
  · intro r' hr' c' hc'
    rw [hrows] at hr'
    rw [hcols] at hc'
    by_cases hrc : r = r' ∧ c = c'
    · obtain ⟨h1, h2⟩ := hrc
      subst h1
      subst h2
      exact (hcell hr' hc').1
    · obtain ⟨h1, h2, h3⟩ := hother r' c' hrc
      exact CellOk_congr r' c' h1 h2 h3 hhp (hcells r' hr' c' hc')
  · unfold PlayersOk
    rw [hplayers]
    exact hpl
  · intro e he
    rw [hrows, hcols]
    exact hwaitF e he
  · intro e he
    rw [hrows, hcols, hhp]
    exact hlingF e he
  · intro e he
    rw [hhp]
    exact hwatchF e he
  · intro r' hr' c' hc'
    rw [hrows] at hr'
    rw [hcols] at hc'
    by_cases hrc : r = r' ∧ c = c'
    · obtain ⟨h1, h2⟩ := hrc
      subst h1
      subst h2
      exact (hcell hr' hc').2
    · obtain ⟨h1, h2, h3⟩ := hother r' c' hrc
      exact CellInv_congr r' c' h1 h2 h3 hhp (hcellinv r' hr' c' hc')
  · intro e he
    rw [hplayers] at he
    exact hpair e he
  · intro e he
    rw [hplayers] at he
    rw [hrows, hcols]
    exact hpcir e he

theorem FullInv_notifyWaiters (b : Board) (r c : Nat)
    (h : FullInv b) : FullInv (b.notifyWaiters r c) := by
  refine @FullInv_mapsOnly b (b.notifyWaiters r c) rfl rfl rfl rfl rfl rfl ?_ ?_ ?_ h
  · intro e he
    exact h.1.2.2.2.1 e (mem_eraseA he)
  · intro e he
    exact h.1.2.2.2.2.1 e he
  · intro e he
    exact h.1.2.2.2.2.2 e he

theorem FullInv_notifyChange (b : Board) (h : FullInv b) :
    FullInv b.notifyChange := by
  refine @FullInv_mapsOnly b b.notifyChange rfl rfl rfl rfl rfl rfl ?_ ?_ ?_ h
  · intro e he
    exact h.1.2.2.2.1 e he
  · intro e he
    exact h.1.2.2.2.2.1 e he
  · intro e he
    rw [notifyChange_changeResolvers] at he
    cases he

theorem FullInv_enqueueWaiter (b : Board) (r c : Nat)
    (hr : r < b.rows) (hc : c < b.cols)
    (h : FullInv b) : FullInv (b.enqueueWaiter r c) := by
  refine @FullInv_mapsOnly b (b.enqueueWaiter r c) rfl rfl rfl rfl rfl rfl ?_ ?_ ?_ h
  · intro e he
    rw [enqueueWaiter_waiting] at he
    rcases mem_setA he with h' | h'
    · exact h.1.2.2.2.1 e h'
    · rw [h']
      exact ⟨hr, hc⟩
  · intro e he
    exact h.1.2.2.2.2.1 e he
  · intro e he
    exact h.1.2.2.2.2.2 e he

theorem FullInv_rememberLingering (b : Board) (pid : String) (r c : Nat)
    (hp : hasPlayer b pid = true) (hr : r < b.rows) (hc : c < b.cols)
    (h : FullInv b) : FullInv (b.rememberLingering pid r c) := by
  refine @FullInv_mapsOnly b (b.rememberLingering pid r c) rfl rfl rfl rfl rfl rfl ?_ ?_ ?_ h
  · intro e he
    exact h.1.2.2.2.1 e he
  · intro e he
    rw [rememberLingering_lingering] at he
    rcases mem_setA he with h' | h'
    · exact h.1.2.2.2.2.1 e h'
    · rw [h']
      refine ⟨hp, fun p hpmem => ?_⟩
      rcases List.mem_append.1 hpmem with h'' | h''
      · cases hlk : lookupA b.lingering pid with
        | none => rw [hlk] at h''; cases h''
        | some l =>
          rw [hlk] at h''
          exact (h.1.2.2.2.2.1 (pid, l) (lookupA_mem hlk)).2 p h''
      · rw [List.mem_singleton.1 h'']
        exact ⟨hr, hc⟩
  · intro e he
    exact h.1.2.2.2.2.2 e he

theorem FullInv_setPlayerState (b : Board) (pid : String) (p : Player)
    (hp : hasPlayer b pid = true)
    (hpair : p.firstCard = none → p.secondCard = none)
    (hfst : ∀ q ∈ p.firstCard, q.1 < b.rows ∧ q.2 < b.cols)
    (hsnd : ∀ q ∈ p.secondCard, q.1 < b.rows ∧ q.2 < b.cols)
    (h : FullInv b) : FullInv (b.setPlayerState pid p) := by
  obtain ⟨⟨hdims, hcells, hpl, hwaitOk, hlingOk, hwatchOk⟩, ⟨hcellinv, hpair'⟩, hpcir⟩ := h
  have hhp : ∀ q, hasPlayer (b.setPlayerState pid p) q = hasPlayer b q :=
    fun q => hasPlayer_setPlayerState b pid q p hp
  refine ⟨⟨hdims, ?_, ?_, hwaitOk, ?_, ?_⟩, ⟨?_, ?_⟩, ?_⟩
  · intro r hr c hc
    exact @CellOk_congr b (b.setPlayerState pid p) r c rfl rfl rfl hhp (hcells r hr c hc)
  · intro e he
    rw [setPlayerState_players] at he
    rcases mem_setA he with h' | h'
    · exact hpl e h'
    · rw [h']
      exact validToken_of_registered b pid hpl hp
  · intro e he
    rw [hhp]
    exact hlingOk e he
  · intro e he
    rw [hhp]
    exact hwatchOk e he
  · intro r hr c hc
    exact @CellInv_congr b (b.setPlayerState pid p) r c rfl rfl rfl hhp (hcellinv r hr c hc)
  · intro e he
    rw [setPlayerState_players] at he
    rcases mem_setA he with h' | h'
    · exact hpair' e h'
    · rw [h']
      exact hpair
  · intro e he
    rw [setPlayerState_players] at he
    rcases mem_setA he with h' | h'
    · exact hpcir e h'
    · rw [h']
      exact ⟨hfst, hsnd⟩

theorem FullInv_clearCardsOf (b : Board) (pid : String)
    (hp : hasPlayer b pid = true) (h : FullInv b) :
    FullInv (b.clearCardsOf pid) := by
  unfold clearCardsOf
  refine FullInv_setPlayerState b pid _ hp (fun _ => rfl) ?_ ?_ h
  · intro q hq
    cases hq
  · intro q hq
    cases hq

theorem FullInv_setCtrl_none (b : Board) (r c : Nat) (h : FullInv b) :
    FullInv (b.setCtrl r c none) := by
  have hdims := h.1.1
  refine @FullInv_cellUpdate b (b.setCtrl r c none) r c rfl rfl rfl ?_ ?_ ?_ ?_ ?_ ?_ h
  · intro e he; exact h.1.2.2.2.1 e he
  · intro e he; exact h.1.2.2.2.2.1 e he
  · intro e he; exact h.1.2.2.2.2.2 e he
  · exact DimsOk_setCtrl b r c none hdims
  · intro r' c' hne
    exact ⟨rfl, rfl, ctrlAt_setCtrl_other b r c r' c' none hne⟩
  · intro hr hc
    have hctrl' : (b.setCtrl r c none).ctrlAt r c = none :=
      ctrlAt_setCtrl_self b r c none (controller_isSome b hdims hr hc)
    have hcellok := h.1.2.1 r hr c hc
    have hcellinv := h.2.1.1 r hr c hc
    constructor
    · unfold CellOk at hcellok ⊢
      rw [show (b.setCtrl r c none).cardAt r c = b.cardAt r c from rfl,
        show (b.setCtrl r c none).upAt r c = b.upAt r c from rfl, hctrl']
      exact ⟨fun hnone => ⟨(hcellok.1 hnone).1, rfl⟩,
        fun hc' => hcellok.2.1 hc', fun _ => Or.inl rfl⟩
    · unfold CellInv at hcellinv ⊢
      rw [show (b.setCtrl r c none).cardAt r c = b.cardAt r c from rfl,
        show (b.setCtrl r c none).upAt r c = b.upAt r c from rfl, hctrl']
      exact ⟨fun hnone => ⟨(hcellinv.1 hnone).1, rfl⟩, fun q hq => by cases hq⟩

theorem FullInv_setUp_true (b : Board) (r c : Nat)
    (hcard : b.cardAt r c ≠ none) (h : FullInv b) :
    FullInv (b.setUp r c true) := by
  have hdims := h.1.1
  refine @FullInv_cellUpdate b (b.setUp r c true) r c rfl rfl rfl ?_ ?_ ?_ ?_ ?_ ?_ h
  · intro e he; exact h.1.2.2.2.1 e he
  · intro e he; exact h.1.2.2.2.2.1 e he
  · intro e he; exact h.1.2.2.2.2.2 e he
  · exact DimsOk_setUp b r c true hdims
  · intro r' c' hne
    exact ⟨rfl, upAt_setUp_other b r c r' c' true hne, rfl⟩
  · intro hr hc
    have hup' : (b.setUp r c true).upAt r c = true :=
      upAt_setUp_self b r c true (faceUp_isSome b hdims hr hc)
    have hcellok := h.1.2.1 r hr c hc
    have hcellinv := h.2.1.1 r hr c hc
    constructor
    · unfold CellOk at hcellok ⊢
      rw [show (b.setUp r c true).cardAt r c = b.cardAt r c from rfl,
        show (b.setUp r c true).ctrlAt r c = b.ctrlAt r c from rfl, hup']
      exact ⟨fun hnone => absurd hnone hcard,
        fun hc' => hcellok.2.1 hc', fun hc' => hcellok.2.2 hc'⟩
    · unfold CellInv at hcellinv ⊢
      rw [show (b.setUp r c true).cardAt r c = b.cardAt r c from rfl,
        show (b.setUp r c true).ctrlAt r c = b.ctrlAt r c from rfl, hup']
      refine ⟨fun hnone => absurd hnone hcard, fun q hq => ?_⟩
      obtain ⟨_, h2, h3⟩ := hcellinv.2 q hq
      exact ⟨rfl, h2, h3⟩

theorem FullInv_setCtrl_some (b : Board) (r c : Nat) (q : String)
    (hcard : b.cardAt r c ≠ none) (hup : b.upAt r c = true)
    (hq : hasPlayer b q = true) (h : FullInv b) :
    FullInv (b.setCtrl r c (some q)) := by
  have hdims := h.1.1
  refine @FullInv_cellUpdate b (b.setCtrl r c (some q)) r c rfl rfl rfl ?_ ?_ ?_ ?_ ?_ ?_ h
  · intro e he; exact h.1.2.2.2.1 e he
  · intro e he; exact h.1.2.2.2.2.1 e he
  · intro e he; exact h.1.2.2.2.2.2 e he
  · exact DimsOk_setCtrl b r c (some q) hdims
  · intro r' c' hne
    exact ⟨rfl, rfl, ctrlAt_setCtrl_other b r c r' c' (some q) hne⟩
  · intro hr hc
    have hctrl' : (b.setCtrl r c (some q)).ctrlAt r c = some q :=
      ctrlAt_setCtrl_self b r c (some q) (controller_isSome b hdims hr hc)
    have hcellok := h.1.2.1 r hr c hc
    constructor
    · unfold CellOk at hcellok ⊢
      rw [show (b.setCtrl r c (some q)).cardAt r c = b.cardAt r c from rfl,
        show (b.setCtrl r c (some q)).upAt r c = b.upAt r c from rfl, hctrl']
      exact ⟨fun hnone => absurd hnone hcard,
        fun hc' => hcellok.2.1 hc',
        fun _ => Or.inr (show hasPlayer _ q = true from hq)⟩
    · unfold CellInv
      rw [show (b.setCtrl r c (some q)).cardAt r c = b.cardAt r c from rfl,
        show (b.setCtrl r c (some q)).upAt r c = b.upAt r c from rfl, hctrl']
      refine ⟨fun hnone => absurd hnone hcard, fun q' hq' => ?_⟩
      have : q' = q := by cases hq'; rfl
      subst this
      exact ⟨hup, hcard, hq⟩

theorem FullInv_setUp_false (b : Board) (r c : Nat)
    (hcard : b.cardAt r c ≠ none) (hctrl : b.ctrlAt r c = none) (h : FullInv b) :
    FullInv (b.setUp r c false) := by
  have hdims := h.1.1
  refine @FullInv_cellUpdate b (b.setUp r c false) r c rfl rfl rfl ?_ ?_ ?_ ?_ ?_ ?_ h
  · intro e he; exact h.1.2.2.2.1 e he
  · intro e he; exact h.1.2.2.2.2.1 e he
  · intro e he; exact h.1.2.2.2.2.2 e he
  · exact DimsOk_setUp b r c false hdims
  · intro r' c' hne
    exact ⟨rfl, upAt_setUp_other b r c r' c' false hne, rfl⟩
  · intro hr hc
    have hcellok := h.1.2.1 r hr c hc
    constructor
    · unfold CellOk at hcellok ⊢
      rw [show (b.setUp r c false).cardAt r c = b.cardAt r c from rfl,
        show (b.setUp r c false).ctrlAt r c = b.ctrlAt r c from rfl]
      exact ⟨fun hnone => absurd hnone hcard,
        fun hc' => hcellok.2.1 hc', fun _ => Or.inl hctrl⟩
    · unfold CellInv
      rw [show (b.setUp r c false).cardAt r c = b.cardAt r c from rfl,
        show (b.setUp r c false).ctrlAt r c = b.ctrlAt r c from rfl, hctrl]
      exact ⟨fun hnone => absurd hnone hcard, fun q hq => by cases hq⟩

theorem FullInv_flipDownPair (b : Board) (r c : Nat)
    (hcard : b.cardAt r c ≠ none) (h : FullInv b) :
    FullInv ((b.setUp r c false).setCtrl r c none) := by
  have hdims := h.1.1
  refine @FullInv_cellUpdate b ((b.setUp r c false).setCtrl r c none) r c
    rfl rfl rfl ?_ ?_ ?_ ?_ ?_ ?_ h
  · intro e he; exact h.1.2.2.2.1 e he
  · intro e he; exact h.1.2.2.2.2.1 e he
  · intro e he; exact h.1.2.2.2.2.2 e he
  · exact DimsOk_setCtrl _ r c none (DimsOk_setUp b r c false hdims)
  · intro r' c' hne
    refine ⟨rfl, ?_, ?_⟩
    · show (b.setUp r c false).upAt r' c' = b.upAt r' c'
      exact upAt_setUp_other b r c r' c' false hne
    · exact ctrlAt_setCtrl_other (b.setUp r c false) r c r' c' none hne
  · intro hr hc
    have hctrl' : ((b.setUp r c false).setCtrl r c none).ctrlAt r c = none :=
      ctrlAt_setCtrl_self (b.setUp r c false) r c none (controller_isSome b hdims hr hc)
    have hup' : ((b.setUp r c false).setCtrl r c none).upAt r c = false := by
      show (b.setUp r c false).upAt r c = false
      exact upAt_setUp_self b r c false (faceUp_isSome b hdims hr hc)
    have hcellok := h.1.2.1 r hr c hc
    constructor
    · unfold CellOk at hcellok ⊢
      rw [show ((b.setUp r c false).setCtrl r c none).cardAt r c = b.cardAt r c from rfl,
        hup', hctrl']
      exact ⟨fun hnone => absurd hnone hcard,
        fun hc' => hcellok.2.1 hc', fun _ => Or.inl rfl⟩
    · unfold CellInv
      rw [show ((b.setUp r c false).setCtrl r c none).cardAt r c = b.cardAt r c from rfl,
        hup', hctrl']
      exact ⟨fun hnone => absurd hnone hcard, fun q hq => by cases hq⟩

theorem FullInv_removeCellAt (b : Board) (r c : Nat) (h : FullInv b) :
    FullInv (b.removeCellAt r c) := by
  have hdims := h.1.1
  unfold removeCellAt
  refine FullInv_notifyWaiters _ r c ?_
  refine @FullInv_cellUpdate b (((b.setCard r c none).setUp r c false).setCtrl r c none)
    r c rfl rfl rfl ?_ ?_ ?_ ?_ ?_ ?_ h
  · intro e he; exact h.1.2.2.2.1 e he
  · intro e he; exact h.1.2.2.2.2.1 e he
  · intro e he; exact h.1.2.2.2.2.2 e he
  · exact DimsOk_setCtrl _ r c none (DimsOk_setUp _ r c false (DimsOk_setCard b r c none hdims))
  · intro r' c' hne
    refine ⟨?_, ?_, ?_⟩
    · show (b.setCard r c none).cardAt r' c' = b.cardAt r' c'
      exact cardAt_setCard_other b r c r' c' none hne
    · show ((b.setCard r c none).setUp r c false).upAt r' c' = b.upAt r' c'
      exact upAt_setUp_other (b.setCard r c none) r c r' c' false hne
    · exact ctrlAt_setCtrl_other _ r c r' c' none hne
  · intro hr hc
    have hcard' : (((b.setCard r c none).setUp r c false).setCtrl r c none).cardAt r c
        = none := by
      show (b.setCard r c none).cardAt r c = none
      exact cardAt_setCard_self b r c none (cards_isSome b hdims hr hc)
    have hup' : (((b.setCard r c none).setUp r c false).setCtrl r c none).upAt r c
        = false := by
      show ((b.setCard r c none).setUp r c false).upAt r c = false
      exact upAt_setUp_self (b.setCard r c none) r c false (faceUp_isSome b hdims hr hc)
    have hctrl' : (((b.setCard r c none).setUp r c false).setCtrl r c none).ctrlAt r c
        = none :=
      ctrlAt_setCtrl_self _ r c none (controller_isSome b hdims hr hc)
    constructor
    · unfold CellOk
      rw [hcard', hup', hctrl']
      exact ⟨fun _ => ⟨rfl, rfl⟩, fun hne => absurd rfl hne, fun hne => absurd rfl hne⟩
    · unfold CellInv
      rw [hcard', hup', hctrl']
      exact ⟨fun _ => ⟨rfl, rfl⟩, fun q hq => by cases hq⟩

theorem FullInv_flipDownIfUncontrolled (b : Board) (r c : Nat) (h : FullInv b) :
    FullInv (b.flipDownIfUncontrolled r c) := by
  unfold flipDownIfUncontrolled
  split
  · rename_i hcond
    exact FullInv_setUp_false b r c
      (Option.isSome_iff_ne_none.1 hcond.1) hcond.2.2 h
  · exact h

theorem FullInv_relinquishIfHeld (b : Board) (pid : String) (pos : Nat × Nat)
    (h : FullInv b) : FullInv (b.relinquishIfHeld pid pos) := by
  unfold relinquishIfHeld
  split
  · exact FullInv_notifyWaiters _ pos.1 pos.2 (FullInv_setCtrl_none b pos.1 pos.2 h)
  · exact h

/-! ### Projections of the composite operations -/

@[simp] theorem flipDownIfUncontrolled_rows (b : Board) (r c : Nat) :
    (b.flipDownIfUncontrolled r c).rows = b.rows := by
  unfold flipDownIfUncontrolled; split <;> rfl
@[simp] theorem flipDownIfUncontrolled_cols (b : Board) (r c : Nat) :
    (b.flipDownIfUncontrolled r c).cols = b.cols := by
  unfold flipDownIfUncontrolled; split <;> rfl
@[simp] theorem flipDownIfUncontrolled_cards (b : Board) (r c : Nat) :
    (b.flipDownIfUncontrolled r c).cards = b.cards := by
  unfold flipDownIfUncontrolled; split <;> rfl
@[simp] theorem flipDownIfUncontrolled_controller (b : Board) (r c : Nat) :
    (b.flipDownIfUncontrolled r c).controller = b.controller := by
  unfold flipDownIfUncontrolled; split <;> rfl
@[simp] theorem flipDownIfUncontrolled_players (b : Board) (r c : Nat) :
    (b.flipDownIfUncontrolled r c).players = b.players := by
  unfold flipDownIfUncontrolled; split <;> rfl
@[simp] theorem flipDownIfUncontrolled_waiting (b : Board) (r c : Nat) :
    (b.flipDownIfUncontrolled r c).waiting = b.waiting := by
  unfold flipDownIfUncontrolled; split <;> rfl
@[simp] theorem flipDownIfUncontrolled_lingering (b : Board) (r c : Nat) :
    (b.flipDownIfUncontrolled r c).lingering = b.lingering := by
  unfold flipDownIfUncontrolled; split <;> rfl
@[simp] theorem flipDownIfUncontrolled_changeResolvers (b : Board) (r c : Nat) :
    (b.flipDownIfUncontrolled r c).changeResolvers = b.changeResolvers := by
  unfold flipDownIfUncontrolled; split <;> rfl
@[simp] theorem flipDownIfUncontrolled_delivered (b : Board) (r c : Nat) :
    (b.flipDownIfUncontrolled r c).delivered = b.delivered := by
  unfold flipDownIfUncontrolled; split <;> rfl
@[simp] theorem flipDownIfUncontrolled_woken (b : Board) (r c : Nat) :
    (b.flipDownIfUncontrolled r c).woken = b.woken := by
  unfold flipDownIfUncontrolled; split <;> rfl
@[simp] theorem flipDownIfUncontrolled_nextWaiter (b : Board) (r c : Nat) :
    (b.flipDownIfUncontrolled r c).nextWaiter = b.nextWaiter := by
  unfold flipDownIfUncontrolled; split <;> rfl

@[simp] theorem clearCardsOf_rows (b : Board) (pid : String) :
    (b.clearCardsOf pid).rows = b.rows := rfl
@[simp] theorem clearCardsOf_cols (b : Board) (pid : String) :
    (b.clearCardsOf pid).cols = b.cols := rfl
@[simp] theorem clearCardsOf_cards (b : Board) (pid : String) :
    (b.clearCardsOf pid).cards = b.cards := rfl
@[simp] theorem clearCardsOf_faceUp (b : Board) (pid : String) :
    (b.clearCardsOf pid).faceUp = b.faceUp := rfl
@[simp] theorem clearCardsOf_controller (b : Board) (pid : String) :
    (b.clearCardsOf pid).controller = b.controller := rfl
@[simp] theorem clearCardsOf_waiting (b : Board) (pid : String) :
    (b.clearCardsOf pid).waiting = b.waiting := rfl
@[simp] theorem clearCardsOf_lingering (b : Board) (pid : String) :
    (b.clearCardsOf pid).lingering = b.lingering := rfl
@[simp] theorem clearCardsOf_changeResolvers (b : Board) (pid : String) :
    (b.clearCardsOf pid).changeResolvers = b.changeResolvers := rfl
@[simp] theorem clearCardsOf_delivered (b : Board) (pid : String) :
    (b.clearCardsOf pid).delivered = b.delivered := rfl
@[simp] theorem clearCardsOf_woken (b : Board) (pid : String) :
    (b.clearCardsOf pid).woken = b.woken := rfl
@[simp] theorem clearCardsOf_nextWaiter (b : Board) (pid : String) :
    (b.clearCardsOf pid).nextWaiter = b.nextWaiter := rfl
@[simp] theorem clearCardsOf_cardAt (b : Board) (pid : String) (r c : Nat) :
    (b.clearCardsOf pid).cardAt r c = b.cardAt r c := rfl
@[simp] theorem clearCardsOf_upAt (b : Board) (pid : String) (r c : Nat) :
    (b.clearCardsOf pid).upAt r c = b.upAt r c := rfl
@[simp] theorem clearCardsOf_ctrlAt (b : Board) (pid : String) (r c : Nat) :
    (b.clearCardsOf pid).ctrlAt r c = b.ctrlAt r c := rfl
@[simp] theorem clearCardsOf_queueAt (b : Board) (pid : String) (r c : Nat) :
    (b.clearCardsOf pid).queueAt r c = b.queueAt r c := rfl

theorem clearCardsOf_hasPlayer (b : Board) (pid q : String)
    (hp : hasPlayer b pid = true) :
    (b.clearCardsOf pid).hasPlayer q = b.hasPlayer q :=
  hasPlayer_setPlayerState b pid q _ hp

theorem clearCardsOf_getPlayerD_self (b : Board) (pid : String) :
    (b.clearCardsOf pid).getPlayerD pid =
      { b.getPlayerD pid with firstCard := none, secondCard := none } :=
  getPlayerD_setPlayerState_self b pid _

@[simp] theorem relinquishIfHeld_rows (b : Board) (pid : String) (pos : Nat × Nat) :
    (b.relinquishIfHeld pid pos).rows = b.rows := by
  unfold relinquishIfHeld; split <;> rfl
@[simp] theorem relinquishIfHeld_cols (b : Board) (pid : String) (pos : Nat × Nat) :
    (b.relinquishIfHeld pid pos).cols = b.cols := by
  unfold relinquishIfHeld; split <;> rfl
@[simp] theorem relinquishIfHeld_cards (b : Board) (pid : String) (pos : Nat × Nat) :
    (b.relinquishIfHeld pid pos).cards = b.cards := by
  unfold relinquishIfHeld; split <;> rfl
@[simp] theorem relinquishIfHeld_faceUp (b : Board) (pid : String) (pos : Nat × Nat) :
    (b.relinquishIfHeld pid pos).faceUp = b.faceUp := by
  unfold relinquishIfHeld; split <;> rfl
@[simp] theorem relinquishIfHeld_players (b : Board) (pid : String) (pos : Nat × Nat) :
    (b.relinquishIfHeld pid pos).players = b.players := by
  unfold relinquishIfHeld; split <;> rfl
@[simp] theorem relinquishIfHeld_lingering (b : Board) (pid : String) (pos : Nat × Nat) :
    (b.relinquishIfHeld pid pos).lingering = b.lingering := by
  unfold relinquishIfHeld; split <;> rfl
@[simp] theorem relinquishIfHeld_changeResolvers (b : Board) (pid : String)
    (pos : Nat × Nat) :
    (b.relinquishIfHeld pid pos).changeResolvers = b.changeResolvers := by
  unfold relinquishIfHeld; split <;> rfl
@[simp] theorem relinquishIfHeld_delivered (b : Board) (pid : String) (pos : Nat × Nat) :
    (b.relinquishIfHeld pid pos).delivered = b.delivered := by
  unfold relinquishIfHeld; split <;> rfl
@[simp] theorem relinquishIfHeld_nextWaiter (b : Board) (pid : String) (pos : Nat × Nat) :
    (b.relinquishIfHeld pid pos).nextWaiter = b.nextWaiter := by
  unfold relinquishIfHeld; split <;> rfl
@[simp] theorem relinquishIfHeld_cardAt (b : Board) (pid : String) (pos : Nat × Nat)
    (r c : Nat) : (b.relinquishIfHeld pid pos).cardAt r c = b.cardAt r c := by
  unfold relinquishIfHeld; split <;> rfl
@[simp] theorem relinquishIfHeld_upAt (b : Board) (pid : String) (pos : Nat × Nat)
    (r c : Nat) : (b.relinquishIfHeld pid pos).upAt r c = b.upAt r c := by
  unfold relinquishIfHeld; split <;> rfl
@[simp] theorem relinquishIfHeld_hasPlayer (b : Board) (pid q : String)
    (pos : Nat × Nat) : (b.relinquishIfHeld pid pos).hasPlayer q = b.hasPlayer q := by
  unfold relinquishIfHeld; split <;> rfl
@[simp] theorem relinquishIfHeld_getPlayerD (b : Board) (pid q : String)
    (pos : Nat × Nat) : (b.relinquishIfHeld pid pos).getPlayerD q = b.getPlayerD q := by
  unfold relinquishIfHeld; split <;> rfl

@[simp] theorem removeCellAt_rows (b : Board) (r c : Nat) :
    (b.removeCellAt r c).rows = b.rows := rfl
@[simp] theorem removeCellAt_cols (b : Board) (r c : Nat) :
    (b.removeCellAt r c).cols = b.cols := rfl
@[simp] theorem removeCellAt_players (b : Board) (r c : Nat) :
    (b.removeCellAt r c).players = b.players := rfl
@[simp] theorem removeCellAt_lingering (b : Board) (r c : Nat) :
    (b.removeCellAt r c).lingering = b.lingering := rfl
@[simp] theorem removeCellAt_changeResolvers (b : Board) (r c : Nat) :
    (b.removeCellAt r c).changeResolvers = b.changeResolvers := rfl
@[simp] theorem removeCellAt_delivered (b : Board) (r c : Nat) :
    (b.removeCellAt r c).delivered = b.delivered := rfl
@[simp] theorem removeCellAt_nextWaiter (b : Board) (r c : Nat) :
    (b.removeCellAt r c).nextWaiter = b.nextWaiter := rfl
@[simp] theorem removeCellAt_hasPlayer (b : Board) (r c : Nat) (q : String) :
    (b.removeCellAt r c).hasPlayer q = b.hasPlayer q := rfl
@[simp] theorem removeCellAt_getPlayerD (b : Board) (r c : Nat) (q : String) :
    (b.removeCellAt r c).getPlayerD q = b.getPlayerD q := rfl

/-- The lingering fold (3-B pass) touches only `faceUp`. -/
theorem foldl_flipDown_proj (l : List (Nat × Nat)) (b : Board) :
    (l.foldl (fun (acc : Board) (pos : Nat × Nat) =>
        acc.flipDownIfUncontrolled pos.1 pos.2) b).rows = b.rows ∧
    (l.foldl (fun (acc : Board) (pos : Nat × Nat) =>
        acc.flipDownIfUncontrolled pos.1 pos.2) b).cols = b.cols ∧
    (l.foldl (fun (acc : Board) (pos : Nat × Nat) =>
        acc.flipDownIfUncontrolled pos.1 pos.2) b).cards = b.cards ∧
    (l.foldl (fun (acc : Board) (pos : Nat × Nat) =>
        acc.flipDownIfUncontrolled pos.1 pos.2) b).controller = b.controller ∧
    (l.foldl (fun (acc : Board) (pos : Nat × Nat) =>
        acc.flipDownIfUncontrolled pos.1 pos.2) b).players = b.players ∧
    (l.foldl (fun (acc : Board) (pos : Nat × Nat) =>
        acc.flipDownIfUncontrolled pos.1 pos.2) b).waiting = b.waiting ∧
    (l.foldl (fun (acc : Board) (pos : Nat × Nat) =>
        acc.flipDownIfUncontrolled pos.1 pos.2) b).lingering = b.lingering ∧
    (l.foldl (fun (acc : Board) (pos : Nat × Nat) =>
        acc.flipDownIfUncontrolled pos.1 pos.2) b).changeResolvers = b.changeResolvers ∧
    (l.foldl (fun (acc : Board) (pos : Nat × Nat) =>
        acc.flipDownIfUncontrolled pos.1 pos.2) b).delivered = b.delivered ∧
    (l.foldl (fun (acc : Board) (pos : Nat × Nat) =>
        acc.flipDownIfUncontrolled pos.1 pos.2) b).woken = b.woken ∧
    (l.foldl (fun (acc : Board) (pos : Nat × Nat) =>
        acc.flipDownIfUncontrolled pos.1 pos.2) b).nextWaiter = b.nextWaiter := by
  induction l generalizing b with
  | nil => exact ⟨rfl, rfl, rfl, rfl, rfl, rfl, rfl, rfl, rfl, rfl, rfl⟩
  | cons p ps ih =>
    simp only [List.foldl_cons]
    obtain ⟨i1, i2, i3, i4, i5, i6, i7, i8, i9, i10, i11⟩ :=
      ih (b.flipDownIfUncontrolled p.1 p.2)
    refine ⟨?_, ?_, ?_, ?_, ?_, ?_, ?_, ?_, ?_, ?_, ?_⟩ <;> simp_all

/-- The lingering fold preserves the full invariant. -/
theorem FullInv_foldl_flipDown (l : List (Nat × Nat)) (b : Board) (h : FullInv b) :
    FullInv (l.foldl (fun (acc : Board) (pos : Nat × Nat) =>
      acc.flipDownIfUncontrolled pos.1 pos.2) b) := by
  induction l generalizing b with
  | nil => exact h
  | cons p ps ih =>
    simp only [List.foldl_cons]
    exact ih _ (FullInv_flipDownIfUncontrolled b p.1 p.2 h)

/-- The lingering pass preserves the full invariant. -/
theorem FullInv_lingerPass (b : Board) (pid : String) (h : FullInv b) :
    FullInv (b.lingerPass pid) := by
  unfold lingerPass
  cases hlk : lookupA b.lingering pid with
  | none => exact h
  | some linger =>
    by_cases hemp : linger.isEmpty
    · simp only [hemp, if_true]
      exact h
    · simp only [hemp, if_false]
      have hfold := FullInv_foldl_flipDown linger b h
      obtain ⟨i1, i2, i3, i4, i5, i6, i7, i8, i9, i10, i11⟩ := foldl_flipDown_proj linger b
      set bf := linger.foldl
        (fun (acc : Board) (pos : Nat × Nat) =>
          acc.flipDownIfUncontrolled pos.1 pos.2) b with hbf
      refine @FullInv_mapsOnly bf { bf with lingering := eraseA bf.lingering pid }
        rfl rfl rfl rfl rfl rfl ?_ ?_ ?_ hfold
      · intro e he
        exact hfold.1.2.2.2.1 e he
      · intro e he
        exact hfold.1.2.2.2.2.1 e (mem_eraseA he)
      · intro e he
        exact hfold.1.2.2.2.2.2 e he

/-- The lingering pass touches only `faceUp` and `lingering`. -/
theorem lingerPass_proj (b : Board) (pid : String) :
    (b.lingerPass pid).rows = b.rows ∧
    (b.lingerPass pid).cols = b.cols ∧
    (b.lingerPass pid).cards = b.cards ∧
    (b.lingerPass pid).controller = b.controller ∧
    (b.lingerPass pid).players = b.players ∧
    (b.lingerPass pid).waiting = b.waiting ∧
    (b.lingerPass pid).changeResolvers = b.changeResolvers ∧
    (b.lingerPass pid).delivered = b.delivered ∧
    (b.lingerPass pid).woken = b.woken ∧
    (b.lingerPass pid).nextWaiter = b.nextWaiter := by
  unfold lingerPass
  cases hlk : lookupA b.lingering pid with
  | none => exact ⟨rfl, rfl, rfl, rfl, rfl, rfl, rfl, rfl, rfl, rfl⟩
  | some linger =>
    by_cases hemp : linger.isEmpty
    · simp [hemp]
    · simp only [hemp, if_false]
      obtain ⟨i1, i2, i3, i4, i5, i6, _, i8, i9, i10, i11⟩ := foldl_flipDown_proj linger b
      exact ⟨i1, i2, i3, i4, i5, i6, i8, i9, i10, i11⟩

/-- The pair pass touches only the grid and the waiter state. -/
theorem pairPass_proj (b1 : Board) (pid : String) (fc sc : Option (Nat × Nat)) :
    (pairPass b1 pid fc sc).rows = b1.rows ∧
    (pairPass b1 pid fc sc).cols = b1.cols ∧
    (pairPass b1 pid fc sc).players = b1.players ∧
    (pairPass b1 pid fc sc).lingering = b1.lingering ∧
    (pairPass b1 pid fc sc).changeResolvers = b1.changeResolvers ∧
    (pairPass b1 pid fc sc).delivered = b1.delivered ∧
    (pairPass b1 pid fc sc).nextWaiter = b1.nextWaiter := by
  unfold pairPass
  cases fc with
  | none => exact ⟨rfl, rfl, rfl, rfl, rfl, rfl, rfl⟩
  | some fc =>
    cases sc with
    | none => simp
    | some sc =>
      by_cases hpic : b1.cardAt fc.1 fc.2 = b1.cardAt sc.1 sc.2 ∧
          (b1.cardAt fc.1 fc.2).isSome = true
      · obtain ⟨hp1, hp2⟩ := hpic
        have hp2' : (b1.cardAt sc.1 sc.2).isSome = true := hp1 ▸ hp2
        by_cases hc1 : b1.ctrlAt fc.1 fc.2 = some pid
        · by_cases hc2 : (b1.removeCellAt fc.1 fc.2).ctrlAt sc.1 sc.2 = some pid
          · simp [hp1, hp2, hp2', hc1, hc2]
          · simp [hp1, hp2, hp2', hc1, hc2]
        · by_cases hc2 : b1.ctrlAt sc.1 sc.2 = some pid
          · simp [hp1, hp2, hp2', hc1, hc2]
          · simp [hp1, hp2, hp2', hc1, hc2]
      · simp [hpic]

theorem FullInv_pairPass (b1 : Board) (pid : String) (fc sc : Option (Nat × Nat))
    (h : FullInv b1) : FullInv (pairPass b1 pid fc sc) := by
  cases fc with
  | none => exact h
  | some fc =>
    cases sc with
    | none => exact FullInv_flipDownIfUncontrolled _ _ _ h
    | some sc =>
      show FullInv (if b1.cardAt fc.1 fc.2 = b1.cardAt sc.1 sc.2 ∧
          (b1.cardAt fc.1 fc.2).isSome = true
        then (if (if b1.ctrlAt fc.1 fc.2 = some pid
              then b1.removeCellAt fc.1 fc.2 else b1).ctrlAt sc.1 sc.2 = some pid
          then (if b1.ctrlAt fc.1 fc.2 = some pid
              then b1.removeCellAt fc.1 fc.2 else b1).removeCellAt sc.1 sc.2
          else (if b1.ctrlAt fc.1 fc.2 = some pid
              then b1.removeCellAt fc.1 fc.2 else b1))
        else ((b1.flipDownIfUncontrolled fc.1 fc.2).flipDownIfUncontrolled sc.1 sc.2))
      split
      · split
        · split
          · exact FullInv_removeCellAt _ _ _ (FullInv_removeCellAt _ _ _ h)
          · exact FullInv_removeCellAt _ _ _ h
        · split
          · exact FullInv_removeCellAt _ _ _ h
          · exact h
      · exact FullInv_flipDownIfUncontrolled _ _ _
          (FullInv_flipDownIfUncontrolled _ _ _ h)

theorem cleanupPreviousPlay_hasPlayer (b : Board) (pid : String)
    (hp : hasPlayer b pid = true) (q : String) :
    hasPlayer (b.cleanupPreviousPlay pid) q = hasPlayer b q := by
  unfold cleanupPreviousPlay
  have e1 := (lingerPass_proj b pid).2.2.2.2.1
  have e2 := (pairPass_proj (b.lingerPass pid) pid
    (b.getPlayerD pid).firstCard (b.getPlayerD pid).secondCard).2.2.1
  have hp2 : hasPlayer (pairPass (b.lingerPass pid) pid
      (b.getPlayerD pid).firstCard (b.getPlayerD pid).secondCard) pid = true := by
    unfold hasPlayer at hp ⊢
    rw [e2, e1]
    exact hp
  rw [clearCardsOf_hasPlayer _ pid q hp2]
  unfold hasPlayer
  rw [e2, e1]

theorem cleanupPreviousPlay_rows (b : Board) (pid : String) :
    (b.cleanupPreviousPlay pid).rows = b.rows := by
  unfold cleanupPreviousPlay
  rw [clearCardsOf_rows]
  exact (pairPass_proj _ _ _ _).1.trans (lingerPass_proj b pid).1

theorem cleanupPreviousPlay_cols (b : Board) (pid : String) :
    (b.cleanupPreviousPlay pid).cols = b.cols := by
  unfold cleanupPreviousPlay
  rw [clearCardsOf_cols]
  exact (pairPass_proj _ _ _ _).2.1.trans (lingerPass_proj b pid).2.1

theorem FullInv_cleanupPreviousPlay (b : Board) (pid : String)
    (hp : hasPlayer b pid = true) (h : FullInv b) :
    FullInv (b.cleanupPreviousPlay pid) := by
  unfold cleanupPreviousPlay
  have hb2 : FullInv (pairPass (b.lingerPass pid) pid
      (b.getPlayerD pid).firstCard (b.getPlayerD pid).secondCard) :=
    FullInv_pairPass _ _ _ _ (FullInv_lingerPass b pid h)
  refine FullInv_clearCardsOf _ pid ?_ hb2
  have e1 := (lingerPass_proj b pid).2.2.2.2.1
  have e2 := (pairPass_proj (b.lingerPass pid) pid
    (b.getPlayerD pid).firstCard (b.getPlayerD pid).secondCard).2.2.1
  unfold hasPlayer at hp ⊢
  rw [e2, e1]
  exact hp

end Board

/-! ### Cleanup and dispatch lemmas -/

theorem Player.eta_clear (p : Player) (h1 : p.firstCard = none)
    (h2 : p.secondCard = none) :
    ({ p with firstCard := none, secondCard := none } : Player) = p := by
  cases p; simp_all

namespace Board

theorem setPlayerState_self_eq (b : Board) (pid : String)
    (hp : b.hasPlayer pid = true) :
    b.setPlayerState pid (b.getPlayerD pid) = b := by
  unfold hasPlayer at hp
  obtain ⟨p, hlk⟩ := Option.isSome_iff_exists.1 hp
  unfold setPlayerState getPlayerD
  rw [hlk]
  show { b with players := setA b.players pid p } = b
  rw [setA_same hlk]

/-- The cleanup always ends by clearing both card slots of `pid`. -/
theorem cleanupPreviousPlay_clears (b : Board) (pid : String) :
    ((b.cleanupPreviousPlay pid).getPlayerD pid).firstCard = none ∧
    ((b.cleanupPreviousPlay pid).getPlayerD pid).secondCard = none := by
  constructor <;>
    (unfold cleanupPreviousPlay clearCardsOf; rw [getPlayerD_setPlayerState_self])

/-- A cleanup for a player with nothing to clean is the identity. -/
theorem cleanupPreviousPlay_id (b : Board) (pid : String)
    (hp : b.hasPlayer pid = true)
    (hl : (lookupA b.lingering pid).getD [] = [])
    (h1 : (b.getPlayerD pid).firstCard = none)
    (h2 : (b.getPlayerD pid).secondCard = none) :
    b.cleanupPreviousPlay pid = b := by
  have hl1 : b.lingerPass pid = b := by
    unfold lingerPass
    cases hcase : lookupA b.lingering pid with
    | none => rfl
    | some l =>
      have hl' : l = [] := by simpa [hcase] using hl
      subst hl'
      simp
  simp only [cleanupPreviousPlay, h1, h2, hl1]
  show (pairPass b pid none none).clearCardsOf pid = b
  show b.clearCardsOf pid = b
  simp only [clearCardsOf]
  rw [Player.eta_clear _ h1 h2, setPlayerState_self_eq b pid hp]

/-- `flipUp` dispatch: a clean player (no residual cards) goes to the
first-card branch after one cleanup. -/
theorem flipUp_clean_first (b : Board) (pid : String) (row col : Nat)
    (hrc : row < b.rows ∧ col < b.cols) (hp : b.hasPlayer pid = true)
    (hfst : (b.getPlayerD pid).firstCard = none)
    (hsec : (b.getPlayerD pid).secondCard = none) :
    b.flipUp pid row col = flipUpFirst (b.cleanupPreviousPlay pid) pid row col := by
  unfold flipUp
  rw [if_neg (not_not_intro hrc), if_neg (not_not_intro hp)]
  simp only [hsec, Option.isSome_none, Bool.false_eq_true, if_false, hfst]

/-- `flipUp` dispatch: a recorded first card (and no second) goes to the
second-card branch with no cleanup. -/
theorem flipUp_second (b : Board) (pid : String) (first : Nat × Nat) (row col : Nat)
    (hrc : row < b.rows ∧ col < b.cols) (hp : b.hasPlayer pid = true)
    (hfst : (b.getPlayerD pid).firstCard = some first)
    (hsec : (b.getPlayerD pid).secondCard = none) :
    b.flipUp pid row col = flipUpSecond b pid first row col := by
  unfold flipUp
  rw [if_neg (not_not_intro hrc), if_neg (not_not_intro hp)]
  simp only [hsec, Option.isSome_none, Bool.false_eq_true, if_false, hfst]

/-- `flipUp` dispatch: a recorded second card triggers the pre-step
cleanup, after which the call is a first flip, cleaned up once more. -/
theorem flipUp_after_pair (b : Board) (pid : String) (sc : Nat × Nat) (row col : Nat)
    (hrc : row < b.rows ∧ col < b.cols) (hp : b.hasPlayer pid = true)
    (hsec : (b.getPlayerD pid).secondCard = some sc) :
    b.flipUp pid row col =
      flipUpFirst ((b.cleanupPreviousPlay pid).cleanupPreviousPlay pid) pid row col := by
  unfold flipUp
  rw [if_neg (not_not_intro hrc), if_neg (not_not_intro hp)]
  simp only [hsec, Option.isSome_some, if_true,
    (cleanupPreviousPlay_clears b pid).1]

/-- `RepOk` makes `checkRep` pass. -/
theorem checkRepB_of_RepOk (b : Board) (h : RepOk b) : checkRepB b = true :=
  decide_eq_true h

/-- The player-record update of rule 1-B / 1-C / self-reselect keeps the
invariant: the stored first card is the in-bounds flip target. -/
theorem FullInv_recordFirst (b : Board) (pid : String) (row col : Nat)
    (hp : hasPlayer b pid = true) (hr : row < b.rows) (hc : col < b.cols)
    (h : FullInv b) :
    FullInv (b.setPlayerState pid
      { b.getPlayerD pid with firstCard := some (row, col), flipCount := (b.getPlayerD pid).flipCount + 1 }) := by
  refine FullInv_setPlayerState b pid _ hp (fun hn => nomatch hn) ?_ ?_ h
  · intro q hq
    have he : (row, col) = q := Option.mem_some_iff.1 hq
    rw [← he]
    exact ⟨hr, hc⟩
  · intro q hq
    exact (getPlayerD_cards_inRange b pid h.2.2 hp).2 q hq

/-- Rule 1-B: flip up, take control, record the first card. -/
theorem FullInv_rule1B (b : Board) (pid : String) (row col : Nat)
    (hp : hasPlayer b pid = true) (hr : row < b.rows) (hc : col < b.cols)
    (hcardne : b.cardAt row col ≠ none) (h : FullInv b) :
    FullInv (((b.setUp row col true).setCtrl row col (some pid)).setPlayerState pid
      { b.getPlayerD pid with firstCard := some (row, col), flipCount := (b.getPlayerD pid).flipCount + 1 }) := by
  have h3 : FullInv ((b.setUp row col true).setCtrl row col (some pid)) := by
    refine FullInv_setCtrl_some _ row col pid ?_ ?_ hp (FullInv_setUp_true b row col hcardne h)
    · exact hcardne
    · exact upAt_setUp_self b row col true (faceUp_isSome b h.1.1 hr hc)
  exact FullInv_recordFirst _ pid row col hp hr hc h3

/-- Rule 1-C: take control of a face-up uncontrolled card. -/
theorem FullInv_rule1C (b : Board) (pid : String) (row col : Nat)
    (hp : hasPlayer b pid = true) (hr : row < b.rows) (hc : col < b.cols)
    (hcardne : b.cardAt row col ≠ none) (hup : b.upAt row col = true)
    (h : FullInv b) :
    FullInv ((b.setCtrl row col (some pid)).setPlayerState pid
      { b.getPlayerD pid with firstCard := some (row, col), flipCount := (b.getPlayerD pid).flipCount + 1 }) := by
  have h3 : FullInv (b.setCtrl row col (some pid)) :=
    FullInv_setCtrl_some b row col pid hcardne hup hp h
  exact FullInv_recordFirst _ pid row col hp hr hc h3

/-- The first-card branch of `flipUp` preserves the invariant. -/
theorem FullInv_flipUpFirst (b2 : Board) (pid : String) (row col : Nat)
    (hp : hasPlayer b2 pid = true) (hr : row < b2.rows) (hc : col < b2.cols)
    (h : FullInv b2) : FullInv (flipUpFirst b2 pid row col).1 := by
  simp only [flipUpFirst]
  split
  · exact h
  · rename_i pic hcard
    have hcardne : b2.cardAt row col ≠ none := by
      rw [hcard]
      exact fun hx => nomatch hx
    split
    · have hb4 := FullInv_rule1B b2 pid row col hp hr hc hcardne h
      split
      · exact FullInv_notifyChange _ hb4
      · exact hb4
    · rename_i hup
      have hup' : b2.upAt row col = true := by
        cases hcase : b2.upAt row col
        · exact absurd hcase hup
        · rfl
      split
      · have hb4 := FullInv_rule1C b2 pid row col hp hr hc hcardne hup' h
        split
        · exact hb4
        · exact hb4
      · split
        · exact FullInv_enqueueWaiter b2 row col hr hc h
        · have hb4 := FullInv_recordFirst b2 pid row col hp hr hc h
          split
          · exact FullInv_notifyChange _ hb4
          · exact hb4

/-- The common error path of the second-card branch (same-cell guard,
2-A, 2-B): relinquish, remember lingering, clear the card slots. -/
theorem FullInv_errCleanup (b : Board) (pid : String) (first : Nat × Nat)
    (hp : hasPlayer b pid = true) (hf1 : first.1 < b.rows) (hf2 : first.2 < b.cols)
    (h : FullInv b) :
    FullInv (((b.relinquishIfHeld pid first).rememberLingering pid
      first.1 first.2).clearCardsOf pid) := by
  have h2 := FullInv_relinquishIfHeld b pid first h
  have hp2 : hasPlayer (b.relinquishIfHeld pid first) pid = true := by
    rw [relinquishIfHeld_hasPlayer]
    exact hp
  have h3 := FullInv_rememberLingering _ pid first.1 first.2 hp2
    (by rw [relinquishIfHeld_rows]; exact hf1)
    (by rw [relinquishIfHeld_cols]; exact hf2) h2
  exact FullInv_clearCardsOf _ pid hp2 h3

/-- The player-record update of rule 2-C: take control and record the
second card. -/
theorem FullInv_record2 (b2 : Board) (pid : String) (first : Nat × Nat)
    (row col : Nat)
    (hp : hasPlayer b2 pid = true) (hr : row < b2.rows) (hc : col < b2.cols)
    (hf1 : first.1 < b2.rows) (hf2 : first.2 < b2.cols)
    (hcardne : b2.cardAt row col ≠ none) (hup : b2.upAt row col = true)
    (hpfst : (b2.getPlayerD pid).firstCard = some first)
    (h : FullInv b2) :
    FullInv ((b2.setCtrl row col (some pid)).setPlayerState pid
      { b2.getPlayerD pid with secondCard := some (row, col), flipCount := (b2.getPlayerD pid).flipCount + 1 }) := by
  have h3 : FullInv (b2.setCtrl row col (some pid)) :=
    FullInv_setCtrl_some b2 row col pid hcardne hup hp h
  refine FullInv_setPlayerState _ pid _ hp ?_ ?_ ?_ h3
  · intro hn
    exact absurd (show (b2.getPlayerD pid).firstCard = none from hn)
      (by rw [hpfst]; exact fun hx => nomatch hx)
  · intro q hq
    have hq' : (b2.getPlayerD pid).firstCard = some q := hq
    rw [hpfst] at hq'
    injection hq' with he
    rw [← he]
    exact ⟨hf1, hf2⟩
  · intro q hq
    have he : (row, col) = q := Option.mem_some_iff.1 hq
    rw [← he]
    exact ⟨hr, hc⟩

/-- The second-card branch of `flipUp` preserves the invariant. -/
theorem FullInv_flipUpSecond (b1 : Board) (pid : String) (first : Nat × Nat)
    (row col : Nat) (hp : hasPlayer b1 pid = true)
    (hr : row < b1.rows) (hc : col < b1.cols)
    (hfc : (b1.getPlayerD pid).firstCard = some first)
    (h : FullInv b1) : FullInv (flipUpSecond b1 pid first row col).1 := by
  have hbnd := (getPlayerD_cards_inRange b1 pid h.2.2 hp).1 first
    (Option.mem_def.2 hfc)
  have herrB := FullInv_errCleanup b1 pid first hp hbnd.1 hbnd.2 h
  simp only [flipUpSecond]
  split
  · exact herrB
  · split
    · exact herrB
    · rename_i pic hcard
      split
      · exact herrB
      · have hcardne : b1.cardAt row col ≠ none := by
          rw [hcard]
          exact fun hx => nomatch hx
        by_cases hud : b1.upAt row col = false
        · simp only [if_pos hud]
          have hb2 := FullInv_setUp_true b1 row col hcardne h
          have hup2 : (b1.setUp row col true).upAt row col = true :=
            upAt_setUp_self b1 row col true (faceUp_isSome b1 h.1.1 hr hc)
          have hb4 := FullInv_record2 (b1.setUp row col true) pid first row col
            hp hr hc hbnd.1 hbnd.2 hcardne hup2 hfc hb2
          split
          · split
            · exact FullInv_notifyChange _ hb4
            · exact hb4
          · have h6 := FullInv_notifyWaiters _ row col
              (FullInv_setCtrl_none _ row col
                (FullInv_relinquishIfHeld _ pid first hb4))
            split
            · exact FullInv_notifyChange _ h6
            · exact h6
        · simp only [if_neg hud]
          have hup2 : b1.upAt row col = true := by
            cases hcase : b1.upAt row col
            · exact absurd hcase hud
            · rfl
          have hb4 := FullInv_record2 b1 pid first row col
            hp hr hc hbnd.1 hbnd.2 hcardne hup2 hfc h
          split
          · split
            · exact FullInv_notifyChange _ hb4
            · exact hb4
          · have h6 := FullInv_notifyWaiters _ row col
              (FullInv_setCtrl_none _ row col
                (FullInv_relinquishIfHeld _ pid first hb4))
            split
            · exact FullInv_notifyChange _ h6
            · exact h6

/-- `flipUp` preserves the invariant. -/
theorem FullInv_flipUp (b : Board) (pid : String) (row col : Nat)
    (h : FullInv b) : FullInv (b.flipUp pid row col).1 := by
  by_cases hrc : row < b.rows ∧ col < b.cols
  · by_cases hhp : hasPlayer b pid = true
    · cases hsec : (b.getPlayerD pid).secondCard with
      | some sc =>
        rw [flipUp_after_pair b pid sc row col hrc hhp hsec]
        have hp1 : hasPlayer (b.cleanupPreviousPlay pid) pid = true := by
          rw [cleanupPreviousPlay_hasPlayer b pid hhp]
          exact hhp
        have h1 := FullInv_cleanupPreviousPlay b pid hhp h
        have hp2 : hasPlayer
            ((b.cleanupPreviousPlay pid).cleanupPreviousPlay pid) pid = true := by
          rw [cleanupPreviousPlay_hasPlayer _ pid hp1]
          exact hp1
        refine FullInv_flipUpFirst _ pid row col hp2 ?_ ?_
          (FullInv_cleanupPreviousPlay _ pid hp1 h1)
        · rw [cleanupPreviousPlay_rows, cleanupPreviousPlay_rows]
          exact hrc.1
        · rw [cleanupPreviousPlay_cols, cleanupPreviousPlay_cols]
          exact hrc.2
      | none =>
        cases hfc : (b.getPlayerD pid).firstCard with
        | none =>
          rw [flipUp_clean_first b pid row col hrc hhp hfc hsec]
          have hp1 : hasPlayer (b.cleanupPreviousPlay pid) pid = true := by
            rw [cleanupPreviousPlay_hasPlayer b pid hhp]
            exact hhp
          refine FullInv_flipUpFirst _ pid row col hp1 ?_ ?_
            (FullInv_cleanupPreviousPlay b pid hhp h)
          · rw [cleanupPreviousPlay_rows]
            exact hrc.1
          · rw [cleanupPreviousPlay_cols]
            exact hrc.2
        | some first =>
          rw [flipUp_second b pid first row col hrc hhp hfc hsec]
          exact FullInv_flipUpSecond b pid first row col hhp hrc.1 hrc.2 hfc h
    · unfold flipUp
      rw [if_neg (not_not_intro hrc), if_pos hhp]
      exact h
  · unfold flipUp
    rw [if_pos hrc]
    exact h

/-- `flipDown` preserves the invariant. -/
theorem FullInv_flipDown (b : Board) (row col : Nat)
    (h : FullInv b) : FullInv (b.flipDown row col).1 := by
  simp only [flipDown]
  split
  · exact h
  · split
    · exact h
    · rename_i pic hcard
      split
      · exact h
      · have hb' := FullInv_flipDownPair b row col
          (by rw [hcard]; exact fun hx => nomatch hx) h
        split
        · exact FullInv_notifyChange _ hb'
        · exact hb'

/-- Appending a fresh player keeps every registered player registered. -/
theorem hasPlayer_append (b : Board) (id : String) (p : Player) (q : String)
    (h0 : hasPlayer b q = true) :
    hasPlayer { b with players := b.players ++ [(id, p)] } q = true := by
  unfold hasPlayer at h0 ⊢
  obtain ⟨v, hlk⟩ := Option.isSome_iff_exists.1 h0
  show (lookupA (b.players ++ [(id, p)]) q).isSome = true
  rw [lookupA_append_some _ hlk]
  rfl

/-- A rejected id (the `Invalid player ID` guard) is exactly a token the
validity predicate rejects. -/
theorem validToken_of_guard (id : String)
    (hg : ¬ (id.length = 0 ∨ id.data.any isWS = true)) : validToken id = true := by
  push_neg at hg
  unfold validToken
  rw [Bool.and_eq_true, List.all_eq_true]
  constructor
  · exact decide_eq_true (Nat.pos_of_ne_zero hg.1)
  · intro x hx
    cases hws : isWS x
    · rfl
    · exact absurd (List.any_eq_true.2 ⟨x, hx, hws⟩) hg.2

/-- Registering a fresh valid id preserves the invariant. -/
theorem FullInv_registerPlayer_new (b : Board) (id : String)
    (hv : validToken id = true) (h : FullInv b) :
    FullInv { b with players := b.players ++ [(id, Player.new id)] } := by
  obtain ⟨⟨hdims, hcells, hpl, hwaitOk, hlingOk, hwatchOk⟩, ⟨hcellinv, hpair⟩, hpcir⟩ := h
  refine ⟨⟨hdims, ?_, ?_, hwaitOk, ?_, ?_⟩, ⟨?_, ?_⟩, ?_⟩
  · intro r hr c hc
    have hcell := hcells r hr c hc
    refine ⟨hcell.1, hcell.2.1, fun hne => ?_⟩
    rcases hcell.2.2 hne with h0 | h0
    · exact Or.inl h0
    · exact Or.inr (hasPlayer_append b id (Player.new id) _ h0)
  · intro e he
    rcases List.mem_append.1 he with h0 | h0
    · exact hpl e h0
    · rw [List.mem_singleton.1 h0]
      exact hv
  · intro e he
    exact ⟨hasPlayer_append b id (Player.new id) _ (hlingOk e he).1, (hlingOk e he).2⟩
  · intro e he
    exact hasPlayer_append b id (Player.new id) _ (hwatchOk e he)
  · intro r hr c hc
    have hcell := hcellinv r hr c hc
    refine ⟨hcell.1, fun q hq => ?_⟩
    obtain ⟨h1, h2, h3⟩ := hcell.2 q hq
    exact ⟨h1, h2, hasPlayer_append b id (Player.new id) q h3⟩
  · intro e he
    rcases List.mem_append.1 he with h0 | h0
    · exact hpair e h0
    · rw [List.mem_singleton.1 h0]
      intro _
      rfl
  · intro e he
    rcases List.mem_append.1 he with h0 | h0
    · exact hpcir e h0
    · rw [List.mem_singleton.1 h0]
      exact ⟨fun q hq => (nomatch hq), fun q hq => nomatch hq⟩

/-- `registerPlayer` preserves the invariant. -/
theorem FullInv_registerPlayer (b : Board) (id d : String)
    (h : FullInv b) : FullInv (b.registerPlayer id d).1 := by
  simp only [registerPlayer]
  split
  · exact h
  · rename_i hg
    split
    · exact h
    · have hb' := FullInv_registerPlayer_new b id (validToken_of_guard id hg) h
      split
      · exact hb'
      · exact hb'

/-! ### Pointwise observations of the release operations -/

theorem removeCellAt_cardAt_self (b : Board) (r c : Nat) (hd : DimsOk b)
    (hr : r < b.rows) (hc : c < b.cols) :
    (b.removeCellAt r c).cardAt r c = none := by
  show (b.setCard r c none).cardAt r c = none
  exact cardAt_setCard_self b r c none (cards_isSome b hd hr hc)

theorem removeCellAt_cardAt_other (b : Board) (r c r' c' : Nat)
    (h : ¬ (r = r' ∧ c = c')) :
    (b.removeCellAt r c).cardAt r' c' = b.cardAt r' c' := by
  show (b.setCard r c none).cardAt r' c' = b.cardAt r' c'
  exact cardAt_setCard_other b r c r' c' none h

theorem removeCellAt_upAt_self (b : Board) (r c : Nat) (hd : DimsOk b)
    (hr : r < b.rows) (hc : c < b.cols) :
    (b.removeCellAt r c).upAt r c = false := by
  show ((b.setCard r c none).setUp r c false).upAt r c = false
  exact upAt_setUp_self (b.setCard r c none) r c false (faceUp_isSome b hd hr hc)

theorem removeCellAt_upAt_other (b : Board) (r c r' c' : Nat)
    (h : ¬ (r = r' ∧ c = c')) :
    (b.removeCellAt r c).upAt r' c' = b.upAt r' c' := by
  show ((b.setCard r c none).setUp r c false).upAt r' c' = b.upAt r' c'
  exact upAt_setUp_other (b.setCard r c none) r c r' c' false h

theorem removeCellAt_ctrlAt_self (b : Board) (r c : Nat) (hd : DimsOk b)
    (hr : r < b.rows) (hc : c < b.cols) :
    (b.removeCellAt r c).ctrlAt r c = none := by
  show (((b.setCard r c none).setUp r c false).setCtrl r c none).ctrlAt r c = none
  exact ctrlAt_setCtrl_self _ r c none (controller_isSome b hd hr hc)

theorem removeCellAt_ctrlAt_other (b : Board) (r c r' c' : Nat)
    (h : ¬ (r = r' ∧ c = c')) :
    (b.removeCellAt r c).ctrlAt r' c' = b.ctrlAt r' c' := by
  show (((b.setCard r c none).setUp r c false).setCtrl r c none).ctrlAt r' c'
    = b.ctrlAt r' c'
  exact ctrlAt_setCtrl_other _ r c r' c' none h

theorem removeCellAt_queueAt (b : Board) (r c r' c' : Nat) :
    (b.removeCellAt r c).queueAt r' c' =
      if (r', c') = (r, c) then [] else b.queueAt r' c' := by
  unfold removeCellAt
  rw [queueAt_notifyWaiters]
  split
  · rfl
  · rfl

theorem removeCellAt_woken (b : Board) (r c : Nat) :
    (b.removeCellAt r c).woken = b.woken ++ b.queueAt r c := rfl

/-- Releasing a held cell empties its queue into the woken log. -/
theorem relinquishIfHeld_held (b : Board) (pid : String) (pos : Nat × Nat)
    (hd : DimsOk b) (h1 : pos.1 < b.rows) (h2 : pos.2 < b.cols)
    (hheld : b.ctrlAt pos.1 pos.2 = some pid) :
    (b.relinquishIfHeld pid pos).ctrlAt pos.1 pos.2 = none ∧
    (b.relinquishIfHeld pid pos).queueAt pos.1 pos.2 = [] ∧
    (b.relinquishIfHeld pid pos).woken = b.woken ++ b.queueAt pos.1 pos.2 := by
  unfold relinquishIfHeld
  rw [if_pos hheld]
  refine ⟨?_, ?_, ?_⟩
  · rw [notifyWaiters_ctrlAt]
    exact ctrlAt_setCtrl_self b pos.1 pos.2 none (controller_isSome b hd h1 h2)
  · rw [queueAt_notifyWaiters, if_pos rfl]
  · rfl

/-- The first-card branch never changes any card. -/
theorem flipUpFirst_cardAt (b : Board) (pid : String) (row col r c : Nat) :
    (flipUpFirst b pid row col).1.cardAt r c = b.cardAt r c := by
  simp only [flipUpFirst]
  split
  · rfl
  · split
    · split
      · rfl
      · rfl
    · split
      · split
        · rfl
        · rfl
      · split
        · rfl
        · split
          · rfl
          · rfl

/-- The first-card branch never wakes a waiter. -/
theorem flipUpFirst_woken (b : Board) (pid : String) (row col : Nat) :
    (flipUpFirst b pid row col).1.woken = b.woken := by
  simp only [flipUpFirst]
  split
  · rfl
  · split
    · split
      · rfl
      · rfl
    · split
      · split
        · rfl
        · rfl
      · split
        · rfl
        · split
          · rfl
          · rfl

/-- The first-card branch leaves an empty cell entirely alone. -/
theorem flipUpFirst_obs_of_empty (b : Board) (pid : String) (row col r c : Nat)
    (hemp : b.cardAt r c = none) :
    (flipUpFirst b pid row col).1.upAt r c = b.upAt r c ∧
    (flipUpFirst b pid row col).1.ctrlAt r c = b.ctrlAt r c ∧
    (flipUpFirst b pid row col).1.queueAt r c = b.queueAt r c := by
  by_cases heq : row = r ∧ col = c
  · obtain ⟨h1, h2⟩ := heq
    subst h1
    subst h2
    simp [flipUpFirst, hemp]
  · simp only [flipUpFirst]
    split
    · exact ⟨rfl, rfl, rfl⟩
    · split
      · split
        · exact ⟨upAt_setUp_other b row col r c true heq,
            ctrlAt_setCtrl_other (b.setUp row col true) row col r c (some pid) heq, rfl⟩
        · exact ⟨upAt_setUp_other b row col r c true heq,
            ctrlAt_setCtrl_other (b.setUp row col true) row col r c (some pid) heq, rfl⟩
      · split
        · split
          · exact ⟨rfl, ctrlAt_setCtrl_other b row col r c (some pid) heq, rfl⟩
          · exact ⟨rfl, ctrlAt_setCtrl_other b row col r c (some pid) heq, rfl⟩
        · split
          · refine ⟨rfl, rfl, ?_⟩
            rw [queueAt_enqueueWaiter, if_neg]
            intro hpp
            exact heq ⟨(congrArg Prod.fst hpp).symm, (congrArg Prod.snd hpp).symm⟩
          · split
            · exact ⟨rfl, rfl, rfl⟩
            · exact ⟨rfl, rfl, rfl⟩

/-- `cleanupPreviousPlay` on a recorded, still-controlled matched pair:
rule 3-A removes both cells and clears the card slots. -/
theorem cleanupPreviousPlay_pair (b : Board) (pid : String) (p1 p2 : Nat × Nat)
    (pic : String)
    (hfc : (b.getPlayerD pid).firstCard = some p1)
    (hsc : (b.getPlayerD pid).secondCard = some p2)
    (hl : (lookupA b.lingering pid).getD [] = [])
    (hc1 : b.cardAt p1.1 p1.2 = some pic) (hc2 : b.cardAt p2.1 p2.2 = some pic)
    (hq1 : b.ctrlAt p1.1 p1.2 = some pid) (hq2 : b.ctrlAt p2.1 p2.2 = some pid)
    (hne : ¬ (p1.1 = p2.1 ∧ p1.2 = p2.2)) :
    b.cleanupPreviousPlay pid =
      ((b.removeCellAt p1.1 p1.2).removeCellAt p2.1 p2.2).clearCardsOf pid := by
  have hl1 : b.lingerPass pid = b := by
    unfold lingerPass
    cases hcase : lookupA b.lingering pid with
    | none => rfl
    | some l =>
      have hl' : l = [] := by simpa [hcase] using hl
      subst hl'
      simp
  simp only [cleanupPreviousPlay, hfc, hsc, hl1]
  have hpp : pairPass b pid (some p1) (some p2) =
      (b.removeCellAt p1.1 p1.2).removeCellAt p2.1 p2.2 := by
    show (if b.cardAt p1.1 p1.2 = b.cardAt p2.1 p2.2 ∧ (b.cardAt p1.1 p1.2).isSome = true
      then (if (if b.ctrlAt p1.1 p1.2 = some pid
            then b.removeCellAt p1.1 p1.2 else b).ctrlAt p2.1 p2.2 = some pid
        then (if b.ctrlAt p1.1 p1.2 = some pid
            then b.removeCellAt p1.1 p1.2 else b).removeCellAt p2.1 p2.2
        else (if b.ctrlAt p1.1 p1.2 = some pid
            then b.removeCellAt p1.1 p1.2 else b))
      else ((b.flipDownIfUncontrolled p1.1 p1.2).flipDownIfUncontrolled p2.1 p2.2))
      = (b.removeCellAt p1.1 p1.2).removeCellAt p2.1 p2.2
    rw [if_pos ⟨hc1.trans hc2.symm, by rw [hc1]; rfl⟩]
    simp only [if_pos hq1]
    rw [if_pos (show (b.removeCellAt p1.1 p1.2).ctrlAt p2.1 p2.2 = some pid by
      rw [removeCellAt_ctrlAt_other b p1.1 p1.2 p2.1 p2.2 hne]
      exact hq2)]
  rw [hpp]

end Board

/-! ### The row-major characterisation of `map` -/

theorem set_self_of_get2 : ∀ (l : List α) (i : Nat) (a : α),
    l.get? i = some a → l.set i a = l
  | [], _, _, h => nomatch h
  | x :: _, 0, a, h => by
    injection h with h'
    rw [← h']
    rfl
  | x :: xs, i + 1, a, h => by
    show x :: xs.set i a = x :: xs
    rw [set_self_of_get2 xs i a h]

theorem get2_set_self : ∀ (l : List α) (i : Nat) (a : α),
    i < l.length → (l.set i a).get? i = some a
  | [], i, _, h => absurd h (Nat.not_lt_zero i)
  | _ :: _, 0, _, _ => rfl
  | _ :: xs, i + 1, a, h => get2_set_self xs i a (Nat.lt_of_succ_lt_succ h)

theorem setCell2_of_get2 (m : List (List α)) (r : Nat) (row : List α)
    (c : Nat) (v : α) (h : m.get? r = some row) :
    setCell2 m r c v = m.set r (row.set c v) := by
  unfold setCell2
  congr 1
  rw [List.getD_eq_get?, h]
  rfl

theorem set_append_len : ∀ (l₁ l₂ : List α) (v : α) (n : Nat),
    l₁.length = n → (l₁ ++ l₂).set n v = l₁ ++ l₂.set 0 v
  | [], l₂, v, n, h => by
    rw [← h]
    rfl
  | x :: xs, l₂, v, n, h => by
    cases n with
    | zero => exact (nomatch h)
    | succ n' =>
      show x :: (xs ++ l₂).set n' v = x :: (xs ++ l₂.set 0 v)
      rw [set_append_len xs l₂ v n' (Nat.succ_injective h)]

namespace Board

/-- The inner loop over the first `n` cells of row `r`: the first `n`
cells of the row are transformed in place, the rest untouched, and the
trace extends by the present cells among the first `n`, in order. -/
theorem mapFold_cell (f : String → String) (r : Nat) (rowl : List (Option String)) :
    ∀ (n : Nat) (m : List (List (Option String))) (tr : List (Nat × Nat)),
      m.get? r = some rowl → n ≤ rowl.length →
      (List.range n).foldl (mapCellStep f r) (m, tr)
        = (m.set r ((rowl.take n).map (Option.map f) ++ rowl.drop n),
           tr ++ (List.range n).filterMap (fun c =>
             if ((rowl.get? c).getD none).isSome then some (r, c) else none)) := by
  intro n
  induction n with
  | zero =>
    intro m tr hrow _
    simp only [List.range_zero, List.foldl_nil, List.take_zero, List.map_nil,
      List.nil_append, List.drop_zero, List.filterMap_nil, List.append_nil]
    rw [set_self_of_get2 m r rowl hrow]
  | succ n ih =>
    intro m tr hrow hn
    rw [List.range_succ, List.foldl_append, ih m tr hrow (Nat.le_of_succ_le hn)]
    simp only [List.foldl_cons, List.foldl_nil]
    have hlt : n < rowl.length := hn
    have hrl : r < m.length := by
      by_contra hge
      rw [List.get?_eq_getElem?, List.getElem?_eq_none (Nat.le_of_not_lt hge)] at hrow
      cases hrow
    have hplen : ((rowl.take n).map (Option.map f)).length = n := by
      rw [List.length_map, List.length_take]
      exact Nat.min_eq_left (Nat.le_of_lt hlt)
    have hsetr : (m.set r ((rowl.take n).map (Option.map f) ++ rowl.drop n)).get? r
        = some ((rowl.take n).map (Option.map f) ++ rowl.drop n) :=
      get2_set_self m r _ hrl
    have hPn : (((rowl.take n).map (Option.map f) ++ rowl.drop n)).get? n
        = rowl.get? n := by
      rw [List.get?_append_right (Nat.le_of_eq hplen), hplen, Nat.sub_self,
        List.get?_drop, Nat.add_zero]
    cases hcell : rowl.get? n with
    | none => exact absurd (List.get?_eq_none.1 hcell) (Nat.not_le_of_lt hlt)
    | some cell =>
      have hscrut : (getCell2 (m.set r ((rowl.take n).map (Option.map f)
          ++ rowl.drop n)) r n).getD none = cell := by
        unfold getCell2
        rw [hsetr]
        show ((((rowl.take n).map (Option.map f) ++ rowl.drop n)).get? n).getD none
          = cell
        rw [hPn, hcell]
        rfl
      have htake : rowl.take (n + 1) = rowl.take n ++ [cell] := by
        rw [List.take_succ, ← List.get?_eq_getElem?, hcell]
        rfl
      have hdropc : rowl.drop n = cell :: rowl.drop (n + 1) := by
        rw [List.drop_eq_getElem_cons hlt]
        congr 1
        have h' := hcell
        rw [List.get?_eq_getElem?, List.getElem?_eq_getElem hlt] at h'
        exact Option.some.inj h'
      cases cell with
      | none =>
        simp only [mapCellStep, hscrut]
        rw [Prod.mk.injEq]
        constructor
        · congr 1
          rw [hdropc, htake, List.map_append, List.append_assoc]
          rfl
        · rw [List.filterMap_append]
          have hsing : List.filterMap (fun c =>
              if ((rowl.get? c).getD none).isSome = true then some (r, c) else none)
              [n] = [] := by
            have hcell' : rowl[n]? = some none := by
              rw [← List.get?_eq_getElem?]
              exact hcell
            simp [hcell']
          rw [hsing, List.append_nil]
      | some pic =>
        simp only [mapCellStep, hscrut]
        rw [Prod.mk.injEq]
        constructor
        · rw [setCell2_of_get2 _ r _ n _ hsetr, List.set_set]
          congr 1
          rw [set_append_len _ _ _ n hplen, hdropc, List.set_cons_zero,
            htake, List.map_append, List.append_assoc]
          rfl
        · rw [List.filterMap_append]
          have hsing : List.filterMap (fun c =>
              if ((rowl.get? c).getD none).isSome = true then some (r, c) else none)
              [n] = [(r, n)] := by
            have hcell' : rowl[n]? = some (some pic) := by
              rw [← List.get?_eq_getElem?]
              exact hcell
            simp [hcell']
          rw [hsing, List.append_assoc]

/-- The outer loop: every present picture transformed in place, and the
trace is exactly the row-major list of non-empty positions. -/
theorem mapFold_rows (b : Board) (f : String → String)
    (hlen : b.cards.length = b.rows)
    (hrowlen : ∀ row ∈ b.cards, row.length = b.cols) :
    (List.range b.rows).foldl (mapRowStep b f) (b.cards, [])
      = (b.cards.map (fun row => row.map (Option.map f)), traceSpec b) := by
  have key : ∀ n, n ≤ b.rows →
      (List.range n).foldl (mapRowStep b f) (b.cards, [])
        = ((b.cards.take n).map (fun row => row.map (Option.map f))
            ++ b.cards.drop n,
           (List.range n).flatMap (fun r =>
             (List.range b.cols).filterMap (fun c =>
               if (b.cardAt r c).isSome then some (r, c) else none))) := by
    intro n
    induction n with
    | zero =>
      intro _
      simp
    | succ n ih =>
      intro hn
      rw [List.range_succ, List.foldl_append, ih (Nat.le_of_succ_le hn)]
      simp only [List.foldl_cons, List.foldl_nil]
      have hnrows : n < b.rows := hn
      have hnlen : n < b.cards.length := by
        rw [hlen]
        exact hnrows
      cases hrn : b.cards.get? n with
      | none => exact absurd (List.get?_eq_none.1 hrn) (Nat.not_le_of_lt hnlen)
      | some rowN =>
        have hrowlenN : rowN.length = b.cols := hrowlen rowN (List.get?_mem hrn)
        have hAlen : ((b.cards.take n).map
            (fun row => row.map (Option.map f))).length = n := by
          rw [List.length_map, List.length_take]
          exact Nat.min_eq_left (Nat.le_of_lt hnlen)
        have hGn : ((b.cards.take n).map (fun row => row.map (Option.map f))
            ++ b.cards.drop n).get? n = some rowN := by
          rw [List.get?_append_right (Nat.le_of_eq hAlen), hAlen, Nat.sub_self,
            List.get?_drop, Nat.add_zero]
          exact hrn
        simp only [mapRowStep, hGn]
        rw [mapFold_cell f n rowN b.cols _ _ hGn (Nat.le_of_eq hrowlenN.symm)]
        rw [Prod.mk.injEq]
        constructor
        · rw [show rowN.take b.cols = rowN from by
            rw [← hrowlenN]; exact List.take_length rowN]
          rw [show rowN.drop b.cols = ([] : List (Option String)) from by
            rw [← hrowlenN]; exact List.drop_length rowN]
          rw [List.append_nil, set_append_len _ _ _ n hAlen]
          rw [show b.cards.drop n = rowN :: b.cards.drop (n + 1) from by
            rw [List.drop_eq_getElem_cons hnlen]
            congr 1
            have h' := hrn
            rw [List.get?_eq_getElem?, List.getElem?_eq_getElem hnlen] at h'
            exact Option.some.inj h']
          rw [List.set_cons_zero]
          rw [show b.cards.take (n + 1) = b.cards.take n ++ [rowN] from by
            rw [List.take_succ, ← List.get?_eq_getElem?, hrn]
            rfl]
          rw [List.map_append, List.append_assoc]
          rfl
        · rw [List.flatMap_append]
          simp only [List.flatMap_cons, List.flatMap_nil, List.append_nil]
          rw [show (fun c => if (b.cardAt n c).isSome = true
              then some ((n : Nat), c) else none)
              = (fun c => if ((rowN.get? c).getD none).isSome = true
                  then some ((n : Nat), c) else none) from funext (fun c => by
            rw [show b.cardAt n c = (rowN.get? c).getD none from by
              show ((b.cards.get? n).bind (fun row => row.get? c)).getD none = _
              rw [hrn]
              rfl])]
  have hfin := key b.rows (Nat.le_refl b.rows)
  rw [hfin]
  rw [show b.cards.take b.rows = b.cards from by
    rw [← hlen]; exact List.take_length b.cards]
  rw [show b.cards.drop b.rows = ([] : List (List (Option String))) from by
    rw [← hlen]; exact List.drop_length b.cards]
  rw [List.append_nil]
  rfl

/-- `mapTrace` in closed form: the transformed board is `mapSpec`, the
trace is `traceSpec`, the rep invariant is re-checked on the transformed
board, and on success the watchers are notified. -/
theorem mapTrace_eq (b : Board) (f : String → String)
    (hlen : b.cards.length = b.rows)
    (hrowlen : ∀ row ∈ b.cards, row.length = b.cols) :
    b.mapTrace f =
      (if checkRepB (mapSpec b f)
        then ((mapSpec b f).notifyChange, none)
        else (mapSpec b f, some Err.repViolation), traceSpec b) := by
  simp only [mapTrace]
  rw [mapFold_rows b f hlen hrowlen]
  split
  · rename_i hcond
    rw [if_pos (show checkRepB (mapSpec b f) = true from hcond)]
    rfl
  · rename_i hcond
    rw [if_neg (show ¬ checkRepB (mapSpec b f) = true from hcond)]
    rfl

theorem cardAt_mapSpec (b : Board) (f : String → String) (r c : Nat) :
    (mapSpec b f).cardAt r c = (b.cardAt r c).map f := by
  show (((b.cards.map (fun row => row.map (Option.map f))).get? r).bind
      (fun row => row.get? c)).getD none
    = (((b.cards.get? r).bind (fun row => row.get? c)).getD none).map f
  rw [List.get?_map]
  cases hr' : b.cards.get? r with
  | none => rfl
  | some row =>
    show ((row.map (Option.map f)).get? c).getD none
      = ((row.get? c).getD none).map f
    rw [List.get?_map]
    cases hc' : row.get? c with
    | none => rfl
    | some cell => rfl

/-- The in-place transform preserves the §8 cell and player clauses. -/
theorem ClaimInv_mapSpec (b : Board) (f : String → String)
    (h : ClaimInv b) : ClaimInv (mapSpec b f) := by
  refine ⟨fun r hr c hc => ?_, h.2⟩
  have hcell := h.1 r hr c hc
  unfold CellInv at hcell ⊢
  rw [cardAt_mapSpec]
  constructor
  · intro hn
    exact hcell.1 (Option.map_eq_none'.1 hn)
  · intro q hq
    obtain ⟨h1, h2, h3⟩ := hcell.2 q hq
    exact ⟨h1, fun hn => h2 (Option.map_eq_none'.1 hn), h3⟩

/-- `map` preserves the §8 clauses, also when the re-check fails. -/
theorem ClaimInv_map (b : Board) (f : String → String) (h : FullInv b) :
    ClaimInv (b.map f).1 := by
  unfold map
  rw [mapTrace_eq b f h.1.1.2.1.1 h.1.1.2.2.1]
  have hc := ClaimInv_mapSpec b f h.2.1
  show ClaimInv (if checkRepB (mapSpec b f)
    then ((mapSpec b f).notifyChange, (none : Option Err))
    else (mapSpec b f, some Err.repViolation)).1
  split
  · exact hc
  · exact hc

/-- A freshly constructed board satisfies the §8 clauses. -/
theorem ClaimInv_ofLayout (rows cols : Nat) (layout : List (Option String)) :
    ClaimInv (Board.ofLayout rows cols layout) := by
  constructor
  · intro r hr c hc
    constructor
    · intro _
      exact ⟨upAt_ofLayout rows cols layout r c, ctrlAt_ofLayout rows cols layout r c⟩
    · intro q hq
      rw [ctrlAt_ofLayout] at hq
      simp at hq
  · intro e he
    rw [ofLayout_players] at he
    cases he

end Board

/-! ## Claims -/

/-- C10: the observable behaviour of `registerPlayer` is independent of
its `displayName` argument — for every board state and id, the two calls
return identical states and identical player records (the source never
reads the parameter). -/
theorem C10_displayName_irrelevant (b : Board) (id d1 d2 : String) :
    b.registerPlayer id d1 = b.registerPlayer id d2 := rfl

/-- C7 (counterexample): on the reachable state `Fixtures.s4`, player
`P1` is registered, `(0,1)` is an in-bounds empty cell and the call is a
first flip; `flipUp` does fail with `EmptySpace`, but the board changes —
the lingering cleanup flips `(1,0)` face-down — refuting "causes no state
change". -/
theorem C7_counterexample :
    Fixtures.s4.hasPlayer "P1" = true ∧
    (0 : Nat) < Fixtures.s4.rows ∧ (1 : Nat) < Fixtures.s4.cols ∧
    Fixtures.s4.cardAt 0 1 = none ∧
    (Fixtures.s4.getPlayerD "P1").firstCard = none ∧
    (Fixtures.s4.flipUp "P1" 0 1).2 = .err .emptySpace ∧
    (Fixtures.s4.flipUp "P1" 0 1).1 ≠ Fixtures.s4 := by decide

/-- C7 (amended): for every registered player and in-bounds empty target,
a first-flip `flipUp` whose caller also has no residual second card and
no lingering cells fails with `EmptySpace` and causes no state change at
all — the result state is exactly the input state. -/
theorem C7_emptyFirstFlip_noChange (b : Board) (pid : String) (row col : Nat)
    (hrc : row < b.rows ∧ col < b.cols)
    (hp : b.hasPlayer pid = true)
    (hfst : (b.getPlayerD pid).firstCard = none)
    (hsec : (b.getPlayerD pid).secondCard = none)
    (hl : (lookupA b.lingering pid).getD [] = [])
    (hcard : b.cardAt row col = none) :
    b.flipUp pid row col = (b, .err .emptySpace) := by
  rw [Board.flipUp_clean_first b pid row col hrc hp hfst hsec,
    Board.cleanupPreviousPlay_id b pid hp hl hfst hsec]
  simp only [Board.flipUpFirst, hcard]

/-- C7 (witness): the amended theorem applied to the concrete board
`Fixtures.boardE` at its empty cell `(0,0)`. -/
theorem C7_witness :
    Fixtures.boardE.flipUp "P1" 0 0 = (Fixtures.boardE, .err .emptySpace) :=
  C7_emptyFirstFlip_noChange Fixtures.boardE "P1" 0 0 (by decide) (by decide)
    (by decide) (by decide) (by decide) (by decide)

/-- C5 (counterexample): the well-formed file `1x1\nnone\n` is accepted,
but the cell whose line held the literal token `none` is NOT empty — its
picture is the string `"none"` — refuting "pictureAt returns none". -/
theorem C5_counterexample :
    (parseText "1x1\nnone\n").toOption.map (fun b => b.cardAt 0 0) =
      some (some "none") := by decide

/-- C5 (amended): `parseFromFile` on a well-formed file returns a board
in which EVERY cell — including cells whose line held the literal token
`none`, which is not special-cased — holds its line's token as its
picture, and every cell is face-down with no controller. -/
theorem C5_parse_cells (f : String) (b : Board) (hok : parseText f = .ok b) :
    ∀ r c, r < b.rows → c < b.cols →
      b.cardAt r c = ((cardLinesOf f).get? (r * b.cols + c)).map String.mk ∧
      b.upAt r c = false ∧ b.ctrlAt r c = none := by
  obtain ⟨hd, layout, hlines, hmh, hr1, hc1, hlen, hval, hb⟩ := parseText_ok_inv hok
  obtain ⟨hlayout, _⟩ := validateCards_ok _ 0 _ hval
  intro r c hr hc
  refine ⟨?_, ?_, ?_⟩
  · conv_lhs => rw [hb]
    rw [Board.cardAt_ofLayout _ _ _ _ _ hr hc, hlayout,
      List.get?_eq_getElem?, List.getElem?_map, ← List.get?_eq_getElem?]
    cases (cardLinesOf f).get? (r * b.cols + c) with
    | none => rfl
    | some tok => rfl
  · conv_lhs => rw [hb]
    exact Board.upAt_ofLayout _ _ _ _ _
  · conv_lhs => rw [hb]
    exact Board.ctrlAt_ofLayout _ _ _ _ _

/-- C5 (witness): the amended theorem applied to the parsed `1x1\nnone\n`
file at cell `(0,0)`. -/
theorem C5_witness :
    Fixtures.boardNone.cardAt 0 0 =
      ((cardLinesOf "1x1\nnone\n").get? (0 * Fixtures.boardNone.cols + 0)).map
        String.mk ∧
    Fixtures.boardNone.upAt 0 0 = false ∧ Fixtures.boardNone.ctrlAt 0 0 = none :=
  C5_parse_cells "1x1\nnone\n" Fixtures.boardNone (by decide) 0 0 (by decide) (by decide)

/-- C6 (counterexample): the file `"1x1 \nA\n"` — header with a trailing
space — is accepted (the source trims the header before matching), but
its dump `"1x1\nA\n"` differs from its normalised contents, refuting the
round-trip law as stated. -/
theorem C6_counterexample :
    (parseText "1x1 \nA\n").toOption.map Board.picturesDump = some "1x1\nA\n" ∧
    normalise "1x1 \nA\n" = "1x1 \nA\n" ∧
    ("1x1\nA\n" : String) ≠ "1x1 \nA\n" := by decide

/-- C6 (amended): the round trip `picturesDump ∘ parseFromFile = id`
holds on the normalised contents for every accepted file whose header
line is exactly the canonical `<rows>x<cols>` rendering of the parsed
dimensions (no surrounding whitespace, no leading zeros) and whose
normalised contents end in a line feed; in general the dump trims the
header, re-renders the dimensions and ensures a single trailing LF. -/
theorem C6_roundTrip (f : String) (b : Board)
    (hok : parseText f = .ok b)
    (hhd : (fileLines f).head? =
      some ((toString b.rows ++ "x" ++ toString b.cols).data))
    (htl : (splitNl (normalise f).data).getLast? = some []) :
    b.picturesDump = normalise f := by
  obtain ⟨hd, layout, hlines, hmh, hr1, hc1, hlen, hval, hb⟩ := parseText_ok_inv hok
  obtain ⟨hlayout, _⟩ := validateCards_ok _ 0 _ hval
  have hdump : b.picturesDump =
      joinLines ((toString b.rows ++ "x" ++ toString b.cols) ::
        (cardLinesOf f).map (fun tok => String.mk tok)) ++ "\n" := by
    conv_lhs => rw [hb]
    rw [picturesDump_ofLayout]
    have htoks : (List.range (b.rows * b.cols)).map
        (fun i => ((layout.get? i).getD none).getD "none")
        = (cardLinesOf f).map (fun tok => String.mk tok) := by
      rw [hlayout, ← hlen]
      have hfun : (fun i => ((((cardLinesOf f).map
            (fun tok => some (String.mk tok))).get? i).getD none).getD "none")
          = (fun i => (((cardLinesOf f).get? i).map
              (fun tok => String.mk tok)).getD "none") := by
        funext i
        rw [List.get?_eq_getElem?, List.getElem?_map, ← List.get?_eq_getElem?]
        cases (cardLinesOf f).get? i with
        | none => rfl
        | some tok => rfl
      rw [hfun, range_map_get_total]
    rw [htoks]
  have hlines0 : splitNl (normalise f).data = fileLines f ++ [[]] := by
    unfold fileLines
    rw [if_pos htl]
    have hne : splitNl (normalise f).data ≠ [] := splitOnCh_ne_nil _ _
    have hgl : (splitNl (normalise f).data).getLast hne = [] := by
      have := List.getLast?_eq_getLast (splitNl (normalise f).data) hne
      rw [htl] at this
      exact (Option.some_injective _ this.symm)
    rw [← hgl]
    exact (List.dropLast_append_getLast hne).symm
  have hnorm : (normalise f).data = joinCh '\n' (fileLines f) ++ ['\n'] := by
    have hjoin := joinCh_splitOnCh '\n' (normalise f).data
    rw [show splitOnCh '\n' (normalise f).data = splitNl (normalise f).data from rfl,
      hlines0, joinCh_append_empty '\n' _ (by rw [hlines]; simp)] at hjoin
    exact hjoin.symm
  have hhd' : hd = (toString b.rows ++ "x" ++ toString b.cols).data := by
    rw [hlines] at hhd
    simpa using hhd
  have hdumpdata : b.picturesDump.data = joinCh '\n' (fileLines f) ++ ['\n'] := by
    rw [hdump, String.data_append]
    unfold joinLines
    rw [string_data_mk, hlines, hhd']
    have : ((((toString b.rows ++ "x" ++ toString b.cols)) ::
        (cardLinesOf f).map (fun tok => String.mk tok)).map String.data)
        = (toString b.rows ++ "x" ++ toString b.cols).data :: cardLinesOf f := by
      rw [List.map_cons, List.map_map]
      congr 1
      calc (cardLinesOf f).map (String.data ∘ fun tok => String.mk tok)
          = (cardLinesOf f).map id := List.map_congr_left (fun tok _ => rfl)
        _ = cardLinesOf f := List.map_id _
    rw [this]
  exact string_ext_data (by rw [hdumpdata, hnorm])

/-- C6 (witness): the amended round trip on the canonical file
`2x2\nA\nA\nB\nB\n`. -/
theorem C6_witness :
    Fixtures.boardAA.picturesDump = normalise "2x2\nA\nA\nB\nB\n" :=
  C6_roundTrip "2x2\nA\nA\nB\nB\n" Fixtures.boardAA (by decide) (by decide) (by decide)

/-- C3: a second-card `flipUp` that fails with `EmptySpace`, `Controlled`
or `SameCardTwice` leaves the rep invariant intact, clears both of the
player's card slots (so the next call is a fresh first flip), and — when
the failure released the player's hold on the first card — has emptied
that cell's waiter queue into the woken log. -/
theorem C3_failure_paths (b b' : Board) (pid : String) (first : Nat × Nat)
    (row col : Nat) (e : Err)
    (h : Board.FullInv b) (hp : b.hasPlayer pid = true)
    (hrc : row < b.rows ∧ col < b.cols)
    (hfc : (b.getPlayerD pid).firstCard = some first)
    (hsc : (b.getPlayerD pid).secondCard = none)
    (hres : b.flipUp pid row col = (b', FlipResult.err e))
    (he : e = Err.emptySpace ∨ e = Err.controlled ∨ e = Err.sameCardTwice) :
    b'.checkRepB = true ∧
    (b'.getPlayerD pid).firstCard = none ∧
    (b'.getPlayerD pid).secondCard = none ∧
    (b.ctrlAt first.1 first.2 = some pid →
      b'.ctrlAt first.1 first.2 = none ∧
      b'.queueAt first.1 first.2 = [] ∧
      b'.woken = b.woken ++ b.queueAt first.1 first.2) := by
  have hbnd := (Board.getPlayerD_cards_inRange b pid h.2.2 hp).1 first
    (Option.mem_def.2 hfc)
  have hFullX := Board.FullInv_errCleanup b pid first hp hbnd.1 hbnd.2 h
  have hmain :
      (((b.relinquishIfHeld pid first).rememberLingering pid first.1
        first.2).clearCardsOf pid).checkRepB = true ∧
      ((((b.relinquishIfHeld pid first).rememberLingering pid first.1
        first.2).clearCardsOf pid).getPlayerD pid).firstCard = none ∧
      ((((b.relinquishIfHeld pid first).rememberLingering pid first.1
        first.2).clearCardsOf pid).getPlayerD pid).secondCard = none ∧
      (b.ctrlAt first.1 first.2 = some pid →
        (((b.relinquishIfHeld pid first).rememberLingering pid first.1
          first.2).clearCardsOf pid).ctrlAt first.1 first.2 = none ∧
        (((b.relinquishIfHeld pid first).rememberLingering pid first.1
          first.2).clearCardsOf pid).queueAt first.1 first.2 = [] ∧
        (((b.relinquishIfHeld pid first).rememberLingering pid first.1
          first.2).clearCardsOf pid).woken
          = b.woken ++ b.queueAt first.1 first.2) := by
    refine ⟨Board.checkRepB_of_RepOk _ hFullX.1, ?_, ?_, ?_⟩
    · rw [Board.clearCardsOf_getPlayerD_self]
    · rw [Board.clearCardsOf_getPlayerD_self]
    · intro hheld
      have hrel := Board.relinquishIfHeld_held b pid first h.1.1 hbnd.1 hbnd.2 hheld
      refine ⟨?_, ?_, ?_⟩
      · rw [Board.clearCardsOf_ctrlAt, Board.rememberLingering_ctrlAt]
        exact hrel.1
      · rw [Board.clearCardsOf_queueAt, Board.rememberLingering_queueAt]
        exact hrel.2.1
      · rw [Board.clearCardsOf_woken, Board.rememberLingering_woken]
        exact hrel.2.2
  rw [Board.flipUp_second b pid first row col hrc hp hfc hsc] at hres
  simp only [Board.flipUpSecond] at hres
  split at hres
  · injection hres with hb hee
    subst hb
    exact hmain
  · split at hres
    · injection hres with hb hee
      subst hb
      exact hmain
    · split at hres
      · injection hres with hb hee
        subst hb
        exact hmain
      · by_cases hud : b.upAt row col = false
        · simp only [if_pos hud] at hres
          split at hres
          · split at hres
            · injection hres with hb hee
              exact (nomatch hee)
            · injection hres with hb hee
              injection hee with hee'
              subst hee'
              rcases he with hx | hx | hx
              · exact (nomatch hx)
              · exact (nomatch hx)
              · exact (nomatch hx)
          · split at hres
            · injection hres with hb hee
              exact (nomatch hee)
            · injection hres with hb hee
              injection hee with hee'
              subst hee'
              rcases he with hx | hx | hx
              · exact (nomatch hx)
              · exact (nomatch hx)
              · exact (nomatch hx)
        · simp only [if_neg hud] at hres
          split at hres
          · split at hres
            · injection hres with hb hee
              exact (nomatch hee)
            · injection hres with hb hee
              injection hee with hee'
              subst hee'
              rcases he with hx | hx | hx
              · exact (nomatch hx)
              · exact (nomatch hx)
              · exact (nomatch hx)
          · split at hres
            · injection hres with hb hee
              exact (nomatch hee)
            · injection hres with hb hee
              injection hee with hee'
              subst hee'
              rcases he with hx | hx | hx
              · exact (nomatch hx)
              · exact (nomatch hx)
              · exact (nomatch hx)

/-- C3 (witness): the theorem applied to the reachable state
`Fixtures.s1`, where `P1` reselects its own first card `(0,0)` and fails
with `SameCardTwice`. -/
theorem C3_witness :
    (Fixtures.s1.flipUp "P1" 0 0).1.checkRepB = true ∧
    (((Fixtures.s1.flipUp "P1" 0 0).1).getPlayerD "P1").firstCard = none ∧
    (((Fixtures.s1.flipUp "P1" 0 0).1).getPlayerD "P1").secondCard = none ∧
    (Fixtures.s1.ctrlAt 0 0 = some "P1" →
      (Fixtures.s1.flipUp "P1" 0 0).1.ctrlAt 0 0 = none ∧
      (Fixtures.s1.flipUp "P1" 0 0).1.queueAt 0 0 = [] ∧
      (Fixtures.s1.flipUp "P1" 0 0).1.woken
        = Fixtures.s1.woken ++ Fixtures.s1.queueAt 0 0) :=
  C3_failure_paths Fixtures.s1 (Fixtures.s1.flipUp "P1" 0 0).1 "P1" (0, 0) 0 0
    Err.sameCardTwice (by decide) (by decide) (by decide) (by decide) (by decide)
    (by decide) (Or.inr (Or.inr rfl))

/-- C4 (counterexample): on the reachable state `Fixtures.t2`, the
administrative `flipDown` releases control of `(0,0)` — the card stays on
the board — yet the waiter parked on that cell stays enqueued and is not
woken, refuting "no operation sets controller to none while leaving
enqueued waiters unwoken … this covers … the administrative flipDown". -/
theorem C4_counterexample :
    Fixtures.t2.ctrlAt 0 0 = some "P1" ∧
    Fixtures.t2.queueAt 0 0 = [0] ∧
    (Fixtures.t2.flipDown 0 0).1.ctrlAt 0 0 = none ∧
    (Fixtures.t2.flipDown 0 0).1.cardAt 0 0 ≠ none ∧
    (Fixtures.t2.flipDown 0 0).1.queueAt 0 0 = [0] ∧
    (Fixtures.t2.flipDown 0 0).1.woken = [] := by decide

/-- C4 (amended): the releases performed on the `flipUp` / cleanup paths
go through `notifyWaiters`, which wakes the cell's whole FIFO queue at
once and removes the queue entry: this holds for `notifyWaiters` itself,
for the 3-A removal of a matched card, and for the inline
release-if-still-held pattern of the failure paths.  The administrative
`flipDown`, by contrast, sets the controller to none without waking
anyone: the waiter queues and the woken log are left exactly as they
were. -/
theorem C4_release_wakes_queue (b : Board) (pid : String) (r c : Nat)
    (hd : Board.DimsOk b) (hr : r < b.rows) (hc : c < b.cols) :
    ((b.notifyWaiters r c).queueAt r c = [] ∧
      (b.notifyWaiters r c).woken = b.woken ++ b.queueAt r c) ∧
    ((b.removeCellAt r c).ctrlAt r c = none ∧
      (b.removeCellAt r c).queueAt r c = [] ∧
      (b.removeCellAt r c).woken = b.woken ++ b.queueAt r c) ∧
    (b.ctrlAt r c = some pid →
      (b.relinquishIfHeld pid (r, c)).ctrlAt r c = none ∧
      (b.relinquishIfHeld pid (r, c)).queueAt r c = [] ∧
      (b.relinquishIfHeld pid (r, c)).woken = b.woken ++ b.queueAt r c) ∧
    (b.upAt r c = true → b.cardAt r c ≠ none →
      (b.flipDown r c).1.ctrlAt r c = none ∧
      (b.flipDown r c).1.waiting = b.waiting ∧
      (b.flipDown r c).1.woken = b.woken) := by
  refine ⟨⟨?_, rfl⟩, ⟨?_, ?_, Board.removeCellAt_woken b r c⟩, ?_, ?_⟩
  · rw [Board.queueAt_notifyWaiters, if_pos rfl]
  · exact Board.removeCellAt_ctrlAt_self b r c hd hr hc
  · rw [Board.removeCellAt_queueAt, if_pos rfl]
  · intro hheld
    exact Board.relinquishIfHeld_held b pid (r, c) hd hr hc hheld
  · intro hup hcardne
    simp only [Board.flipDown]
    rw [if_neg (not_not_intro ⟨hr, hc⟩)]
    cases hcc : b.cardAt r c with
    | none => exact absurd hcc hcardne
    | some pic =>
      simp only [hcc]
      rw [if_neg (show ¬ b.upAt r c = false by
        rw [hup]; exact fun hx => nomatch hx)]
      refine ⟨?_, ?_, ?_⟩
      · split
        · rw [Board.notifyChange_ctrlAt]
          exact Board.ctrlAt_setCtrl_self _ r c none (Board.controller_isSome b hd hr hc)
        · exact Board.ctrlAt_setCtrl_self _ r c none (Board.controller_isSome b hd hr hc)
      · split
        · rfl
        · rfl
      · split
        · rfl
        · rfl

/-- C4 (witness): the amended theorem on the reachable state
`Fixtures.t2` at cell `(0,0)`. -/
theorem C4_witness :
    ((Fixtures.t2.notifyWaiters 0 0).queueAt 0 0 = [] ∧
      (Fixtures.t2.notifyWaiters 0 0).woken
        = Fixtures.t2.woken ++ Fixtures.t2.queueAt 0 0) ∧
    ((Fixtures.t2.removeCellAt 0 0).ctrlAt 0 0 = none ∧
      (Fixtures.t2.removeCellAt 0 0).queueAt 0 0 = [] ∧
      (Fixtures.t2.removeCellAt 0 0).woken
        = Fixtures.t2.woken ++ Fixtures.t2.queueAt 0 0) ∧
    (Fixtures.t2.ctrlAt 0 0 = some "P1" →
      (Fixtures.t2.relinquishIfHeld "P1" (0, 0)).ctrlAt 0 0 = none ∧
      (Fixtures.t2.relinquishIfHeld "P1" (0, 0)).queueAt 0 0 = [] ∧
      (Fixtures.t2.relinquishIfHeld "P1" (0, 0)).woken
        = Fixtures.t2.woken ++ Fixtures.t2.queueAt 0 0) ∧
    (Fixtures.t2.upAt 0 0 = true → Fixtures.t2.cardAt 0 0 ≠ none →
      (Fixtures.t2.flipDown 0 0).1.ctrlAt 0 0 = none ∧
      (Fixtures.t2.flipDown 0 0).1.waiting = Fixtures.t2.waiting ∧
      (Fixtures.t2.flipDown 0 0).1.woken = Fixtures.t2.woken) :=
  C4_release_wakes_queue Fixtures.t2 "P1" 0 0 (by decide) (by decide) (by decide)

/-- C8: a first flip on a face-down card (1-B) flips it up, takes
control, records the first card, increments the flip counter, and
delivers-and-clears the registered change watchers; a first flip taking
control of a face-up uncontrolled card (1-C) performs the same player and
controller updates but delivers nothing — the watcher map is left
intact. -/
theorem C8_firstFlip_1B_vs_1C (b : Board) (pid : String) (row col : Nat)
    (pic : String)
    (h : Board.FullInv b) (hp : b.hasPlayer pid = true)
    (hrc : row < b.rows ∧ col < b.cols)
    (hfc : (b.getPlayerD pid).firstCard = none)
    (hsc : (b.getPlayerD pid).secondCard = none)
    (hl : (lookupA b.lingering pid).getD [] = [])
    (hcard : b.cardAt row col = some pic) :
    (b.upAt row col = false →
      (b.flipUp pid row col).2 = FlipResult.ok ∧
      (b.flipUp pid row col).1.upAt row col = true ∧
      (b.flipUp pid row col).1.ctrlAt row col = some pid ∧
      ((b.flipUp pid row col).1.getPlayerD pid).firstCard = some (row, col) ∧
      ((b.flipUp pid row col).1.getPlayerD pid).flipCount
        = (b.getPlayerD pid).flipCount + 1 ∧
      (b.flipUp pid row col).1.changeResolvers = [] ∧
      (b.flipUp pid row col).1.delivered = b.delivered ++
        b.changeResolvers.flatMap (fun w =>
          w.2.map (fun t => (t, (b.flipUp pid row col).1.render w.1)))) ∧
    (b.upAt row col = true → b.ctrlAt row col = none →
      (b.flipUp pid row col).2 = FlipResult.ok ∧
      (b.flipUp pid row col).1.upAt row col = true ∧
      (b.flipUp pid row col).1.ctrlAt row col = some pid ∧
      ((b.flipUp pid row col).1.getPlayerD pid).firstCard = some (row, col) ∧
      ((b.flipUp pid row col).1.getPlayerD pid).flipCount
        = (b.getPlayerD pid).flipCount + 1 ∧
      (b.flipUp pid row col).1.changeResolvers = b.changeResolvers ∧
      (b.flipUp pid row col).1.delivered = b.delivered) := by
  have hflip : b.flipUp pid row col = Board.flipUpFirst b pid row col := by
    rw [Board.flipUp_clean_first b pid row col hrc hp hfc hsc,
      Board.cleanupPreviousPlay_id b pid hp hl hfc hsc]
  rw [hflip]
  have hcardne : b.cardAt row col ≠ none := by
    rw [hcard]
    exact fun hx => nomatch hx
  constructor
  · intro hdown
    have hb4 := Board.FullInv_rule1B b pid row col hp hrc.1 hrc.2 hcardne h
    have hrep := Board.checkRepB_of_RepOk _ hb4.1
    simp only [Board.flipUpFirst, hcard]
    rw [if_pos hdown, if_pos hrep]
    refine ⟨rfl, ?_, ?_, ?_, ?_, rfl, rfl⟩
    · show (b.setUp row col true).upAt row col = true
      exact Board.upAt_setUp_self b row col true
        (Board.faceUp_isSome b h.1.1 hrc.1 hrc.2)
    · show ((b.setUp row col true).setCtrl row col (some pid)).ctrlAt row col
        = some pid
      exact Board.ctrlAt_setCtrl_self _ row col (some pid)
        (Board.controller_isSome b h.1.1 hrc.1 hrc.2)
    · rw [Board.notifyChange_getPlayerD, Board.getPlayerD_setPlayerState_self]
    · rw [Board.notifyChange_getPlayerD, Board.getPlayerD_setPlayerState_self]
  · intro hup hctrl
    have hb4 := Board.FullInv_rule1C b pid row col hp hrc.1 hrc.2 hcardne hup h
    have hrep := Board.checkRepB_of_RepOk _ hb4.1
    simp only [Board.flipUpFirst, hcard]
    rw [if_neg (show ¬ b.upAt row col = false by
      rw [hup]; exact fun hx => nomatch hx)]
    simp only [hctrl]
    rw [if_pos hrep]
    refine ⟨rfl, ?_, ?_, ?_, ?_, rfl, rfl⟩
    · exact hup
    · show (b.setCtrl row col (some pid)).ctrlAt row col = some pid
      exact Board.ctrlAt_setCtrl_self b row col (some pid)
        (Board.controller_isSome b h.1.1 hrc.1 hrc.2)
    · rw [Board.getPlayerD_setPlayerState_self]
    · rw [Board.getPlayerD_setPlayerState_self]

/-- C8 (witness): the theorem on `Fixtures.boardP` at the face-down card
`(0,0)`. -/
theorem C8_witness :
    (Fixtures.boardP.upAt 0 0 = false →
      (Fixtures.boardP.flipUp "P1" 0 0).2 = FlipResult.ok ∧
      (Fixtures.boardP.flipUp "P1" 0 0).1.upAt 0 0 = true ∧
      (Fixtures.boardP.flipUp "P1" 0 0).1.ctrlAt 0 0 = some "P1" ∧
      (((Fixtures.boardP.flipUp "P1" 0 0).1).getPlayerD "P1").firstCard
        = some (0, 0) ∧
      (((Fixtures.boardP.flipUp "P1" 0 0).1).getPlayerD "P1").flipCount
        = (Fixtures.boardP.getPlayerD "P1").flipCount + 1 ∧
      (Fixtures.boardP.flipUp "P1" 0 0).1.changeResolvers = [] ∧
      (Fixtures.boardP.flipUp "P1" 0 0).1.delivered = Fixtures.boardP.delivered ++
        Fixtures.boardP.changeResolvers.flatMap (fun w =>
          w.2.map (fun t => (t, (Fixtures.boardP.flipUp "P1" 0 0).1.render w.1)))) ∧
    (Fixtures.boardP.upAt 0 0 = true → Fixtures.boardP.ctrlAt 0 0 = none →
      (Fixtures.boardP.flipUp "P1" 0 0).2 = FlipResult.ok ∧
      (Fixtures.boardP.flipUp "P1" 0 0).1.upAt 0 0 = true ∧
      (Fixtures.boardP.flipUp "P1" 0 0).1.ctrlAt 0 0 = some "P1" ∧
      (((Fixtures.boardP.flipUp "P1" 0 0).1).getPlayerD "P1").firstCard
        = some (0, 0) ∧
      (((Fixtures.boardP.flipUp "P1" 0 0).1).getPlayerD "P1").flipCount
        = (Fixtures.boardP.getPlayerD "P1").flipCount + 1 ∧
      (Fixtures.boardP.flipUp "P1" 0 0).1.changeResolvers
        = Fixtures.boardP.changeResolvers ∧
      (Fixtures.boardP.flipUp "P1" 0 0).1.delivered = Fixtures.boardP.delivered) :=
  C8_firstFlip_1B_vs_1C Fixtures.boardP "P1" 0 0 "A" (by decide) (by decide)
    (by decide) (by decide) (by decide) (by decide) (by decide)

/-- C2: once a matching pair is completed (both slots recorded, both
cells showing the same picture and controlled by the player), the next
first-flip call by that player removes both paired cells before
interpreting the new flip — each cell ends empty, face-down and
uncontrolled — and every waiter that was parked on either cell has been
woken. -/
theorem C2_pair_removed_on_next_flip (b : Board) (pid : String)
    (p1 p2 : Nat × Nat) (row col : Nat) (pic : String)
    (h : Board.FullInv b) (hp : b.hasPlayer pid = true)
    (hrc : row < b.rows ∧ col < b.cols)
    (hfc : (b.getPlayerD pid).firstCard = some p1)
    (hsc : (b.getPlayerD pid).secondCard = some p2)
    (hl : (lookupA b.lingering pid).getD [] = [])
    (hc1 : b.cardAt p1.1 p1.2 = some pic) (hc2 : b.cardAt p2.1 p2.2 = some pic)
    (hq1 : b.ctrlAt p1.1 p1.2 = some pid) (hq2 : b.ctrlAt p2.1 p2.2 = some pid)
    (hne : ¬ (p1.1 = p2.1 ∧ p1.2 = p2.2)) :
    (b.flipUp pid row col).1.cardAt p1.1 p1.2 = none ∧
    (b.flipUp pid row col).1.upAt p1.1 p1.2 = false ∧
    (b.flipUp pid row col).1.ctrlAt p1.1 p1.2 = none ∧
    (b.flipUp pid row col).1.cardAt p2.1 p2.2 = none ∧
    (b.flipUp pid row col).1.upAt p2.1 p2.2 = false ∧
    (b.flipUp pid row col).1.ctrlAt p2.1 p2.2 = none ∧
    (∀ t ∈ b.queueAt p1.1 p1.2, t ∈ (b.flipUp pid row col).1.woken) ∧
    (∀ t ∈ b.queueAt p2.1 p2.2, t ∈ (b.flipUp pid row col).1.woken) := by
  have hbnd1 := (Board.getPlayerD_cards_inRange b pid h.2.2 hp).1 p1
    (Option.mem_def.2 hfc)
  have hbnd2 := (Board.getPlayerD_cards_inRange b pid h.2.2 hp).2 p2
    (Option.mem_def.2 hsc)
  have hd := h.1.1
  rw [Board.flipUp_after_pair b pid p2 row col hrc hp hsc,
    Board.cleanupPreviousPlay_pair b pid p1 p2 pic hfc hsc hl hc1 hc2 hq1 hq2 hne]
  have hd1 : Board.DimsOk (b.removeCellAt p1.1 p1.2) :=
    (Board.FullInv_removeCellAt b p1.1 p1.2 h).1.1
  have hne' : ¬ (p2.1 = p1.1 ∧ p2.2 = p1.2) := fun hx => hne ⟨hx.1.symm, hx.2.symm⟩
  have hcard1 : ((b.removeCellAt p1.1 p1.2).removeCellAt
      p2.1 p2.2).cardAt p1.1 p1.2 = none := by
    rw [Board.removeCellAt_cardAt_other _ p2.1 p2.2 p1.1 p1.2 hne']
    exact Board.removeCellAt_cardAt_self b p1.1 p1.2 hd hbnd1.1 hbnd1.2
  have hup1 : ((b.removeCellAt p1.1 p1.2).removeCellAt
      p2.1 p2.2).upAt p1.1 p1.2 = false := by
    rw [Board.removeCellAt_upAt_other _ p2.1 p2.2 p1.1 p1.2 hne']
    exact Board.removeCellAt_upAt_self b p1.1 p1.2 hd hbnd1.1 hbnd1.2
  have hct1 : ((b.removeCellAt p1.1 p1.2).removeCellAt
      p2.1 p2.2).ctrlAt p1.1 p1.2 = none := by
    rw [Board.removeCellAt_ctrlAt_other _ p2.1 p2.2 p1.1 p1.2 hne']
    exact Board.removeCellAt_ctrlAt_self b p1.1 p1.2 hd hbnd1.1 hbnd1.2
  have hcard2 : ((b.removeCellAt p1.1 p1.2).removeCellAt
      p2.1 p2.2).cardAt p2.1 p2.2 = none :=
    Board.removeCellAt_cardAt_self _ p2.1 p2.2 hd1 hbnd2.1 hbnd2.2
  have hup2 : ((b.removeCellAt p1.1 p1.2).removeCellAt
      p2.1 p2.2).upAt p2.1 p2.2 = false :=
    Board.removeCellAt_upAt_self _ p2.1 p2.2 hd1 hbnd2.1 hbnd2.2
  have hct2 : ((b.removeCellAt p1.1 p1.2).removeCellAt
      p2.1 p2.2).ctrlAt p2.1 p2.2 = none :=
    Board.removeCellAt_ctrlAt_self _ p2.1 p2.2 hd1 hbnd2.1 hbnd2.2
  have hwoken : ((b.removeCellAt p1.1 p1.2).removeCellAt p2.1 p2.2).woken
      = b.woken ++ b.queueAt p1.1 p1.2 ++ b.queueAt p2.1 p2.2 := by
    rw [Board.removeCellAt_woken, Board.removeCellAt_woken,
      Board.removeCellAt_queueAt,
      if_neg (fun hx => hne' ⟨congrArg Prod.fst hx, congrArg Prod.snd hx⟩)]
  have hpbC : (((b.removeCellAt p1.1 p1.2).removeCellAt
      p2.1 p2.2).clearCardsOf pid).hasPlayer pid = true := by
    rw [Board.clearCardsOf_hasPlayer _ pid pid
      (show ((b.removeCellAt p1.1 p1.2).removeCellAt p2.1 p2.2).hasPlayer pid
        = true from hp)]
    exact hp
  have hid : ((((b.removeCellAt p1.1 p1.2).removeCellAt
      p2.1 p2.2).clearCardsOf pid).cleanupPreviousPlay pid)
      = ((b.removeCellAt p1.1 p1.2).removeCellAt p2.1 p2.2).clearCardsOf pid := by
    refine Board.cleanupPreviousPlay_id _ pid hpbC ?_ ?_ ?_
    · show (lookupA b.lingering pid).getD [] = []
      exact hl
    · rw [Board.clearCardsOf_getPlayerD_self]
    · rw [Board.clearCardsOf_getPlayerD_self]
  rw [hid]
  have hemp1 : ((((b.removeCellAt p1.1 p1.2).removeCellAt
      p2.1 p2.2).clearCardsOf pid)).cardAt p1.1 p1.2 = none := hcard1
  have hemp2 : ((((b.removeCellAt p1.1 p1.2).removeCellAt
      p2.1 p2.2).clearCardsOf pid)).cardAt p2.1 p2.2 = none := hcard2
  have hobs1 := Board.flipUpFirst_obs_of_empty
    (((b.removeCellAt p1.1 p1.2).removeCellAt p2.1 p2.2).clearCardsOf pid)
    pid row col p1.1 p1.2 hemp1
  have hobs2 := Board.flipUpFirst_obs_of_empty
    (((b.removeCellAt p1.1 p1.2).removeCellAt p2.1 p2.2).clearCardsOf pid)
    pid row col p2.1 p2.2 hemp2
  refine ⟨?_, ?_, ?_, ?_, ?_, ?_, ?_, ?_⟩
  · rw [Board.flipUpFirst_cardAt]
    exact hemp1
  · rw [hobs1.1]
    exact hup1
  · rw [hobs1.2.1]
    exact hct1
  · rw [Board.flipUpFirst_cardAt]
    exact hemp2
  · rw [hobs2.1]
    exact hup2
  · rw [hobs2.2.1]
    exact hct2
  · intro t ht
    rw [Board.flipUpFirst_woken, Board.clearCardsOf_woken, hwoken]
    exact List.mem_append.2 (Or.inl (List.mem_append.2 (Or.inr ht)))
  · intro t ht
    rw [Board.flipUpFirst_woken, Board.clearCardsOf_woken, hwoken]
    exact List.mem_append.2 (Or.inr ht)

/-- C2 (witness): the theorem on the reachable state `Fixtures.s2`,
where `P1` has just completed the matching pair `(0,0)`, `(0,1)` and then
flips `(1,0)`. -/
theorem C2_witness :
    (Fixtures.s2.flipUp "P1" 1 0).1.cardAt 0 0 = none ∧
    (Fixtures.s2.flipUp "P1" 1 0).1.upAt 0 0 = false ∧
    (Fixtures.s2.flipUp "P1" 1 0).1.ctrlAt 0 0 = none ∧
    (Fixtures.s2.flipUp "P1" 1 0).1.cardAt 0 1 = none ∧
    (Fixtures.s2.flipUp "P1" 1 0).1.upAt 0 1 = false ∧
    (Fixtures.s2.flipUp "P1" 1 0).1.ctrlAt 0 1 = none ∧
    (∀ t ∈ Fixtures.s2.queueAt 0 0, t ∈ (Fixtures.s2.flipUp "P1" 1 0).1.woken) ∧
    (∀ t ∈ Fixtures.s2.queueAt 0 1, t ∈ (Fixtures.s2.flipUp "P1" 1 0).1.woken) :=
  C2_pair_removed_on_next_flip Fixtures.s2 "P1" (0, 0) (0, 1) 1 0 "A"
    (by decide) (by decide) (by decide) (by decide) (by decide) (by decide)
    (by decide) (by decide) (by decide) (by decide) (by decide)

/-- C9 (counterexample): when `f` produces a whitespace-carrying picture,
`map` fails with `RepViolation` (the re-run `checkRep` assertion), not
`InvalidCard`, and the offending replacements are kept on the board. -/
theorem C9_counterexample :
    (Fixtures.boardAA.map (fun _ => "a b")).2 = some Err.repViolation ∧
    (∀ n, (Fixtures.boardAA.map (fun _ => "a b")).2 ≠ some (Err.invalidCard n)) ∧
    (Fixtures.boardAA.map (fun _ => "a b")).1.cardAt 0 0 = some "a b" := by
  refine ⟨by decide, ?_, by decide⟩
  intro n hn
  have h1 : (Fixtures.boardAA.map (fun _ => "a b")).2 = some Err.repViolation := by
    decide
  rw [h1] at hn
  injection hn with hn'
  exact (nomatch hn')

/-- C9 (amended): `map(f)` applies `f` to every non-empty card exactly
once, in row-major order (the trace of invocations is exactly the
row-major list of non-empty positions), replacing each picture in place
and leaving empty cells unchanged; on completion the rep invariant is
re-checked against the transformed board and, on success, the watchers
are notified; when the transformed board violates the rep invariant —
e.g. because `f` broke the non-empty no-whitespace picture contract —
`map` fails with `RepViolation`, keeping the replacements. -/
theorem C9_map_rowMajor (b : Board) (f : String → String)
    (h : Board.DimsOk b) :
    (b.mapTrace f).2 = Board.traceSpec b ∧
    (∀ r, r < b.rows → ∀ c, c < b.cols →
      (b.map f).1.cardAt r c = (b.cardAt r c).map f) ∧
    ((b.map f).2 = none ↔ Board.checkRepB (Board.mapSpec b f) = true) ∧
    ((b.map f).2 = none → (b.map f).1 = (Board.mapSpec b f).notifyChange) ∧
    ((b.map f).2 ≠ none →
      (b.map f).2 = some Err.repViolation ∧ (b.map f).1 = Board.mapSpec b f) := by
  have hml := Board.mapTrace_eq b f h.2.1.1 h.2.2.1
  refine ⟨?_, ?_, ?_, ?_, ?_⟩
  · rw [hml]
  · intro r hr c hc
    unfold Board.map
    rw [hml]
    show (if Board.checkRepB (Board.mapSpec b f)
      then ((Board.mapSpec b f).notifyChange, (none : Option Err))
      else (Board.mapSpec b f, some Err.repViolation)).1.cardAt r c
      = (b.cardAt r c).map f
    split
    · rw [Board.notifyChange_cardAt]
      exact Board.cardAt_mapSpec b f r c
    · exact Board.cardAt_mapSpec b f r c
  · unfold Board.map
    rw [hml]
    show (if Board.checkRepB (Board.mapSpec b f)
      then ((Board.mapSpec b f).notifyChange, (none : Option Err))
      else (Board.mapSpec b f, some Err.repViolation)).2 = none
      ↔ Board.checkRepB (Board.mapSpec b f) = true
    split
    · rename_i hcond
      simp [hcond]
    · rename_i hcond
      simp [hcond]
  · unfold Board.map
    rw [hml]
    show (if Board.checkRepB (Board.mapSpec b f)
      then ((Board.mapSpec b f).notifyChange, (none : Option Err))
      else (Board.mapSpec b f, some Err.repViolation)).2 = none → _
    split
    · intro _
      rfl
    · intro hn
      exact (nomatch hn)
  · unfold Board.map
    rw [hml]
    show (if Board.checkRepB (Board.mapSpec b f)
      then ((Board.mapSpec b f).notifyChange, (none : Option Err))
      else (Board.mapSpec b f, some Err.repViolation)).2 ≠ none → _
    split
    · intro hne
      exact absurd rfl hne
    · intro _
      exact ⟨rfl, rfl⟩

/-- C9 (witness): the amended theorem on `Fixtures.boardAA` with the
identity transform. -/
theorem C9_witness :
    (Fixtures.boardAA.mapTrace (fun s => s)).2 = Board.traceSpec Fixtures.boardAA ∧
    (∀ r, r < Fixtures.boardAA.rows → ∀ c, c < Fixtures.boardAA.cols →
      (Fixtures.boardAA.map (fun s => s)).1.cardAt r c
        = (Fixtures.boardAA.cardAt r c).map (fun s => s)) ∧
    ((Fixtures.boardAA.map (fun s => s)).2 = none ↔
      Board.checkRepB (Board.mapSpec Fixtures.boardAA (fun s => s)) = true) ∧
    ((Fixtures.boardAA.map (fun s => s)).2 = none →
      (Fixtures.boardAA.map (fun s => s)).1
        = (Board.mapSpec Fixtures.boardAA (fun s => s)).notifyChange) ∧
    ((Fixtures.boardAA.map (fun s => s)).2 ≠ none →
      (Fixtures.boardAA.map (fun s => s)).2 = some Err.repViolation ∧
      (Fixtures.boardAA.map (fun s => s)).1
        = Board.mapSpec Fixtures.boardAA (fun s => s)) :=
  C9_map_rowMajor Fixtures.boardAA (fun s => s) (by decide)

/-- C1: after each completed public operation — `registerPlayer`,
`flipUp`, `flipDown`, `map`, and construction via `parseFromFile` — the
board satisfies the spec §8 invariants: an empty cell is face-down and
uncontrolled, a controlled cell is face-up, non-empty and controlled by a
registered player, and a player with no first card has no second card. -/
theorem C1_public_ops_invariants (b : Board) (h : Board.FullInv b)
    (id d pid : String) (row col : Nat) (f : String → String)
    (text : String) (b0 : Board) :
    Board.ClaimInv (b.registerPlayer id d).1 ∧
    Board.ClaimInv (b.flipUp pid row col).1 ∧
    Board.ClaimInv (b.flipDown row col).1 ∧
    Board.ClaimInv (b.map f).1 ∧
    (parseText text = Except.ok b0 → Board.ClaimInv b0) := by
  refine ⟨(Board.FullInv_registerPlayer b id d h).2.1,
    (Board.FullInv_flipUp b pid row col h).2.1,
    (Board.FullInv_flipDown b row col h).2.1,
    Board.ClaimInv_map b f h, ?_⟩
  intro hok
  obtain ⟨hd, layout, hlines, hmh, hr1, hc1, hlen, hval, hb⟩ := parseText_ok_inv hok
  rw [hb]
  exact Board.ClaimInv_ofLayout b0.rows b0.cols layout

/-- C1 (witness): the theorem on the reachable state `Fixtures.boardP`
with one instance of each operation. -/
theorem C1_witness :
    Board.ClaimInv (Fixtures.boardP.registerPlayer "P3" "P3").1 ∧
    Board.ClaimInv (Fixtures.boardP.flipUp "P1" 0 0).1 ∧
    Board.ClaimInv (Fixtures.boardP.flipDown 0 0).1 ∧
    Board.ClaimInv (Fixtures.boardP.map (fun s => s)).1 ∧
    (parseText "1x1\nA\n" = Except.ok Fixtures.boardNone →
      Board.ClaimInv Fixtures.boardNone) :=
  C1_public_ops_invariants Fixtures.boardP (by decide) "P3" "P3" "P1" 0 0
    (fun s => s) "1x1\nA\n" Fixtures.boardNone

end MemoryScramble
